import Mathlib

/-!
Verification of the LeagueLegacy import pipeline.

This file gives a shallow embedding of the fantasy-league history tracker's
import/reconciliation pipeline (src/backend/app):

* the relational rows of src/backend/app/db/models.py (`LeagueRow`, `SeasonRow`,
  `OwnerRow`, `TeamRow`, `MatchupRow`, `TradeRow`, collected in `DB`);
* the Sleeper importer, src/backend/app/services/sleeper_service.py together
  with the pure helpers of src/backend/app/services/sleeper_client.py;
* the Yahoo importer, src/backend/app/services/yahoo_service.py over the
  records produced by the yahoo_client response parsers;
* the owner-merge endpoint of src/backend/app/api/owners.py and the league-key
  validation of src/backend/app/api/yahoo.py.

Remote HTTP data is modelled as total functions from identifiers to the
already-decoded JSON payloads (the services assume every issued request
succeeds; per-record absence is modelled with `Option`, matching the
`.get(...)` reads of the Python source).  Python floats are modelled as exact
rationals, Python `or`-truthiness on strings with `pyOr`/`strTruthy`, and
SQLAlchemy's query-first-then-mutate-or-insert pattern with `upsertBy`.
-/

namespace LeagueLegacy

/-! ## Python-style helpers -/

/-- Python truthiness of an optional string: `None` and `""` are falsy. -/
def strTruthy : Option String → Bool
  | none => false
  | some s => !(s == "")

/-- Python `a or b` on optional strings. -/
def pyOr (a b : Option String) : Option String := if strTruthy a then a else b

/-- Python `a or d` where `d` is a plain string. -/
def strOr (a : Option String) (d : String) : String :=
  match a with
  | some s => if s == "" then d else s
  | none => d

/-- Python `str` of an optional integer (`str(None) = "None"`), as used in
f-string interpolation of possibly missing fields. -/
def optStr : Option Nat → String
  | none => "None"
  | some n => toString n

/-! ## Generic list operations

SQLAlchemy's `query(...).first()` is `List.find?`; mutating the returned ORM
object in place is `updFirst`; `db.delete(obj)` is `removeFirst`. -/

/-- Apply `f` to the first element satisfying `p`, leave the rest unchanged. -/
def updFirst (p : α → Bool) (f : α → α) : List α → List α
  | [] => []
  | x :: xs => if p x then f x :: xs else x :: updFirst p f xs

/-- Remove the first element satisfying `p`. -/
def removeFirst (p : α → Bool) : List α → List α
  | [] => []
  | x :: xs => if p x then xs else x :: removeFirst p xs

/-- The services' upsert pattern: query the first row matching `p`; if found,
apply the field updates `f` to it in place; otherwise construct a fresh row
`mk n` (with `n` the next autoincrement id), apply the same field updates and
append it.  Returns the new table, the written row and the next fresh id. -/
def upsertBy (p : α → Bool) (mk : Nat → α) (f : α → α) (rows : List α) (n : Nat) :
    List α × α × Nat :=
  match rows.find? p with
  | some a => (updFirst p f rows, f a, n)
  | none => (rows ++ [f (mk n)], f (mk n), n + 1)

/-! ## The data model (src/backend/app/db/models.py) -/

/-- Supported fantasy platforms. -/
inductive Platform
  | yahoo
  | sleeper
deriving DecidableEq, Repr

/-- A row of the `leagues` table. -/
structure LeagueRow where
  id : Nat
  name : String
  platform : Platform
  platformLeagueId : String
  teamCount : Option Nat
  scoringType : Option String
deriving DecidableEq, Repr

/-- A row of the `seasons` table. -/
structure SeasonRow where
  id : Nat
  leagueId : Nat
  year : Nat
  championTeamId : Option Nat
  runnerUpTeamId : Option Nat
  regularSeasonWinnerId : Option Nat
  regularSeasonWeeks : Option Int
  playoffWeeks : Option Int
  playoffTeamCount : Option Int
  isComplete : Bool
deriving DecidableEq, Repr

/-- A row of the `owners` table. -/
structure OwnerRow where
  id : Nat
  name : String
  displayName : Option String
  avatarUrl : Option String
  yahooUserId : Option String
  sleeperUserId : Option String
deriving DecidableEq, Repr

/-- A row of the `teams` table. -/
structure TeamRow where
  id : Nat
  seasonId : Nat
  ownerId : Nat
  name : String
  platformTeamId : Option String
  wins : Int
  losses : Int
  ties : Int
  pointsFor : ℚ
  pointsAgainst : ℚ
  regularSeasonRank : Option Int
  finalRank : Option Int
  madePlayoffs : Bool
  longestWinStreak : Int
deriving DecidableEq, Repr

/-- A row of the `matchups` table. -/
structure MatchupRow where
  id : Nat
  seasonId : Nat
  week : Nat
  homeTeamId : Nat
  awayTeamId : Nat
  homeScore : ℚ
  awayScore : ℚ
  isPlayoff : Bool
  isChampionship : Bool
  isConsolation : Bool
  winnerTeamId : Option Nat
  isTie : Bool
deriving DecidableEq, Repr

/-- One entry of the structured `assets_exchanged` blob of a trade: what one
participant (keyed by its platform roster/team key) received and sent. -/
structure AssetEntry where
  key : String
  received : List String
  sent : List String
deriving DecidableEq, Repr

/-- A row of the `trades` table, with its `trade_teams` association rows
inlined as `teamIds`.  `tradeDate` keeps the raw timestamp (seconds) that
`datetime.fromtimestamp` would decode. -/
structure TradeRow where
  id : Nat
  seasonId : Nat
  platformTradeId : Option String
  tradeDate : ℚ
  week : Option Nat
  assetsExchanged : Option (List AssetEntry)
  status : String
  teamIds : List Nat
deriving DecidableEq, Repr

/-- The relational store: one list per table plus the autoincrement counters. -/
structure DB where
  leagues : List LeagueRow
  seasons : List SeasonRow
  owners : List OwnerRow
  teams : List TeamRow
  matchups : List MatchupRow
  trades : List TradeRow
  nextLeagueId : Nat
  nextSeasonId : Nat
  nextOwnerId : Nat
  nextTeamId : Nat
  nextMatchupId : Nat
  nextTradeId : Nat
deriving DecidableEq, Repr

/-- A freshly created store. -/
def emptyDB : DB :=
  { leagues := [], seasons := [], owners := [], teams := [], matchups := [],
    trades := [], nextLeagueId := 1, nextSeasonId := 1, nextOwnerId := 1,
    nextTeamId := 1, nextMatchupId := 1, nextTradeId := 1 }

/-! ## Sleeper remote data (payload shapes of sleeper_client.py) -/

/-- The fields of a Sleeper `GET /league/{id}` payload that the services read
(each read with `.get`, hence `Option`). -/
structure SleeperLeagueData where
  name : Option String
  season : Option Nat
  totalRosters : Option Nat
  scoringRec : Option ℚ
  status : Option String
  playoffWeekStart : Option Nat
  playoffRoundTypePlayoff : Option Int
  playoffTeams : Option Int
  previousLeagueId : Option String
deriving Repr

/-- One entry of a Sleeper `GET /league/{id}/users` payload. -/
structure SleeperUser where
  userId : Option String
  username : Option String
  displayName : Option String
  avatar : Option String
deriving Repr

/-- The `settings` object of a Sleeper roster. -/
structure RosterSettings where
  wins : Option Int
  losses : Option Int
  ties : Option Int
  fpts : Option ℚ
  fptsDecimal : Option ℚ
  fptsAgainst : Option ℚ
  fptsAgainstDecimal : Option ℚ
deriving Repr

/-- One entry of a Sleeper `GET /league/{id}/rosters` payload. -/
structure SleeperRoster where
  rosterId : Nat
  ownerId : Option String
  settings : RosterSettings
deriving Repr

/-- One entry of a Sleeper `GET /league/{id}/matchups/{week}` payload. -/
structure SleeperMatchupEntry where
  rosterId : Nat
  matchupId : Option Nat
  points : Option ℚ
deriving Repr

/-- One traded draft pick inside a Sleeper transaction. -/
structure SleeperPick where
  season : Option Nat
  round : Option Nat
  ownerId : Option Nat
  previousOwnerId : Option Nat
deriving Repr

/-- One entry of a Sleeper `GET /league/{id}/transactions/{week}` payload.
`adds` and `drops` are the insertion-ordered `player_id -> roster_id` maps. -/
structure SleeperTransaction where
  transactionId : Option String
  ttype : Option String
  status : Option String
  rosterIds : List Nat
  adds : List (String × Nat)
  drops : List (String × Nat)
  draftPicks : List SleeperPick
  created : Option ℚ
deriving Repr

/-- One game of a Sleeper winners-bracket payload. -/
structure BracketGame where
  r : Option Nat
  m : Option Nat
  w : Option Nat
  l : Option Nat
deriving Repr

/-- The Sleeper API as seen by the service: a total map from identifiers to
decoded payloads, plus the ambient current year (used by
`datetime.now().year` defaults) and the player-name cache. -/
structure SleeperRemote where
  league : String → SleeperLeagueData
  users : String → List SleeperUser
  rosters : String → List SleeperRoster
  matchups : String → Nat → List SleeperMatchupEntry
  transactions : String → Nat → List SleeperTransaction
  winnersBracket : String → List BracketGame
  playerName : String → String
  playersLoaded : Bool
  nowYear : Nat

/-! ## Sleeper client helpers (sleeper_client.py static methods) -/

/-- `SleeperClient.get_avatar_url`. -/
def getAvatarUrl : Option String → Option String
  | none => none
  | some a => if a == "" then none else some ("https://sleepercdn.com/avatars/" ++ a)

/-- `SleeperClient.get_previous_league_id`: a missing or empty
`previous_league_id` terminates the chain. -/
def getPreviousLeagueId (ld : SleeperLeagueData) : Option String :=
  match ld.previousLeagueId with
  | none => none
  | some p => if p == "" then none else some p

/-- `SleeperClient.get_league_history_chain`.  The source's `while current_id`
loop has no cycle guard; the embedding bounds it with explicit fuel, and the
theorems about it assume the chain terminates within the fuel. -/
def getLeagueHistoryChain (rem : SleeperRemote) : Nat → Option String → List String
  | _, none => []
  | 0, some _ => []
  | fuel + 1, some cur =>
      if cur == "" then []
      else cur :: getLeagueHistoryChain rem fuel (getPreviousLeagueId (rem.league cur))

/-- `SleeperClient.get_championship_round`: the maximum round number of a
nonempty bracket, `0` for an empty one. -/
def getChampionshipRound (bracket : List BracketGame) : Nat :=
  match bracket with
  | [] => 0
  | _ => (bracket.map (fun g => g.r.getD 0)).foldl max 0

/-- Python `min(..., key=lambda m: m.get("m", 999))`: the first element
attaining the minimal match index. -/
def minByMatchIndex (xs : List BracketGame) : Option BracketGame :=
  xs.foldl
    (fun acc g =>
      match acc with
      | none => some g
      | some b => if g.m.getD 999 < b.m.getD 999 then some g else some b)
    none

/-- `SleeperClient.get_championship_matchup`: the single game of the top
round, or the one with the lowest match index when the top round is shared. -/
def getChampionshipMatchup (bracket : List BracketGame) : Option BracketGame :=
  match bracket with
  | [] => none
  | _ =>
    let round := getChampionshipRound bracket
    if round == 0 then none
    else
      match bracket.filter (fun g => g.r.getD 0 == round) with
      | [g] => some g
      | champs => minByMatchIndex champs

/-- `SleeperClient.get_champion_roster_id`. -/
def getChampionRosterId (bracket : List BracketGame) : Option Nat :=
  (getChampionshipMatchup bracket).bind (fun g => g.w)

/-- `SleeperClient.get_runner_up_roster_id`. -/
def getRunnerUpRosterId (bracket : List BracketGame) : Option Nat :=
  (getChampionshipMatchup bracket).bind (fun g => g.l)

/-! ## Sleeper service (sleeper_service.py) -/

/-- The natural key of a Sleeper league row: `(platform, platform_league_id)`. -/
def sleeperLeagueKey (lid : String) (x : LeagueRow) : Bool :=
  x.platform == .sleeper && x.platformLeagueId == lid

/-- A league row as first constructed by `SleeperService.import_league`
(mutable fields are assigned right after construction, see `updLeagueRow`). -/
def newLeagueRow (i : Nat) (lid : String) : LeagueRow :=
  { id := i, name := "", platform := .sleeper, platformLeagueId := lid,
    teamCount := none, scoringType := none }

/-- The scoring type derived from `scoring_settings.rec`. -/
def scoringTypeOf (recVal : Option ℚ) : String :=
  if recVal.getD 0 == 1 then "PPR"
  else if recVal.getD 0 == (1 : ℚ) / 2 then "Half PPR"
  else "Standard"

/-- The mutable-field updates `SleeperService.import_league` applies to the
found-or-created league row. -/
def updLeagueRow (ld : SleeperLeagueData) (x : LeagueRow) : LeagueRow :=
  { x with name := ld.name.getD "Unknown League",
           teamCount := ld.totalRosters,
           scoringType := some (scoringTypeOf ld.scoringRec) }

/-- `SleeperService.import_league`: upsert the league row keyed by
`(platform, platform_league_id)`.  Returns the written row. -/
def importLeague (rem : SleeperRemote) (lid : String) (db : DB) : DB × LeagueRow :=
  let ld := rem.league lid
  let u := upsertBy (sleeperLeagueKey lid) (fun i => newLeagueRow i lid) (updLeagueRow ld)
    db.leagues db.nextLeagueId
  ({ db with leagues := u.1, nextLeagueId := u.2.2 }, u.2.1)

/-- The natural key of a season row: `(league_id, year)`. -/
def seasonKey (lgId year : Nat) (s : SeasonRow) : Bool :=
  s.leagueId == lgId && s.year == year

/-- A season row as first constructed by `SleeperService.import_season`. -/
def newSeasonRow (i lgId year : Nat) : SeasonRow :=
  { id := i, leagueId := lgId, year := year, championTeamId := none,
    runnerUpTeamId := none, regularSeasonWinnerId := none,
    regularSeasonWeeks := none, playoffWeeks := none, playoffTeamCount := none,
    isComplete := false }

/-- The mutable-field updates `SleeperService.import_season` applies. -/
def updSeasonRow (ld : SleeperLeagueData) (s : SeasonRow) : SeasonRow :=
  { s with regularSeasonWeeks := some ((ld.playoffWeekStart.getD 14 : Int) - 1),
           playoffWeeks := some (ld.playoffRoundTypePlayoff.getD 1),
           playoffTeamCount := some (ld.playoffTeams.getD 6),
           isComplete := ld.status == some "complete" }

/-- `SleeperService.import_season`: ensure the league exists (unless an
existing league row id is handed in, as historical imports do) and upsert the
season keyed by `(league_id, year)`.  Returns the season row id and year. -/
def importSeason (rem : SleeperRemote) (lid : String) (lg? : Option Nat) (db : DB) :
    DB × Nat × Nat :=
  let s :=
    match lg? with
    | some i => (db, i)
    | none =>
      let r := importLeague rem lid db
      (r.1, r.2.id)
  let db := s.1
  let lgId := s.2
  let ld := rem.league lid
  let year := ld.season.getD rem.nowYear
  let u := upsertBy (seasonKey lgId year) (fun i => newSeasonRow i lgId year)
    (updSeasonRow ld) db.seasons db.nextSeasonId
  ({ db with seasons := u.1, nextSeasonId := u.2.2 }, u.2.1.id, year)

/-- The immutable attributes of a team ORM object that later import steps
read off the objects returned by `import_users_and_rosters`. -/
structure TeamRef where
  id : Nat
  platformTeamId : String
  seasonId : Nat
deriving DecidableEq, Repr

/-- The `user_id -> user` dict built by `import_users_and_rosters` (a Python
dict comprehension: the last entry with a given key wins). -/
def userLookup (users : List SleeperUser) (uid : String) : Option SleeperUser :=
  ((users.filter (fun u => strTruthy u.userId)).reverse).find? (fun u => u.userId == some uid)

/-- The natural key of a Sleeper-resolved owner row. -/
def ownerKey (uid : String) (o : OwnerRow) : Bool := o.sleeperUserId == some uid

/-- An owner row as constructed on first sighting of a Sleeper user. -/
def newOwnerRow (u : Option SleeperUser) (uid : String) (i : Nat) : OwnerRow :=
  let disp := u.bind (fun x => x.displayName)
  let uname := u.bind (fun x => x.username)
  { id := i,
    name := strOr disp (strOr uname "Unknown"),
    displayName := disp,
    avatarUrl := getAvatarUrl (u.bind (fun x => x.avatar)),
    yahooUserId := none,
    sleeperUserId := some uid }

/-- The owner-info refresh applied to an already known owner: the display
name is overwritten only by a truthy incoming value, the avatar only when the
incoming avatar URL is present. -/
def updOwnerRow (u : Option SleeperUser) (o : OwnerRow) : OwnerRow :=
  let o := { o with displayName := pyOr (u.bind (fun x => x.displayName)) o.displayName }
  match getAvatarUrl (u.bind (fun x => x.avatar)) with
  | some a => { o with avatarUrl := some a }
  | none => o

/-- The natural key of a team row: `(season_id, platform_team_id)`. -/
def teamKey (sid : Nat) (ptid : String) (t : TeamRow) : Bool :=
  t.seasonId == sid && t.platformTeamId == some ptid

/-- A team row as first constructed by `import_users_and_rosters`. -/
def newTeamRow (i sid oid : Nat) (nm ptid : String) : TeamRow :=
  { id := i, seasonId := sid, ownerId := oid, name := nm,
    platformTeamId := some ptid, wins := 0, losses := 0, ties := 0,
    pointsFor := 0, pointsAgainst := 0, regularSeasonRank := none,
    finalRank := none, madePlayoffs := false, longestWinStreak := 0 }

/-- The updates applied to the found-or-created team row: re-point the owner
and copy the win/loss record and points from the roster settings.  Sleeper
splits fractional points into a whole part and a hundredths part; they are
recombined as `fpts + fpts_decimal / 100`. -/
def updSleeperTeamRow (oid : Nat) (st : RosterSettings) (t : TeamRow) : TeamRow :=
  { t with ownerId := oid,
           wins := st.wins.getD 0, losses := st.losses.getD 0, ties := st.ties.getD 0,
           pointsFor := st.fpts.getD 0 + st.fptsDecimal.getD 0 / 100,
           pointsAgainst := st.fptsAgainst.getD 0 + st.fptsAgainstDecimal.getD 0 / 100 }

/-- The body of the roster loop of `import_users_and_rosters`: skip rosters
without an owner id, find-or-create the owner by Sleeper user id, then upsert
the team keyed by `(season_id, str(roster_id))`. -/
def processRoster (users : List SleeperUser) (sid : Nat) (ro : SleeperRoster) (db : DB) :
    DB × List TeamRef :=
  match ro.ownerId with
  | none => (db, [])
  | some uid =>
    if uid == "" then (db, [])
    else
      let u := userLookup users uid
      let ou :=
        match db.owners.find? (ownerKey uid) with
        | some o => (updFirst (ownerKey uid) (updOwnerRow u) db.owners, o.id, db.nextOwnerId)
        | none => (db.owners ++ [newOwnerRow u uid db.nextOwnerId], db.nextOwnerId,
                   db.nextOwnerId + 1)
      let oid := ou.2.1
      let ptid := toString ro.rosterId
      let nm := strOr (u.bind (fun x => x.displayName))
                  (strOr (u.bind (fun x => x.username)) ("Team " ++ ptid))
      let tu := upsertBy (teamKey sid ptid) (fun i => newTeamRow i sid oid nm ptid)
        (updSleeperTeamRow oid ro.settings) db.teams db.nextTeamId
      ({ db with owners := ou.1, nextOwnerId := ou.2.2, teams := tu.1,
                 nextTeamId := tu.2.2 },
       [⟨tu.2.1.id, ptid, tu.2.1.seasonId⟩])

/-- The roster loop of `import_users_and_rosters`. -/
def processRosters (users : List SleeperUser) (sid : Nat) :
    List SleeperRoster → DB → DB × List TeamRef
  | [], db => (db, [])
  | ro :: rest, db =>
    let r := processRoster users sid ro db
    let r' := processRosters users sid rest r.1
    (r'.1, r.2 ++ r'.2)

/-- `SleeperService.import_users_and_rosters`. -/
def importUsersAndRosters (rem : SleeperRemote) (lid : String) (lg? : Option Nat)
    (db : DB) : DB × List TeamRef :=
  let s := importSeason rem lid lg? db
  processRosters (rem.users lid) s.2.1 (rem.rosters lid) s.1

/-- The `platform_team_id -> team` dict built from the imported team objects
(a Python dict comprehension: the last entry with a given key wins). -/
def teamRefLookup (ts : List TeamRef) (k : String) : Option TeamRef :=
  ts.reverse.find? (fun t => t.platformTeamId == k)

/-- As `teamRefLookup`, but skipping teams with a falsy `platform_team_id`
(the comprehensions written with an `if t.platform_team_id` guard).  The refs
produced by the importers always carry a nonempty key, so the guard only
drops nothing, but it is kept for fidelity. -/
def teamRefLookupT (ts : List TeamRef) (k : String) : Option TeamRef :=
  (ts.filter (fun t => !(t.platformTeamId == ""))).reverse.find?
    (fun t => t.platformTeamId == k)

/-- First-occurrence deduplication, the key order of a Python dict built by
repeated insertion. -/
def dedupFirst (seen : List Nat) : List Nat → List Nat
  | [] => []
  | x :: xs =>
    if seen.contains x then dedupFirst seen xs else x :: dedupFirst (x :: seen) xs

/-- Group a week's matchup entries by `matchup_id`, in first-occurrence
order, dropping entries without a `matchup_id`. -/
def weekMatchupGroups (es : List SleeperMatchupEntry) :
    List (Nat × List SleeperMatchupEntry) :=
  (dedupFirst [] (es.filterMap (fun e => e.matchupId))).map
    (fun k => (k, es.filter (fun e => e.matchupId == some k)))

/-- `SleeperClient.get_all_matchups_for_season`: weeks `1..total_weeks` that
returned a nonempty matchup list, in ascending order. -/
def sleeperAllMatchups (rem : SleeperRemote) (lid : String) (tw : Nat) :
    List (Nat × List SleeperMatchupEntry) :=
  (List.range' 1 tw).filterMap (fun w =>
    let es := rem.matchups lid w
    if es.isEmpty then none else some (w, es))

/-- The flattened `(week, participants)` group list the matchup loop of
`import_matchups` iterates over. -/
def sleeperGroupList (rem : SleeperRemote) (lid : String) (tw : Nat) :
    List (Nat × List SleeperMatchupEntry) :=
  (sleeperAllMatchups rem lid tw).flatMap
    (fun p => (weekMatchupGroups p.2).map (fun g => (p.1, g.2)))

/-- The natural key of a matchup row:
`(season_id, week, home_team_id, away_team_id)`. -/
def matchupKey (sid w h a : Nat) (mrow : MatchupRow) : Bool :=
  mrow.seasonId == sid && mrow.week == w && mrow.homeTeamId == h && mrow.awayTeamId == a

/-- A matchup row as first constructed by `import_matchups`. -/
def newMatchupRow (i sid w h a : Nat) : MatchupRow :=
  { id := i, seasonId := sid, week := w, homeTeamId := h, awayTeamId := a,
    homeScore := 0, awayScore := 0, isPlayoff := false, isChampionship := false,
    isConsolation := false, winnerTeamId := none, isTie := false }

/-- The winner determination of `SleeperService.import_matchups`: the strictly
higher score wins, equal scores are a tie with no winner. -/
def sleeperWinnerTie (t1 t2 : Nat) (s1 s2 : ℚ) : Option Nat × Bool :=
  if s1 > s2 then (some t1, false)
  else if s2 > s1 then (some t2, false)
  else (none, true)

/-- The updates the Sleeper matchup importer writes onto the row. -/
def updSleeperMatchupRow (s1 s2 : ℚ) (winner : Option Nat) (tie ip : Bool)
    (mrow : MatchupRow) : MatchupRow :=
  { mrow with homeScore := s1, awayScore := s2, winnerTeamId := winner,
              isTie := tie, isPlayoff := ip }

/-- The body of the matchup-group loop of `import_matchups`: only groups of
exactly two participants whose rosters map to known teams form a matchup;
`points` defaults to `0.0`; a game is a playoff game when its week is at or
past the league's `playoff_week_start` (default 15 here). -/
def processSleeperGroup (tlook : String → Option TeamRef) (sid pws w : Nat)
    (parts : List SleeperMatchupEntry) (db : DB) : DB × List Nat :=
  match parts with
  | [p1, p2] =>
    match tlook (toString p1.rosterId), tlook (toString p2.rosterId) with
    | some t1, some t2 =>
      let s1 := p1.points.getD 0
      let s2 := p2.points.getD 0
      let wt := sleeperWinnerTie t1.id t2.id s1 s2
      let ip := decide (pws ≤ w)
      let u := upsertBy (matchupKey sid w t1.id t2.id)
        (fun i => newMatchupRow i sid w t1.id t2.id)
        (updSleeperMatchupRow s1 s2 wt.1 wt.2 ip) db.matchups db.nextMatchupId
      ({ db with matchups := u.1, nextMatchupId := u.2.2 }, [u.2.1.id])
    | _, _ => (db, [])
  | _ => (db, [])

/-- The matchup-group loop of `import_matchups`. -/
def processSleeperGroups (tlook : String → Option TeamRef) (sid pws : Nat) :
    List (Nat × List SleeperMatchupEntry) → DB → DB × List Nat
  | [], db => (db, [])
  | (w, parts) :: rest, db =>
    let r := processSleeperGroup tlook sid pws w parts db
    let r' := processSleeperGroups tlook sid pws rest r.1
    (r'.1, r.2 ++ r'.2)

/-- `SleeperService.import_matchups`. -/
def importMatchups (rem : SleeperRemote) (lid : String) (tw : Nat) (lg? : Option Nat)
    (db : DB) : DB × List Nat :=
  let r := importUsersAndRosters rem lid lg? db
  let s :=
    match r.2 with
    | t :: _ => (r.1, t.seasonId)
    | [] =>
      let s' := importSeason rem lid lg? r.1
      (s'.1, s'.2.1)
  let pws := (rem.league lid).playoffWeekStart.getD 15
  processSleeperGroups (teamRefLookup r.2) s.2 pws (sleeperGroupList rem lid tw) s.1

/-- A trade transaction tagged with the week it was fetched for
(`get_all_trades_for_season` writes the week back onto the transaction). -/
structure TaggedTrade where
  week : Nat
  tx : SleeperTransaction
deriving Repr

/-- `SleeperClient.get_all_trades_for_season`: completed trades of weeks
`1..total_weeks`, tagged with their week. -/
def sleeperAllTrades (rem : SleeperRemote) (lid : String) (tw : Nat) : List TaggedTrade :=
  (List.range' 1 tw).flatMap (fun w =>
    ((rem.transactions lid w).filter
        (fun t => t.ttype == some "trade" && t.status == some "complete")).map
      (fun t => ⟨w, t⟩))

/-- The natural key of a trade row: the platform transaction id. -/
def tradeKey (tid : Option String) (t : TradeRow) : Bool := t.platformTradeId == tid

/-- Insert an asset into the per-participant exchange map, creating the
participant's entry on first use (Python dict insertion order). -/
def assetsAdd (acc : List AssetEntry) (k : String) (received : Bool) (item : String) :
    List AssetEntry :=
  if acc.any (fun e => e.key == k) then
    updFirst (fun e => e.key == k)
      (fun e =>
        if received then { e with received := e.received ++ [item] }
        else { e with sent := e.sent ++ [item] })
      acc
  else acc ++ [if received then ⟨k, [item], []⟩ else ⟨k, [], [item]⟩]

/-- The textual description of a traded pick,
`f"Pick: {season} Round {round}"` with Python's `None` rendering. -/
def pickInfo (p : SleeperPick) : String :=
  "Pick: " ++ optStr p.season ++ " Round " ++ optStr p.round

/-- The `assets_exchanged` map built by `import_trades` from the adds, drops
and traded draft picks of a transaction, with player ids resolved through the
player cache. -/
def buildSleeperAssets (resolve : String → String) (tx : SleeperTransaction) :
    List AssetEntry :=
  let a1 := tx.adds.foldl
    (fun acc pr => assetsAdd acc (toString pr.2) true (resolve pr.1)) []
  let a2 := tx.drops.foldl
    (fun acc pr => assetsAdd acc (toString pr.2) false (resolve pr.1)) a1
  tx.draftPicks.foldl
    (fun acc p =>
      let info := pickInfo p
      let acc :=
        match p.ownerId with
        | some oid => if oid == 0 then acc else assetsAdd acc (toString oid) true info
        | none => acc
      match p.previousOwnerId with
      | some oid => if oid == 0 then acc else assetsAdd acc (toString oid) false info
      | none => acc)
    a2

/-- The trade-to-team links rebuilt from the transaction's roster ids
(skipping unknown rosters and duplicates). -/
def tradeTeamIds (tlook : String → Option TeamRef) (rids : List Nat) : List Nat :=
  rids.foldl
    (fun acc rid =>
      match tlook (toString rid) with
      | some t => if acc.contains t.id then acc else acc ++ [t.id]
      | none => acc)
    []

/-- A trade row as first constructed by `import_trades`
(`trade_date = datetime.fromtimestamp(created / 1000)`). -/
def newSleeperTradeRow (i sid : Nat) (tid : Option String) (created : ℚ) (w : Nat) :
    TradeRow :=
  { id := i, seasonId := sid, platformTradeId := tid, tradeDate := created / 1000,
    week := some w, assetsExchanged := none, status := "completed", teamIds := [] }

/-- The updates `import_trades` applies to the found-or-created trade row:
replace the assets blob and the team-link set. -/
def updTradeRow (assets : List AssetEntry) (tids : List Nat) (t : TradeRow) : TradeRow :=
  { t with assetsExchanged := some assets, teamIds := tids }

/-- The body of the trade loop of `import_trades`. -/
def processSleeperTrade (resolve : String → String) (tlook : String → Option TeamRef)
    (sid : Nat) (tt : TaggedTrade) (db : DB) : DB × List Nat :=
  let tid := tt.tx.transactionId
  let assets := buildSleeperAssets resolve tt.tx
  let tids := tradeTeamIds tlook tt.tx.rosterIds
  let u := upsertBy (tradeKey tid)
    (fun i => newSleeperTradeRow i sid tid (tt.tx.created.getD 0) tt.week)
    (updTradeRow assets tids) db.trades db.nextTradeId
  ({ db with trades := u.1, nextTradeId := u.2.2 }, [u.2.1.id])

/-- The trade loop of `import_trades`. -/
def processSleeperTrades (resolve : String → String) (tlook : String → Option TeamRef)
    (sid : Nat) : List TaggedTrade → DB → DB × List Nat
  | [], db => (db, [])
  | tt :: rest, db =>
    let r := processSleeperTrade resolve tlook sid tt db
    let r' := processSleeperTrades resolve tlook sid rest r.1
    (r'.1, r.2 ++ r'.2)

/-- `SleeperService.import_trades`. -/
def importTrades (rem : SleeperRemote) (lid : String) (tw : Nat) (lg? : Option Nat)
    (db : DB) : DB × List Nat :=
  let r := importUsersAndRosters rem lid lg? db
  let s :=
    match r.2 with
    | t :: _ => (r.1, t.seasonId)
    | [] =>
      let s' := importSeason rem lid lg? r.1
      (s'.1, s'.2.1)
  processSleeperTrades rem.playerName (teamRefLookupT r.2) s.2
    (sleeperAllTrades rem lid tw) s.1

/-- The conditional champion/runner-up writes of `detect_and_set_champion`:
each field is assigned only when a value was resolved. -/
def updChampion (c ru : Option Nat) (s : SeasonRow) : SeasonRow :=
  let s := match c with | some v => { s with championTeamId := some v } | none => s
  match ru with | some v => { s with runnerUpTeamId := some v } | none => s

/-- `SleeperService.detect_and_set_champion`: read the winners bracket, map
the champion and runner-up roster ids onto this season's teams, and write
whichever of the two resolved onto the season row. -/
def detectAndSetChampion (rem : SleeperRemote) (lid : String) (sid : Nat)
    (refs : List TeamRef) (db : DB) : DB × (Option Nat × Option Nat) :=
  let bracket := rem.winnersBracket lid
  if bracket.isEmpty then (db, (none, none))
  else
    let tlook := teamRefLookup refs
    let champ := (getChampionRosterId bracket).bind
      (fun rid => (tlook (toString rid)).map (fun t => t.id))
    let ru := (getRunnerUpRosterId bracket).bind
      (fun rid => (tlook (toString rid)).map (fun t => t.id))
    ({ db with seasons := updFirst (fun s => s.id == sid) (updChampion champ ru) db.seasons },
     (champ, ru))

/-- The per-season counts returned by `import_single_season`. -/
structure SeasonResult where
  seasonYear : Nat
  teamsImported : Nat
  matchupsImported : Nat
  tradesImported : Nat
  championTeamId : Option Nat
  runnerUpTeamId : Option Nat
deriving DecidableEq, Repr

/-- `SleeperService.import_single_season`: season, teams, matchups, trades,
then champion detection, exactly in the order of the source (each later step
internally re-ensures its prerequisites, as the source methods do). -/
def importSingleSeason (rem : SleeperRemote) (lid : String) (tw : Nat)
    (lg? : Option Nat) (db : DB) : DB × SeasonResult :=
  let s := importSeason rem lid lg? db
  let ur := importUsersAndRosters rem lid lg? s.1
  let mm := importMatchups rem lid tw lg? ur.1
  let tt := importTrades rem lid tw lg? mm.1
  let ch := detectAndSetChampion rem lid s.2.1 ur.2 tt.1
  (ch.1, { seasonYear := s.2.2, teamsImported := ur.2.length,
           matchupsImported := mm.2.length, tradesImported := tt.2.length,
           championTeamId := ch.2.1, runnerUpTeamId := ch.2.2 })

/-- The aggregate result of `import_full_league`. -/
structure FullResult where
  leagueId : Nat
  leagueName : String
  seasons : List SeasonResult
  teamsImported : Nat
  matchupsImported : Nat
  tradesImported : Nat
deriving DecidableEq, Repr

/-- The historical-season loop of `import_full_league`, accumulating the
per-season results and the running totals. -/
def importSeasonsChain (rem : SleeperRemote) (tw lgId : Nat) :
    List String → DB → DB × List SeasonResult × Nat × Nat × Nat
  | [], db => (db, [], 0, 0, 0)
  | i :: rest, db =>
    let r := importSingleSeason rem i tw (some lgId) db
    let r' := importSeasonsChain rem tw lgId rest r.1
    (r'.1, r.2 :: r'.2.1, r.2.teamsImported + r'.2.2.1,
     r.2.matchupsImported + r'.2.2.2.1, r.2.tradesImported + r'.2.2.2.2)

/-- `SleeperService.import_full_league`: walk the `previous_league_id` chain,
create/refresh the one league row from the entry id, then import every
historical season against that same league row. -/
def importFullLeague (rem : SleeperRemote) (lid : String) (tw fuel : Nat) (db : DB) :
    DB × FullResult :=
  let ids := getLeagueHistoryChain rem fuel (some lid)
  let lr := importLeague rem lid db
  let r := importSeasonsChain rem tw lr.2.id ids lr.1
  (r.1, { leagueId := lr.2.id, leagueName := lr.2.name, seasons := r.2.1,
          teamsImported := r.2.2.1, matchupsImported := r.2.2.2.1,
          tradesImported := r.2.2.2.2 })

/-! ## Yahoo remote data (records produced by the yahoo_client parsers) -/

/-- The fields of a Yahoo league payload that the service reads. -/
structure YahooLeagueData where
  leagueKey : Option String
  name : Option String
  numTeams : Option Nat
  scoringType : Option String
  season : Option Nat
  startWeek : Option Nat
  endWeek : Option Nat
  isFinished : Option Bool
deriving Repr

/-- A manager record as produced by `YahooClient._parse_manager` (the parser
either yields all four keys or the empty dict, modelled by `Option` at the
standing). -/
structure YahooManager where
  managerId : String
  guid : String
  nickname : String
  imageUrl : Option String
deriving Repr

/-- A team standing as produced by `YahooClient._parse_team`. -/
structure YahooStanding where
  teamKey : String
  teamId : String
  name : String
  manager : Option YahooManager
  wins : Int
  losses : Int
  ties : Int
  pointsFor : ℚ
  pointsAgainst : ℚ
  rank : Int
  playoffSeed : Option String
deriving Repr

/-- One side of a matchup as produced by `YahooClient._parse_matchup_team`. -/
structure YahooMatchupTeam where
  teamKey : String
  name : String
  points : ℚ
deriving Repr

/-- A matchup as produced by `YahooClient._parse_matchup` (`is_tied` is the
platform-reported tie flag, `winner_team_key` the platform-reported winner). -/
structure YahooMatchup where
  week : Nat
  isPlayoffs : Bool
  isConsolation : Bool
  isTied : Bool
  winnerTeamKey : Option String
  teams : List YahooMatchupTeam
deriving Repr

/-- One player movement inside a Yahoo trade. -/
structure YahooTradePlayer where
  playerKey : Option String
  name : Option String
  sourceTeamKey : String
  destinationTeamKey : String
deriving Repr

/-- A trade transaction as returned by `YahooClient.get_trades`. -/
structure YahooTrade where
  transactionId : String
  status : Option String
  timestamp : Option ℚ
  traderTeamKey : String
  tradeeTeamKey : String
  players : List YahooTradePlayer
deriving Repr

/-- The Yahoo API as seen by the service. -/
structure YahooRemote where
  league : String → YahooLeagueData
  standings : String → List YahooStanding
  matchups : String → Nat → List YahooMatchup
  trades : String → List YahooTrade
  nowYear : Nat
  nowTs : ℚ

/-! ## Yahoo service (yahoo_service.py) -/

/-- The natural key of a Yahoo league row. -/
def yahooLeagueKeyP (plid : String) (x : LeagueRow) : Bool :=
  x.platform == .yahoo && x.platformLeagueId == plid

/-- A Yahoo league row as first constructed by `YahooService.import_league`. -/
def newYahooLeagueRow (i : Nat) (plid : String) : LeagueRow :=
  { id := i, name := "", platform := .yahoo, platformLeagueId := plid,
    teamCount := none, scoringType := none }

/-- The mutable-field updates of `YahooService.import_league`. -/
def updYahooLeagueRow (ld : YahooLeagueData) (x : LeagueRow) : LeagueRow :=
  { x with name := ld.name.getD "Unknown League",
           teamCount := ld.numTeams,
           scoringType := some (ld.scoringType.getD "head") }

/-- `YahooService.import_league`: the stored platform league id is the
payload's `league_key`, falling back to the requested key. -/
def yahooImportLeague (rem : YahooRemote) (key : String) (db : DB) : DB × LeagueRow :=
  let ld := rem.league key
  let plid := ld.leagueKey.getD key
  let u := upsertBy (yahooLeagueKeyP plid) (fun i => newYahooLeagueRow i plid)
    (updYahooLeagueRow ld) db.leagues db.nextLeagueId
  ({ db with leagues := u.1, nextLeagueId := u.2.2 }, u.2.1)

/-- The mutable-field updates of `YahooService.import_season`. -/
def updYahooSeasonRow (ld : YahooLeagueData) (s : SeasonRow) : SeasonRow :=
  { s with regularSeasonWeeks := some (ld.endWeek.getD 14 : Int),
           isComplete := ld.isFinished.getD false }

/-- `YahooService.import_season`. -/
def yahooImportSeason (rem : YahooRemote) (key : String) (db : DB) : DB × Nat × Nat :=
  let r := yahooImportLeague rem key db
  let db := r.1
  let ld := rem.league key
  let year := ld.season.getD rem.nowYear
  let u := upsertBy (seasonKey r.2.id year) (fun i => newSeasonRow i r.2.id year)
    (updYahooSeasonRow ld) db.seasons db.nextSeasonId
  ({ db with seasons := u.1, nextSeasonId := u.2.2 }, u.2.1.id, year)

/-- The Yahoo user id of a standing's manager:
`manager.get("guid", "") or manager.get("manager_id", "")`. -/
def yahooUid (m? : Option YahooManager) : String :=
  match m? with
  | none => ""
  | some m => if m.guid == "" then m.managerId else m.guid

/-- The natural key of a Yahoo-resolved owner row. -/
def yahooOwnerKey (uid : String) (o : OwnerRow) : Bool := o.yahooUserId == some uid

/-- An owner row as constructed on first sighting of a Yahoo manager. -/
def newYahooOwnerRow (m : YahooManager) (uid : String) (i : Nat) : OwnerRow :=
  { id := i, name := m.nickname, displayName := some m.nickname,
    avatarUrl := m.imageUrl, yahooUserId := some uid, sleeperUserId := none }

/-- The owner-info refresh of `YahooService.import_standings`. -/
def updYahooOwnerRow (m : YahooManager) (o : OwnerRow) : OwnerRow :=
  let o := { o with displayName := pyOr (some m.nickname) o.displayName }
  match m.imageUrl with
  | some a => if a == "" then o else { o with avatarUrl := some a }
  | none => o

/-- The updates `import_standings` writes onto the found-or-created team row;
`made_playoffs` is switched on when a playoff seed is reported and left
untouched otherwise. -/
def updYahooTeamRow (oid : Nat) (td : YahooStanding) (t : TeamRow) : TeamRow :=
  let t := { t with ownerId := oid, name := td.name, wins := td.wins,
                    losses := td.losses, ties := td.ties,
                    pointsFor := td.pointsFor, pointsAgainst := td.pointsAgainst,
                    regularSeasonRank := some td.rank }
  match td.playoffSeed with
  | some _ => { t with madePlayoffs := true }
  | none => t

/-- The body of the standings loop of `YahooService.import_standings`. -/
def processYahooStanding (sid : Nat) (td : YahooStanding) (db : DB) : DB × List TeamRef :=
  let uid := yahooUid td.manager
  if uid == "" then (db, [])
  else
    match td.manager with
    | none => (db, [])
    | some m =>
      let ou :=
        match db.owners.find? (yahooOwnerKey uid) with
        | some o => (updFirst (yahooOwnerKey uid) (updYahooOwnerRow m) db.owners, o.id,
                     db.nextOwnerId)
        | none => (db.owners ++ [newYahooOwnerRow m uid db.nextOwnerId], db.nextOwnerId,
                   db.nextOwnerId + 1)
      let oid := ou.2.1
      let tu := upsertBy (teamKey sid td.teamKey)
        (fun i => newTeamRow i sid oid td.name td.teamKey)
        (updYahooTeamRow oid td) db.teams db.nextTeamId
      ({ db with owners := ou.1, nextOwnerId := ou.2.2, teams := tu.1,
                 nextTeamId := tu.2.2 },
       [⟨tu.2.1.id, td.teamKey, tu.2.1.seasonId⟩])

/-- The standings loop of `YahooService.import_standings`. -/
def processYahooStandings (sid : Nat) : List YahooStanding → DB → DB × List TeamRef
  | [], db => (db, [])
  | td :: rest, db =>
    let r := processYahooStanding sid td db
    let r' := processYahooStandings sid rest r.1
    (r'.1, r.2 ++ r'.2)

/-- `YahooService.import_standings`. -/
def yahooImportStandings (rem : YahooRemote) (key : String) (db : DB) :
    DB × List TeamRef :=
  let s := yahooImportSeason rem key db
  processYahooStandings s.2.1 (rem.standings key) s.1

/-- The score-comparison fallback of the Yahoo winner determination. -/
def yahooScoreWinner (t1 t2 : Nat) (s1 s2 : ℚ) : Option Nat × Bool :=
  if s1 > s2 then (some t1, false)
  else if s2 > s1 then (some t2, false)
  else (none, true)

/-- The winner determination of `YahooService.import_matchups`: the
platform-reported `is_tied` flag wins over everything; otherwise a truthy
`winner_team_key` decides (an unknown key stores no winner without marking a
tie); only when neither is present are the scores compared. -/
def yahooWinnerTie (tlook : String → Option Nat) (isTied : Bool)
    (winnerKey : Option String) (t1 t2 : Nat) (s1 s2 : ℚ) : Option Nat × Bool :=
  if isTied then (none, true)
  else
    match winnerKey with
    | some k => if k == "" then yahooScoreWinner t1 t2 s1 s2 else (tlook k, false)
    | none => yahooScoreWinner t1 t2 s1 s2

/-- The updates the Yahoo matchup importer writes onto the row. -/
def updYahooMatchupRow (s1 s2 : ℚ) (winner : Option Nat) (tie ip ic : Bool)
    (mrow : MatchupRow) : MatchupRow :=
  { mrow with homeScore := s1, awayScore := s2, winnerTeamId := winner,
              isTie := tie, isPlayoff := ip, isConsolation := ic }

/-- The body of the matchup loop of `YahooService.import_matchups`. -/
def processYahooMatchup (tlook : String → Option TeamRef) (sid w : Nat)
    (m : YahooMatchup) (db : DB) : DB × List Nat :=
  match m.teams with
  | [a, b] =>
    match tlook a.teamKey, tlook b.teamKey with
    | some t1, some t2 =>
      let wt := yahooWinnerTie (fun k => (tlook k).map (fun t => t.id)) m.isTied
        m.winnerTeamKey t1.id t2.id a.points b.points
      let u := upsertBy (matchupKey sid w t1.id t2.id)
        (fun i => newMatchupRow i sid w t1.id t2.id)
        (updYahooMatchupRow a.points b.points wt.1 wt.2 m.isPlayoffs m.isConsolation)
        db.matchups db.nextMatchupId
      ({ db with matchups := u.1, nextMatchupId := u.2.2 }, [u.2.1.id])
    | _, _ => (db, [])
  | _ => (db, [])

/-- `YahooClient.get_all_matchups_for_season`: weeks `start..end` with a
nonempty matchup list. -/
def yahooAllMatchups (rem : YahooRemote) (key : String) (sw ew : Nat) :
    List (Nat × List YahooMatchup) :=
  (List.range' sw (ew + 1 - sw)).filterMap (fun w =>
    let ms := rem.matchups key w
    if ms.isEmpty then none else some (w, ms))

/-- The week/matchup double loop of `YahooService.import_matchups`. -/
def processYahooMatchupList (tlook : String → Option TeamRef) (sid w : Nat) :
    List YahooMatchup → DB → DB × List Nat
  | [], db => (db, [])
  | m :: rest, db =>
    let r := processYahooMatchup tlook sid w m db
    let r' := processYahooMatchupList tlook sid w rest r.1
    (r'.1, r.2 ++ r'.2)

/-- The week loop of `YahooService.import_matchups`. -/
def processYahooWeeks (tlook : String → Option TeamRef) (sid : Nat) :
    List (Nat × List YahooMatchup) → DB → DB × List Nat
  | [], db => (db, [])
  | (w, ms) :: rest, db =>
    let r := processYahooMatchupList tlook sid w ms db
    let r' := processYahooWeeks tlook sid rest r.1
    (r'.1, r.2 ++ r'.2)

/-- `YahooService.import_matchups`. -/
def yahooImportMatchups (rem : YahooRemote) (key : String) (sw ew : Nat) (db : DB) :
    DB × List Nat :=
  let r := yahooImportStandings rem key db
  let s :=
    match r.2 with
    | t :: _ => (r.1, t.seasonId)
    | [] =>
      let s' := yahooImportSeason rem key r.1
      (s'.1, s'.2.1)
  processYahooWeeks (teamRefLookupT r.2) s.2 (yahooAllMatchups rem key sw ew) s.1

/-- The `assets_exchanged` map built by `YahooService.import_trades`. -/
def buildYahooAssets (players : List YahooTradePlayer) : List AssetEntry :=
  players.foldl
    (fun acc p =>
      let pname := p.name.getD (p.playerKey.getD "Unknown")
      let acc := if p.destinationTeamKey == "" then acc
                 else assetsAdd acc p.destinationTeamKey true pname
      if p.sourceTeamKey == "" then acc
      else assetsAdd acc p.sourceTeamKey false pname)
    []

/-- The trade-to-team links of a Yahoo trade: the trader and tradee teams. -/
def yahooTradeTeamIds (tlook : String → Option TeamRef) (trader tradee : String) :
    List Nat :=
  [trader, tradee].foldl
    (fun acc k =>
      if k == "" then acc
      else
        match tlook k with
        | some t => if acc.contains t.id then acc else acc ++ [t.id]
        | none => acc)
    []

/-- A Yahoo trade row as first constructed by `import_trades`
(a falsy timestamp falls back to `datetime.now()`). -/
def newYahooTradeRow (nowTs : ℚ) (i sid : Nat) (tid : String) (ts : Option ℚ)
    (st : Option String) : TradeRow :=
  { id := i, seasonId := sid, platformTradeId := some tid,
    tradeDate := match ts with
                 | some v => if v == 0 then nowTs else v
                 | none => nowTs,
    week := none, assetsExchanged := none, status := st.getD "completed", teamIds := [] }

/-- The body of the trade loop of `YahooService.import_trades`
(transactions without an id are skipped). -/
def processYahooTrade (nowTs : ℚ) (tlook : String → Option TeamRef) (sid : Nat)
    (td : YahooTrade) (db : DB) : DB × List Nat :=
  if td.transactionId == "" then (db, [])
  else
    let assets := buildYahooAssets td.players
    let tids := yahooTradeTeamIds tlook td.traderTeamKey td.tradeeTeamKey
    let u := upsertBy (tradeKey (some td.transactionId))
      (fun i => newYahooTradeRow nowTs i sid td.transactionId td.timestamp td.status)
      (updTradeRow assets tids) db.trades db.nextTradeId
    ({ db with trades := u.1, nextTradeId := u.2.2 }, [u.2.1.id])

/-- The trade loop of `YahooService.import_trades`. -/
def processYahooTrades (nowTs : ℚ) (tlook : String → Option TeamRef) (sid : Nat) :
    List YahooTrade → DB → DB × List Nat
  | [], db => (db, [])
  | td :: rest, db =>
    let r := processYahooTrade nowTs tlook sid td db
    let r' := processYahooTrades nowTs tlook sid rest r.1
    (r'.1, r.2 ++ r'.2)

/-- `YahooService.import_trades`. -/
def yahooImportTrades (rem : YahooRemote) (key : String) (db : DB) : DB × List Nat :=
  let r := yahooImportStandings rem key db
  let s :=
    match r.2 with
    | t :: _ => (r.1, t.seasonId)
    | [] =>
      let s' := yahooImportSeason rem key r.1
      (s'.1, s'.2.1)
  processYahooTrades rem.nowTs (teamRefLookupT r.2) s.2 (rem.trades key) s.1

/-- The runner-up scan of `YahooService.detect_and_set_champion`: the last
non-winner participant of the championship matchup that maps to a known team. -/
def yahooRunnerUp (tlook : String → Option TeamRow) (wk : String)
    (ts : List YahooMatchupTeam) : Option Nat :=
  ts.foldl
    (fun acc t =>
      if !(t.teamKey == "") && !(t.teamKey == wk) then
        match tlook t.teamKey with
        | some lt => some lt.id
        | none => acc
      else acc)
    none

/-- The matchup scan of `YahooService.detect_and_set_champion`: the first
playoff, non-consolation matchup whose reported winner key maps to a known
team decides champion and runner-up; everything else is passed over. -/
def yahooFindChampion (tlook : String → Option TeamRow) :
    List YahooMatchup → Option Nat × Option Nat
  | [] => (none, none)
  | m :: rest =>
    if m.isPlayoffs && !m.isConsolation then
      match m.winnerTeamKey with
      | some wk =>
        if wk == "" then yahooFindChampion tlook rest
        else
          match tlook wk with
          | some wt => (some wt.id, yahooRunnerUp tlook wk m.teams)
          | none => yahooFindChampion tlook rest
      | none => yahooFindChampion tlook rest
    else yahooFindChampion tlook rest

/-- `YahooService.detect_and_set_champion`: look at the final week's
matchups; only when a champion was resolved (and, by Python truthiness, has a
nonzero id) are the season's champion and runner-up fields written. -/
def yahooDetectAndSetChampion (rem : YahooRemote) (key : String) (sid : Nat)
    (db : DB) : DB × Option Nat :=
  let ew := (rem.league key).endWeek.getD 17
  let teams := db.teams.filter (fun t => t.seasonId == sid)
  let tlook := fun k =>
    ((teams.filter (fun t => strTruthy t.platformTeamId)).reverse).find?
      (fun t => t.platformTeamId == some k)
  let cr := yahooFindChampion tlook (rem.matchups key ew)
  let ru := cr.2
  match cr.1 with
  | some cid =>
    if cid == 0 then (db, some cid)
    else
      let upd := fun s => { s with championTeamId := some cid, runnerUpTeamId := ru }
      ({ db with seasons := updFirst (fun s => s.id == sid) upd db.seasons }, some cid)
  | none => (db, none)

/-- The result of a Yahoo full-league import. -/
structure YahooImportResult where
  leagueId : Nat
  leagueName : String
  seasonYear : Nat
  teamsImported : Nat
  matchupsImported : Nat
  tradesImported : Nat
  championTeamId : Option Nat
deriving DecidableEq, Repr

/-- `YahooService.import_full_league`. -/
def yahooImportFullLeague (rem : YahooRemote) (key : String) (sw ew : Nat) (db : DB) :
    DB × YahooImportResult :=
  let lr := yahooImportLeague rem key db
  let se := yahooImportSeason rem key lr.1
  let st := yahooImportStandings rem key se.1
  let mm := yahooImportMatchups rem key sw ew st.1
  let tt := yahooImportTrades rem key mm.1
  (tt.1, { leagueId := lr.2.id, leagueName := lr.2.name, seasonYear := se.2.2,
           teamsImported := st.2.length, matchupsImported := mm.2.length,
           tradesImported := tt.2.length, championTeamId := none })

/-- `YahooService.import_full_league_with_champion`: the result dict carries
no `_season_id`, so the season is re-resolved through the league row keyed by
the requested league key and the imported year; champion detection runs only
for complete seasons. -/
def yahooImportFullLeagueWithChampion (rem : YahooRemote) (key : String) (sw ew : Nat)
    (db : DB) : DB × YahooImportResult :=
  let r := yahooImportFullLeague rem key sw ew db
  let db := r.1
  let res := r.2
  let season? :=
    match db.leagues.find? (fun x => x.platform == .yahoo && x.platformLeagueId == key) with
    | some lg => db.seasons.find? (seasonKey lg.id res.seasonYear)
    | none => none
  match season? with
  | some s =>
    if s.isComplete then
      let c := yahooDetectAndSetChampion rem key s.id db
      (c.1, { res with championTeamId := c.2 })
    else (db, res)
  | none => (db, res)

/-! ## Owner merge (src/backend/app/api/owners.py, `merge_owners`) -/

/-- The failure modes of the merge endpoint. -/
inductive MergeError
  | cannotMergeSelf
  | primaryNotFound
  | secondaryNotFound
deriving DecidableEq, Repr

/-- Null out the secondary owner's unique external-id columns. -/
def clearOwnerIds (o : OwnerRow) : OwnerRow :=
  { o with sleeperUserId := none, yahooUserId := none }

/-- The store state at the `db.flush()` point of `merge_owners`: every team
of the secondary owner re-pointed at the primary owner, and the secondary's
unique external-id fields cleared — but the secondary row not yet deleted. -/
def mergeOwnersCleared (db : DB) (pid sid : Nat) : Except MergeError DB :=
  if pid == sid then .error .cannotMergeSelf
  else
    match db.owners.find? (fun o => o.id == pid) with
    | none => .error .primaryNotFound
    | some _ =>
      match db.owners.find? (fun o => o.id == sid) with
      | none => .error .secondaryNotFound
      | some _ =>
        .ok { db with
          teams := db.teams.map
            (fun t => if t.ownerId == sid then { t with ownerId := pid } else t),
          owners := updFirst (fun o => o.id == sid) clearOwnerIds db.owners }

/-- The field copy of `merge_owners`: each of the secondary's display name,
avatar and platform ids is taken over only when the primary's value is falsy
and the secondary's is truthy (values captured before clearing). -/
def mergeFields (p s : OwnerRow) (x : OwnerRow) : OwnerRow :=
  let x := if !strTruthy p.sleeperUserId && strTruthy s.sleeperUserId then
             { x with sleeperUserId := s.sleeperUserId } else x
  let x := if !strTruthy p.yahooUserId && strTruthy s.yahooUserId then
             { x with yahooUserId := s.yahooUserId } else x
  let x := if !strTruthy p.displayName && strTruthy s.displayName then
             { x with displayName := s.displayName } else x
  if !strTruthy p.avatarUrl && strTruthy s.avatarUrl then
    { x with avatarUrl := s.avatarUrl } else x

/-- `merge_owners`: validate, transfer teams, clear the secondary's unique
ids, copy the missing fields onto the primary, and delete the secondary. -/
def mergeOwners (db : DB) (pid sid : Nat) : Except MergeError DB :=
  if pid == sid then .error .cannotMergeSelf
  else
    match db.owners.find? (fun o => o.id == pid) with
    | none => .error .primaryNotFound
    | some p =>
      match db.owners.find? (fun o => o.id == sid) with
      | none => .error .secondaryNotFound
      | some s =>
        match mergeOwnersCleared db pid sid with
        | .error e => .error e
        | .ok dbc =>
          let owners' := removeFirst (fun o => o.id == sid)
            (updFirst (fun o => o.id == pid) (mergeFields p s) dbc.owners)
          .ok { dbc with owners := owners' }

/-! ## Route-level validation and request traces
(src/backend/app/api/yahoo.py and src/backend/app/api/sleeper.py) -/

/-- A nonempty all-digit character run. -/
def isDigits (cs : List Char) : Bool :=
  decide (cs.length > 0) && cs.all (fun c => c.isDigit)

/-- `validate_league_key` of src/backend/app/api/yahoo.py: the regular
expression `^\d+\.l\.\d+$`.  Splitting the characters on `'.'` must yield
exactly `[digits, ['l'], digits]`; since a digit run contains no dot, this
is the same language as the regex. -/
def validateLeagueKey (k : String) : Bool :=
  match k.toList.splitOn '.' with
  | [a, b, c] => isDigits a && b == ['l'] && isDigits c
  | _ => false

/-- The remote requests issued by `YahooService.import_league`. -/
def yahooLeagueRequests (key : String) : List String := ["league " ++ key]

/-- The remote requests issued by `YahooService.import_season`. -/
def yahooSeasonRequests (key : String) : List String :=
  yahooLeagueRequests key ++ ["league " ++ key]

/-- The remote requests issued by `YahooService.import_standings`. -/
def yahooStandingsRequests (key : String) : List String :=
  yahooSeasonRequests key ++ ["standings " ++ key]

/-- The remote requests issued by `YahooService.import_matchups`. -/
def yahooMatchupsRequests (key : String) (sw ew : Nat) : List String :=
  yahooStandingsRequests key ++
    (List.range' sw (ew + 1 - sw)).map (fun w => "scoreboard " ++ key ++ " " ++ toString w)

/-- The remote requests issued by `YahooService.import_trades`. -/
def yahooTradesRequests (key : String) : List String :=
  yahooStandingsRequests key ++ ["transactions " ++ key]

/-- The remote requests issued by `YahooService.import_full_league`. -/
def yahooFullRequests (key : String) (sw ew : Nat) : List String :=
  yahooLeagueRequests key ++ yahooSeasonRequests key ++ yahooStandingsRequests key ++
    yahooMatchupsRequests key sw ew ++ yahooTradesRequests key

/-- The remote requests issued by
`YahooService.import_full_league_with_champion` against the given store. -/
def yahooWithChampionRequests (rem : YahooRemote) (key : String) (sw ew : Nat)
    (db : DB) : List String :=
  let r := yahooImportFullLeague rem key sw ew db
  let season? :=
    match r.1.leagues.find? (fun x => x.platform == .yahoo && x.platformLeagueId == key) with
    | some lg => r.1.seasons.find? (seasonKey lg.id r.2.seasonYear)
    | none => none
  yahooFullRequests key sw ew ++
    match season? with
    | some s =>
      if s.isComplete then
        ["league " ++ key,
         "scoreboard " ++ key ++ " " ++ toString ((rem.league key).endWeek.getD 17)]
      else []
    | none => []

/-- The failure modes surfaced by the import routes that matter here. -/
inductive RouteError
  | validation (key : String)
  | authRequired
deriving DecidableEq, Repr

/-- The `POST /api/yahoo/import` route: the league-key format check runs
first, before the authenticated client is obtained and before any remote
request; only then is the service invoked. -/
def yahooImportRoute (rem : YahooRemote) (authed : Bool) (key : String) (sw ew : Nat)
    (db : DB) : Except RouteError (DB × YahooImportResult) × List String :=
  if !validateLeagueKey key then (.error (.validation key), [])
  else if !authed then (.error .authRequired, [])
  else
    (.ok (yahooImportFullLeagueWithChampion rem key sw ew db),
     yahooWithChampionRequests rem key sw ew db)

/-- The remote requests of `SleeperClient.get_league_history_chain`: each
visited id is fetched once. -/
def chainRequests (rem : SleeperRemote) : Nat → Option String → List String
  | _, none => []
  | 0, some _ => []
  | fuel + 1, some cur =>
      if cur == "" then []
      else ("league " ++ cur) ::
        chainRequests rem fuel (getPreviousLeagueId (rem.league cur))

/-- The remote requests issued by `SleeperService.import_season` (the
league-ensuring fetch plus its own league fetch). -/
def sleeperSeasonRequests (lid : String) (lg? : Option Nat) : List String :=
  (match lg? with
   | some _ => []
   | none => ["league " ++ lid]) ++ ["league " ++ lid]

/-- The remote requests issued by `SleeperService.import_users_and_rosters`. -/
def sleeperRostersRequests (lid : String) (lg? : Option Nat) : List String :=
  sleeperSeasonRequests lid lg? ++ ["users " ++ lid, "rosters " ++ lid]

/-- The remote requests issued by `SleeperService.import_matchups`. -/
def sleeperMatchupsRequests (lid : String) (tw : Nat) (lg? : Option Nat) : List String :=
  sleeperRostersRequests lid lg? ++ ["league " ++ lid] ++
    (List.range' 1 tw).map (fun w => "matchups " ++ lid ++ " " ++ toString w)

/-- The remote requests issued by `SleeperService.import_trades`; the player
directory is fetched once, the first time the cache is needed. -/
def sleeperTradesRequests (lid : String) (tw : Nat) (lg? : Option Nat)
    (loaded : Bool) : List String :=
  sleeperRostersRequests lid lg? ++
    (List.range' 1 tw).map (fun w => "transactions " ++ lid ++ " " ++ toString w) ++
    (if loaded then [] else ["players nfl"])

/-- The remote requests issued by `SleeperService.import_single_season`. -/
def sleeperSingleSeasonRequests (lid : String) (tw : Nat) (lg? : Option Nat)
    (loaded : Bool) : List String :=
  sleeperSeasonRequests lid lg? ++ sleeperRostersRequests lid lg? ++
    sleeperMatchupsRequests lid tw lg? ++ sleeperTradesRequests lid tw lg? loaded ++
    ["winners_bracket " ++ lid]

/-- The requests of the historical-season loop (the player cache is loaded by
the first season's trade import and stays loaded). -/
def sleeperChainSeasonRequests (tw : Nat) : List String → Bool → List String
  | [], _ => []
  | i :: rest, loaded =>
    sleeperSingleSeasonRequests i tw (some 0) loaded ++
      sleeperChainSeasonRequests tw rest true

/-- The remote requests issued by `SleeperService.import_full_league` (the
per-season requests do not depend on the league row id, written here as
`some 0`). -/
def sleeperFullRequests (rem : SleeperRemote) (lid : String) (tw fuel : Nat) :
    List String :=
  chainRequests rem fuel (some lid) ++ ["league " ++ lid] ++
    sleeperChainSeasonRequests tw (getLeagueHistoryChain rem fuel (some lid))
      rem.playersLoaded

/-- The `POST /api/sleeper/import` route of src/backend/app/api/sleeper.py:
the request body's `league_id` is handed to `import_full_league` with no
format check of any kind, so the remote fetches below are issued for every
caller-supplied id. -/
def sleeperImportRoute (rem : SleeperRemote) (lid : String) (tw fuel : Nat) (db : DB) :
    (DB × FullResult) × List String :=
  (importFullLeague rem lid tw fuel db, sleeperFullRequests rem lid tw fuel)

/-! ## Generic lemmas about the upsert pattern -/

theorem find?_cons_of_pos {p : α → Bool} {x : α} (l : List α) (h : p x = true) :
    (x :: l).find? p = some x := by
  simp [List.find?, h]

theorem find?_cons_of_neg {p : α → Bool} {x : α} (l : List α) (h : p x = false) :
    (x :: l).find? p = l.find? p := by
  simp [List.find?, h]

theorem updFirst_of_none {p : α → Bool} {f : α → α} :
    ∀ {l : List α}, l.find? p = none → updFirst p f l = l
  | [], _ => rfl
  | x :: l, h => by
    by_cases hx : p x
    · simp [find?_cons_of_pos l hx] at h
    · simp only [Bool.not_eq_true] at hx
      rw [find?_cons_of_neg l hx] at h
      simp [updFirst, hx, updFirst_of_none h]

theorem find?_updFirst_self {p : α → Bool} {f : α → α}
    (hpf : ∀ x, p x = true → p (f x) = true) :
    ∀ {l : List α} {a : α}, l.find? p = some a →
      (updFirst p f l).find? p = some (f a)
  | [], a, h => by simp [List.find?] at h
  | x :: l, a, h => by
    by_cases hx : p x
    · rw [find?_cons_of_pos l hx] at h
      cases h
      simp [updFirst, hx, find?_cons_of_pos _ (hpf _ hx)]
    · simp only [Bool.not_eq_true] at hx
      rw [find?_cons_of_neg l hx] at h
      simp [updFirst, hx, find?_cons_of_neg _ hx, find?_updFirst_self hpf h]

theorem updFirst_of_fixed {p : α → Bool} {f : α → α} :
    ∀ {l : List α} {a : α}, l.find? p = some a → f a = a → updFirst p f l = l
  | [], a, h, _ => by simp [List.find?] at h
  | x :: l, a, h, hfix => by
    by_cases hx : p x
    · rw [find?_cons_of_pos l hx] at h
      cases h
      simp [updFirst, hx, hfix]
    · simp only [Bool.not_eq_true] at hx
      rw [find?_cons_of_neg l hx] at h
      simp [updFirst, hx, updFirst_of_fixed h hfix]

theorem find?_updFirst_other {p q : α → Bool} {f : α → α}
    (hdisj : ∀ x, p x = true → q x = false)
    (hpres : ∀ x, p x = true → q (f x) = false) :
    ∀ (l : List α), (updFirst p f l).find? q = l.find? q
  | [] => rfl
  | x :: l => by
    by_cases hx : p x
    · simp [updFirst, hx, find?_cons_of_neg _ (hdisj x hx),
            find?_cons_of_neg _ (hpres x hx)]
    · simp only [Bool.not_eq_true] at hx
      by_cases hq : q x
      · simp [updFirst, hx, find?_cons_of_pos _ hq]
      · simp only [Bool.not_eq_true] at hq
        simp [updFirst, hx, find?_cons_of_neg _ hq, find?_updFirst_other hdisj hpres l]

theorem map_updFirst {p : α → Bool} {f : α → α} {g : α → β}
    (hfg : ∀ x, p x = true → g (f x) = g x) :
    ∀ (l : List α), (updFirst p f l).map g = l.map g
  | [] => rfl
  | x :: l => by
    by_cases hx : p x
    · simp [updFirst, hx, hfg x hx]
    · simp only [Bool.not_eq_true] at hx
      simp [updFirst, hx, map_updFirst hfg l]

theorem length_updFirst {p : α → Bool} {f : α → α} :
    ∀ (l : List α), (updFirst p f l).length = l.length
  | [] => rfl
  | x :: l => by
    by_cases hx : p x
    · simp [updFirst, hx]
    · simp only [Bool.not_eq_true] at hx
      simp [updFirst, hx, length_updFirst l]

theorem find?_append_none {p : α → Bool} {x : α} :
    ∀ {l : List α}, l.find? p = none → (l ++ [x]).find? p = (([x] : List α)).find? p
  | [], _ => rfl
  | y :: l, h => by
    by_cases hy : p y
    · simp [find?_cons_of_pos l hy] at h
    · simp only [Bool.not_eq_true] at hy
      rw [find?_cons_of_neg l hy] at h
      simp only [List.cons_append, find?_cons_of_neg _ hy]
      exact find?_append_none h

theorem find?_append_some {p : α → Bool} {x : α} {a : α} :
    ∀ {l : List α}, l.find? p = some a → (l ++ [x]).find? p = some a
  | [], h => by simp [List.find?] at h
  | y :: l, h => by
    by_cases hy : p y
    · rw [find?_cons_of_pos l hy] at h
      simp only [List.cons_append, find?_cons_of_pos _ hy, h]
    · simp only [Bool.not_eq_true] at hy
      rw [find?_cons_of_neg l hy] at h
      simp only [List.cons_append, find?_cons_of_neg _ hy]
      exact find?_append_some h

/-- A table is settled for an upsert when the row its key finds is a fixed
point of its field updates: re-running the upsert then changes nothing. -/
def SettledAt (p : α → Bool) (f : α → α) (l : List α) (a : α) : Prop :=
  l.find? p = some a ∧ f a = a

theorem upsertBy_of_settled {p : α → Bool} {mk : Nat → α} {f : α → α}
    {l : List α} {a : α} {n : Nat} (h : SettledAt p f l a) :
    upsertBy p mk f l n = (l, a, n) := by
  rcases h with ⟨hfind, hfix⟩
  simp [upsertBy, hfind, hfix, updFirst_of_fixed hfind hfix]

theorem upsertBy_settles {p : α → Bool} {mk : Nat → α} {f : α → α}
    (hpf : ∀ x, p x = true → p (f x) = true)
    (hff : ∀ x, f (f x) = f x)
    (hmk : ∀ n, p (f (mk n)) = true)
    (l : List α) (n : Nat) :
    SettledAt p f (upsertBy p mk f l n).1 (upsertBy p mk f l n).2.1 := by
  cases hfind : l.find? p with
  | some a =>
      constructor
      · simp only [upsertBy, hfind]
        exact find?_updFirst_self hpf hfind
      · simp only [upsertBy, hfind]
        exact hff a
  | none =>
      constructor
      · simp only [upsertBy, hfind]
        rw [find?_append_none hfind, find?_cons_of_pos _ (hmk n)]
      · simp only [upsertBy, hfind]
        exact hff (mk n)

theorem find?_upsertBy_other {p q : α → Bool} {mk : Nat → α} {f : α → α}
    (hdisj : ∀ x, p x = true → q x = false)
    (hpres : ∀ x, p x = true → q (f x) = false)
    (hmk : ∀ n, p (f (mk n)) = true)
    (l : List α) (n : Nat) :
    (upsertBy p mk f l n).1.find? q = l.find? q := by
  cases hfind : l.find? p with
  | some a =>
      simp only [upsertBy, hfind]
      exact find?_updFirst_other hdisj hpres l
  | none =>
      simp only [upsertBy, hfind]
      cases hq : l.find? q with
      | some b => exact find?_append_some hq
      | none =>
          rw [find?_append_none hq,
              find?_cons_of_neg _ (by
                have := hmk n
                have h2 := hdisj _ this
                exact h2)]
          rfl

theorem map_upsertBy {p : α → Bool} {mk : Nat → α} {f : α → α} {g : α → β}
    (hfg : ∀ x, p x = true → g (f x) = g x)
    (l : List α) (n : Nat) :
    (upsertBy p mk f l n).1.map g =
      if (l.find? p).isSome then l.map g else l.map g ++ [g (f (mk n))] := by
  cases hfind : l.find? p with
  | some a => simp [upsertBy, hfind, map_updFirst hfg l]
  | none => simp [upsertBy, hfind]

theorem length_upsertBy {p : α → Bool} {mk : Nat → α} {f : α → α}
    (l : List α) (n : Nat) :
    (upsertBy p mk f l n).1.length =
      if (l.find? p).isSome then l.length else l.length + 1 := by
  cases hfind : l.find? p with
  | some a => simp [upsertBy, hfind, length_updFirst l]
  | none => simp [upsertBy, hfind]

theorem mem_updFirst {p : α → Bool} {f : α → α} :
    ∀ {l : List α} {y : α}, y ∈ updFirst p f l →
      y ∈ l ∨ ∃ x, x ∈ l ∧ p x = true ∧ y = f x
  | [], y, h => by simp [updFirst] at h
  | x :: l, y, h => by
    by_cases hx : p x
    · simp only [updFirst, hx, if_pos, List.mem_cons] at h
      rcases h with h | h
      · exact Or.inr ⟨x, List.mem_cons_self x l, hx, h⟩
      · exact Or.inl (List.mem_cons_of_mem x h)
    · simp only [updFirst, if_neg hx, List.mem_cons] at h
      rcases h with h | h
      · exact Or.inl (h ▸ List.mem_cons_self x l)
      · rcases mem_updFirst h with h' | ⟨z, hz, hpz, hy⟩
        · exact Or.inl (List.mem_cons_of_mem x h')
        · exact Or.inr ⟨z, List.mem_cons_of_mem x hz, hpz, hy⟩

/-- Every row of an upserted table is either an untouched old row or the
written row, and the written row is `f` of something. -/
theorem mem_upsertBy {p : α → Bool} {mk : Nat → α} {f : α → α}
    {l : List α} {n : Nat} {y : α} (h : y ∈ (upsertBy p mk f l n).1) :
    y ∈ l ∨ ∃ x, y = f x := by
  cases hfind : l.find? p with
  | some a =>
      rw [upsertBy, hfind] at h
      rcases mem_updFirst h with h' | ⟨x, _, _, hy⟩
      · exact Or.inl h'
      · exact Or.inr ⟨x, hy⟩
  | none =>
      rw [upsertBy, hfind] at h
      rcases List.mem_append.1 h with h' | h'
      · exact Or.inl h'
      · simp at h'
        exact Or.inr ⟨mk n, h'⟩

/-- The row an upsert hands back is `f` of something. -/
theorem upsertBy_written {p : α → Bool} {mk : Nat → α} {f : α → α}
    (l : List α) (n : Nat) : ∃ x, (upsertBy p mk f l n).2.1 = f x := by
  cases hfind : l.find? p with
  | some a => exact ⟨a, by simp [upsertBy, hfind]⟩
  | none => exact ⟨mk n, by simp [upsertBy, hfind]⟩

/-! ## Frame lemmas: which tables each import step leaves untouched -/

theorem importLeague_frame (rem : SleeperRemote) (lid : String) (db : DB) :
    ∃ ls n, (importLeague rem lid db).1 = { db with leagues := ls, nextLeagueId := n } :=
  ⟨_, _, rfl⟩

theorem importSeason_frame (rem : SleeperRemote) (lid : String) (lg? : Option Nat)
    (db : DB) :
    ∃ ls nl ss ns, (importSeason rem lid lg? db).1 =
      { db with leagues := ls, nextLeagueId := nl, seasons := ss, nextSeasonId := ns } := by
  cases lg? with
  | some i => exact ⟨db.leagues, db.nextLeagueId, _, _, rfl⟩
  | none => exact ⟨_, _, _, _, rfl⟩

theorem importSeason_leagues_some (rem : SleeperRemote) (lid : String) (i : Nat)
    (db : DB) :
    (importSeason rem lid (some i) db).1.leagues = db.leagues ∧
    (importSeason rem lid (some i) db).1.nextLeagueId = db.nextLeagueId :=
  ⟨rfl, rfl⟩

theorem processRoster_frame (users : List SleeperUser) (sid : Nat)
    (ro : SleeperRoster) (db : DB) :
    ∃ ow no ts nt, (processRoster users sid ro db).1 =
      { db with owners := ow, nextOwnerId := no, teams := ts, nextTeamId := nt } := by
  unfold processRoster
  repeat' split
  all_goals exact ⟨_, _, _, _, rfl⟩

theorem processRosters_frame (users : List SleeperUser) (sid : Nat) :
    ∀ (rs : List SleeperRoster) (db : DB),
    ∃ ow no ts nt, (processRosters users sid rs db).1 =
      { db with owners := ow, nextOwnerId := no, teams := ts, nextTeamId := nt }
  | [], db => ⟨db.owners, db.nextOwnerId, db.teams, db.nextTeamId, rfl⟩
  | ro :: rest, db => by
    obtain ⟨a1, b1, c1, d1, h1⟩ := processRoster_frame users sid ro db
    obtain ⟨a2, b2, c2, d2, h2⟩ :=
      processRosters_frame users sid rest (processRoster users sid ro db).1
    refine ⟨a2, b2, c2, d2, ?_⟩
    show (processRosters users sid rest (processRoster users sid ro db).1).1 = _
    rw [h2, h1]

theorem importUsersAndRosters_frame (rem : SleeperRemote) (lid : String)
    (lg? : Option Nat) (db : DB) :
    ∃ ls nl ss ns ow no ts nt, (importUsersAndRosters rem lid lg? db).1 =
      { db with leagues := ls, nextLeagueId := nl, seasons := ss, nextSeasonId := ns,
                owners := ow, nextOwnerId := no, teams := ts, nextTeamId := nt } := by
  obtain ⟨a1, b1, c1, d1, h1⟩ := importSeason_frame rem lid lg? db
  obtain ⟨a2, b2, c2, d2, h2⟩ := processRosters_frame (rem.users lid)
    (importSeason rem lid lg? db).2.1 (rem.rosters lid) (importSeason rem lid lg? db).1
  refine ⟨a1, b1, c1, d1, a2, b2, c2, d2, ?_⟩
  show (processRosters _ _ _ (importSeason rem lid lg? db).1).1 = _
  rw [h2, h1]

theorem processSleeperGroup_frame (tlook : String → Option TeamRef) (sid pws w : Nat)
    (parts : List SleeperMatchupEntry) (db : DB) :
    ∃ ms nm, (processSleeperGroup tlook sid pws w parts db).1 =
      { db with matchups := ms, nextMatchupId := nm } := by
  unfold processSleeperGroup
  repeat' split
  all_goals exact ⟨_, _, rfl⟩

theorem processSleeperGroups_frame (tlook : String → Option TeamRef) (sid pws : Nat) :
    ∀ (gs : List (Nat × List SleeperMatchupEntry)) (db : DB),
    ∃ ms nm, (processSleeperGroups tlook sid pws gs db).1 =
      { db with matchups := ms, nextMatchupId := nm }
  | [], db => ⟨db.matchups, db.nextMatchupId, rfl⟩
  | (w, parts) :: rest, db => by
    obtain ⟨a1, b1, h1⟩ := processSleeperGroup_frame tlook sid pws w parts db
    obtain ⟨a2, b2, h2⟩ := processSleeperGroups_frame tlook sid pws rest
      (processSleeperGroup tlook sid pws w parts db).1
    refine ⟨a2, b2, ?_⟩
    show (processSleeperGroups tlook sid pws rest
      (processSleeperGroup tlook sid pws w parts db).1).1 = _
    rw [h2, h1]

theorem importMatchups_frame (rem : SleeperRemote) (lid : String) (tw : Nat)
    (lg? : Option Nat) (db : DB) :
    ∃ ls nl ss ns ow no ts nt ms nm, (importMatchups rem lid tw lg? db).1 =
      { db with leagues := ls, nextLeagueId := nl, seasons := ss, nextSeasonId := ns,
                owners := ow, nextOwnerId := no, teams := ts, nextTeamId := nt,
                matchups := ms, nextMatchupId := nm } := by
  obtain ⟨a1, b1, c1, d1, e1, f1, g1, k1, h1⟩ := importUsersAndRosters_frame rem lid lg? db
  unfold importMatchups
  dsimp only
  split
  · obtain ⟨a3, b3, h3⟩ := processSleeperGroups_frame (teamRefLookup
      (importUsersAndRosters rem lid lg? db).2) _
      ((rem.league lid).playoffWeekStart.getD 15) (sleeperGroupList rem lid tw)
      (importUsersAndRosters rem lid lg? db).1
    refine ⟨a1, b1, c1, d1, e1, f1, g1, k1, a3, b3, ?_⟩
    rw [h3, h1]
  · obtain ⟨a2, b2, c2, d2, h2⟩ := importSeason_frame rem lid lg?
      (importUsersAndRosters rem lid lg? db).1
    obtain ⟨a3, b3, h3⟩ := processSleeperGroups_frame (teamRefLookup
      (importUsersAndRosters rem lid lg? db).2)
      (importSeason rem lid lg? (importUsersAndRosters rem lid lg? db).1).2.1
      ((rem.league lid).playoffWeekStart.getD 15) (sleeperGroupList rem lid tw)
      (importSeason rem lid lg? (importUsersAndRosters rem lid lg? db).1).1
    refine ⟨a2, b2, c2, d2, e1, f1, g1, k1, a3, b3, ?_⟩
    rw [h3, h2, h1]

theorem processSleeperTrade_frame (resolve : String → String)
    (tlook : String → Option TeamRef) (sid : Nat) (tt : TaggedTrade) (db : DB) :
    ∃ ts nt, (processSleeperTrade resolve tlook sid tt db).1 =
      { db with trades := ts, nextTradeId := nt } :=
  ⟨_, _, rfl⟩

theorem processSleeperTrades_frame (resolve : String → String)
    (tlook : String → Option TeamRef) (sid : Nat) :
    ∀ (tts : List TaggedTrade) (db : DB),
    ∃ ts nt, (processSleeperTrades resolve tlook sid tts db).1 =
      { db with trades := ts, nextTradeId := nt }
  | [], db => ⟨db.trades, db.nextTradeId, rfl⟩
  | tt :: rest, db => by
    obtain ⟨a1, b1, h1⟩ := processSleeperTrade_frame resolve tlook sid tt db
    obtain ⟨a2, b2, h2⟩ := processSleeperTrades_frame resolve tlook sid rest
      (processSleeperTrade resolve tlook sid tt db).1
    refine ⟨a2, b2, ?_⟩
    show (processSleeperTrades resolve tlook sid rest
      (processSleeperTrade resolve tlook sid tt db).1).1 = _
    rw [h2, h1]

theorem importTrades_frame (rem : SleeperRemote) (lid : String) (tw : Nat)
    (lg? : Option Nat) (db : DB) :
    ∃ ls nl ss ns ow no ts nt tr ntr, (importTrades rem lid tw lg? db).1 =
      { db with leagues := ls, nextLeagueId := nl, seasons := ss, nextSeasonId := ns,
                owners := ow, nextOwnerId := no, teams := ts, nextTeamId := nt,
                trades := tr, nextTradeId := ntr } := by
  obtain ⟨a1, b1, c1, d1, e1, f1, g1, k1, h1⟩ := importUsersAndRosters_frame rem lid lg? db
  unfold importTrades
  dsimp only
  split
  · obtain ⟨a3, b3, h3⟩ := processSleeperTrades_frame rem.playerName
      (teamRefLookupT (importUsersAndRosters rem lid lg? db).2) _
      (sleeperAllTrades rem lid tw) (importUsersAndRosters rem lid lg? db).1
    refine ⟨a1, b1, c1, d1, e1, f1, g1, k1, a3, b3, ?_⟩
    rw [h3, h1]
  · obtain ⟨a2, b2, c2, d2, h2⟩ := importSeason_frame rem lid lg?
      (importUsersAndRosters rem lid lg? db).1
    obtain ⟨a3, b3, h3⟩ := processSleeperTrades_frame rem.playerName
      (teamRefLookupT (importUsersAndRosters rem lid lg? db).2)
      (importSeason rem lid lg? (importUsersAndRosters rem lid lg? db).1).2.1
      (sleeperAllTrades rem lid tw)
      (importSeason rem lid lg? (importUsersAndRosters rem lid lg? db).1).1
    refine ⟨a2, b2, c2, d2, e1, f1, g1, k1, a3, b3, ?_⟩
    rw [h3, h2, h1]

theorem detectAndSetChampion_frame (rem : SleeperRemote) (lid : String) (sid : Nat)
    (refs : List TeamRef) (db : DB) :
    ∃ ss, (detectAndSetChampion rem lid sid refs db).1 = { db with seasons := ss } := by
  unfold detectAndSetChampion
  dsimp only
  repeat' split
  all_goals exact ⟨_, rfl⟩

theorem yahooImportLeague_frame (rem : YahooRemote) (key : String) (db : DB) :
    ∃ ls n, (yahooImportLeague rem key db).1 =
      { db with leagues := ls, nextLeagueId := n } :=
  ⟨_, _, rfl⟩

theorem yahooImportSeason_frame (rem : YahooRemote) (key : String) (db : DB) :
    ∃ ls nl ss ns, (yahooImportSeason rem key db).1 =
      { db with leagues := ls, nextLeagueId := nl, seasons := ss, nextSeasonId := ns } :=
  ⟨_, _, _, _, rfl⟩

theorem processYahooStanding_frame (sid : Nat) (td : YahooStanding) (db : DB) :
    ∃ ow no ts nt, (processYahooStanding sid td db).1 =
      { db with owners := ow, nextOwnerId := no, teams := ts, nextTeamId := nt } := by
  unfold processYahooStanding
  dsimp only
  repeat' split
  all_goals exact ⟨_, _, _, _, rfl⟩

theorem processYahooStandings_frame (sid : Nat) :
    ∀ (tds : List YahooStanding) (db : DB),
    ∃ ow no ts nt, (processYahooStandings sid tds db).1 =
      { db with owners := ow, nextOwnerId := no, teams := ts, nextTeamId := nt }
  | [], db => ⟨db.owners, db.nextOwnerId, db.teams, db.nextTeamId, rfl⟩
  | td :: rest, db => by
    obtain ⟨a1, b1, c1, d1, h1⟩ := processYahooStanding_frame sid td db
    obtain ⟨a2, b2, c2, d2, h2⟩ :=
      processYahooStandings_frame sid rest (processYahooStanding sid td db).1
    refine ⟨a2, b2, c2, d2, ?_⟩
    show (processYahooStandings sid rest (processYahooStanding sid td db).1).1 = _
    rw [h2, h1]

theorem yahooImportStandings_frame (rem : YahooRemote) (key : String) (db : DB) :
    ∃ ls nl ss ns ow no ts nt, (yahooImportStandings rem key db).1 =
      { db with leagues := ls, nextLeagueId := nl, seasons := ss, nextSeasonId := ns,
                owners := ow, nextOwnerId := no, teams := ts, nextTeamId := nt } := by
  obtain ⟨a1, b1, c1, d1, h1⟩ := yahooImportSeason_frame rem key db
  obtain ⟨a2, b2, c2, d2, h2⟩ := processYahooStandings_frame
    (yahooImportSeason rem key db).2.1 (rem.standings key) (yahooImportSeason rem key db).1
  refine ⟨a1, b1, c1, d1, a2, b2, c2, d2, ?_⟩
  show (processYahooStandings _ _ (yahooImportSeason rem key db).1).1 = _
  rw [h2, h1]

theorem processYahooMatchup_frame (tlook : String → Option TeamRef) (sid w : Nat)
    (m : YahooMatchup) (db : DB) :
    ∃ ms nm, (processYahooMatchup tlook sid w m db).1 =
      { db with matchups := ms, nextMatchupId := nm } := by
  unfold processYahooMatchup
  repeat' split
  all_goals exact ⟨_, _, rfl⟩

theorem processYahooMatchupList_frame (tlook : String → Option TeamRef) (sid w : Nat) :
    ∀ (ms : List YahooMatchup) (db : DB),
    ∃ mss nm, (processYahooMatchupList tlook sid w ms db).1 =
      { db with matchups := mss, nextMatchupId := nm }
  | [], db => ⟨db.matchups, db.nextMatchupId, rfl⟩
  | m :: rest, db => by
    obtain ⟨a1, b1, h1⟩ := processYahooMatchup_frame tlook sid w m db
    obtain ⟨a2, b2, h2⟩ := processYahooMatchupList_frame tlook sid w rest
      (processYahooMatchup tlook sid w m db).1
    refine ⟨a2, b2, ?_⟩
    show (processYahooMatchupList tlook sid w rest
      (processYahooMatchup tlook sid w m db).1).1 = _
    rw [h2, h1]

theorem processYahooWeeks_frame (tlook : String → Option TeamRef) (sid : Nat) :
    ∀ (ws : List (Nat × List YahooMatchup)) (db : DB),
    ∃ mss nm, (processYahooWeeks tlook sid ws db).1 =
      { db with matchups := mss, nextMatchupId := nm }
  | [], db => ⟨db.matchups, db.nextMatchupId, rfl⟩
  | (w, ms) :: rest, db => by
    obtain ⟨a1, b1, h1⟩ := processYahooMatchupList_frame tlook sid w ms db
    obtain ⟨a2, b2, h2⟩ := processYahooWeeks_frame tlook sid rest
      (processYahooMatchupList tlook sid w ms db).1
    refine ⟨a2, b2, ?_⟩
    show (processYahooWeeks tlook sid rest
      (processYahooMatchupList tlook sid w ms db).1).1 = _
    rw [h2, h1]

/-! ## Per-entity key and update facts -/

theorem pyOr_idem (a b : Option String) : pyOr a (pyOr a b) = pyOr a b := by
  unfold pyOr
  by_cases h : strTruthy a = true <;> simp [h]

theorem updChampion_id_championTeamId (ru : Option Nat) (s : SeasonRow) :
    (updChampion none ru s).championTeamId = s.championTeamId := by
  cases ru <;> rfl

theorem updChampion_id_id (c ru : Option Nat) (s : SeasonRow) :
    (updChampion c ru s).id = s.id := by
  cases c <;> cases ru <;> rfl

/-! ## Trivial remotes used to instantiate the theorems on concrete data -/

/-- A Sleeper league payload with every optional field absent. -/
def emptySleeperLeagueData : SleeperLeagueData :=
  { name := none, season := none, totalRosters := none, scoringRec := none,
    status := none, playoffWeekStart := none, playoffRoundTypePlayoff := none,
    playoffTeams := none, previousLeagueId := none }

/-- A Sleeper API returning no data at all. -/
def sRem0 : SleeperRemote :=
  { league := fun _ => emptySleeperLeagueData, users := fun _ => [],
    rosters := fun _ => [], matchups := fun _ _ => [], transactions := fun _ _ => [],
    winnersBracket := fun _ => [], playerName := fun s => s, playersLoaded := true,
    nowYear := 2024 }

/-- A Yahoo league payload with every optional field absent. -/
def emptyYahooLeagueData : YahooLeagueData :=
  { leagueKey := none, name := none, numTeams := none, scoringType := none,
    season := none, startWeek := none, endWeek := none, isFinished := none }

/-- A Yahoo API returning no data at all. -/
def yRem0 : YahooRemote :=
  { league := fun _ => emptyYahooLeagueData, standings := fun _ => [],
    matchups := fun _ _ => [], trades := fun _ => [], nowYear := 2024, nowTs := 0 }

/-! ## C5: champion detection never regresses a season -/

/-- C5 (confirmed): in both services, when champion detection resolves no
champion, the stored champion assignment of every season row is exactly what
it was before the call — the Sleeper service skips the `champion_team_id`
assignment (even though it may still set a runner-up), and the Yahoo service
leaves the whole store untouched. -/
theorem champion_detection_never_regresses :
    (∀ (rem : SleeperRemote) (lid : String) (sid : Nat) (refs : List TeamRef) (db : DB),
        (detectAndSetChampion rem lid sid refs db).2.1 = none →
        (detectAndSetChampion rem lid sid refs db).1.seasons.map
            (fun s => (s.id, s.championTeamId)) =
          db.seasons.map (fun s => (s.id, s.championTeamId))) ∧
    (∀ (rem : YahooRemote) (key : String) (sid : Nat) (db : DB),
        (yahooDetectAndSetChampion rem key sid db).2 = none →
        (yahooDetectAndSetChampion rem key sid db).1 = db) := by
  constructor
  · intro rem lid sid refs db
    unfold detectAndSetChampion
    dsimp only
    split
    · intro _
      rfl
    · intro h
      simp only at h
      rw [h]
      exact map_updFirst
        (fun s _ => by rw [updChampion_id_id, updChampion_id_championTeamId]) db.seasons
  · intro rem key sid db
    unfold yahooDetectAndSetChampion
    dsimp only
    split
    · split
      · intro h
        simp at h
      · intro h
        simp at h
    · intro _
      rfl

/-- Witness for C5 at concrete inputs: an empty winners bracket and an empty
final-week scoreboard resolve no champion, and the stores are untouched. -/
theorem champion_detection_never_regresses_witness :
    (detectAndSetChampion sRem0 "L" 1 [] emptyDB).1.seasons.map
        (fun s => (s.id, s.championTeamId)) =
      emptyDB.seasons.map (fun s => (s.id, s.championTeamId)) ∧
    (yahooDetectAndSetChampion yRem0 "1.l.1" 1 emptyDB).1 = emptyDB :=
  ⟨champion_detection_never_regresses.1 sRem0 "L" 1 [] emptyDB (by decide),
   champion_detection_never_regresses.2 yRem0 "1.l.1" 1 emptyDB (by decide)⟩

/-! ## C10: Yahoo platform flags take precedence over score comparison -/

theorem matchupKey_updYahoo (sid w h a : Nat) (s1 s2 : ℚ) (wn : Option Nat)
    (t ip ic : Bool) (x : MatchupRow) (hx : matchupKey sid w h a x = true) :
    matchupKey sid w h a (updYahooMatchupRow s1 s2 wn t ip ic x) = true := by
  simpa [matchupKey, updYahooMatchupRow] using hx

theorem updYahooMatchupRow_idem (s1 s2 : ℚ) (wn : Option Nat) (t ip ic : Bool)
    (x : MatchupRow) :
    updYahooMatchupRow s1 s2 wn t ip ic (updYahooMatchupRow s1 s2 wn t ip ic x) =
      updYahooMatchupRow s1 s2 wn t ip ic x := rfl

theorem matchupKey_newYahoo (sid w h a i : Nat) (s1 s2 : ℚ) (wn : Option Nat)
    (t ip ic : Bool) :
    matchupKey sid w h a (updYahooMatchupRow s1 s2 wn t ip ic (newMatchupRow i sid w h a)) =
      true := by
  simp [matchupKey, updYahooMatchupRow, newMatchupRow]

/-- C10 (confirmed): for every two-sided Yahoo matchup payload whose sides
map to known teams, the stored row keeps the payload scores, and the winner
determination honours the platform flags first: a set `is_tied` stores a tie
with no winner even for unequal scores; otherwise a truthy `winner_team_key`
naming a known team stores that team as winner regardless of the scores; the
scores are compared only when neither platform field is present. -/
theorem yahoo_platform_flags_precedence (tlook : String → Option TeamRef)
    (sid w wk : Nat) (ip ic tied : Bool) (wkey : Option String)
    (a b : YahooMatchupTeam) (t1 t2 : TeamRef) (db : DB)
    (h1 : tlook a.teamKey = some t1) (h2 : tlook b.teamKey = some t2) :
    ∃ row,
      (processYahooMatchup tlook sid w ⟨wk, ip, ic, tied, wkey, [a, b]⟩ db).1.matchups.find?
          (matchupKey sid w t1.id t2.id) = some row ∧
      row.homeScore = a.points ∧ row.awayScore = b.points ∧
      (tied = true → row.winnerTeamId = none ∧ row.isTie = true) ∧
      (∀ k tk, tied = false → wkey = some k → (k == "") = false →
          tlook k = some tk → row.winnerTeamId = some tk.id ∧ row.isTie = false) ∧
      (tied = false → wkey = none ∨ wkey = some "" →
          (row.winnerTeamId, row.isTie) = yahooScoreWinner t1.id t2.id a.points b.points) := by
  unfold processYahooMatchup
  dsimp only
  rw [h1, h2]
  dsimp only
  have hset := @upsertBy_settles MatchupRow (matchupKey sid w t1.id t2.id)
    (fun i => newMatchupRow i sid w t1.id t2.id)
    (updYahooMatchupRow a.points b.points
      (yahooWinnerTie (fun k => (tlook k).map (fun t => t.id)) tied wkey t1.id t2.id
        a.points b.points).1
      (yahooWinnerTie (fun k => (tlook k).map (fun t => t.id)) tied wkey t1.id t2.id
        a.points b.points).2 ip ic)
    (matchupKey_updYahoo sid w t1.id t2.id a.points b.points _ _ ip ic)
    (updYahooMatchupRow_idem a.points b.points _ _ ip ic)
    (fun i => matchupKey_newYahoo sid w t1.id t2.id i a.points b.points _ _ ip ic)
    db.matchups db.nextMatchupId
  obtain ⟨x, hx⟩ := @upsertBy_written MatchupRow (matchupKey sid w t1.id t2.id)
    (fun i => newMatchupRow i sid w t1.id t2.id)
    (updYahooMatchupRow a.points b.points
      (yahooWinnerTie (fun k => (tlook k).map (fun t => t.id)) tied wkey t1.id t2.id
        a.points b.points).1
      (yahooWinnerTie (fun k => (tlook k).map (fun t => t.id)) tied wkey t1.id t2.id
        a.points b.points).2 ip ic)
    db.matchups db.nextMatchupId
  refine ⟨_, hset.1, ?_, ?_, ?_, ?_, ?_⟩
  · rw [hx]
    simp [updYahooMatchupRow]
  · rw [hx]
    simp [updYahooMatchupRow]
  · intro ht
    rw [hx]
    simp [updYahooMatchupRow, yahooWinnerTie, ht]
  · intro k tk ht hk hke htk
    rw [hx]
    simp [updYahooMatchupRow, yahooWinnerTie, ht, hk, hke, htk]
  · intro ht hk
    rw [hx]
    rcases hk with hk | hk <;>
      simp [updYahooMatchupRow, yahooWinnerTie, ht, hk, strTruthy]

/-- A concrete team lookup for the C10 witness. -/
def tlookC10 : String → Option TeamRef := fun k =>
  if k == "t.1" then some ⟨1, "t.1", 1⟩
  else if k == "t.2" then some ⟨2, "t.2", 1⟩ else none

/-- Witness for C10 at a concrete payload: `is_tied` set with unequal scores
(100 vs 80) still stores a tie with no winner. -/
theorem yahoo_platform_flags_precedence_witness :
    (processYahooMatchup tlookC10 1 1
        ⟨1, true, false, true, none, [⟨"t.1", "A", 100⟩, ⟨"t.2", "B", 80⟩]⟩
        emptyDB).1.matchups.map
      (fun m => (m.homeScore, m.awayScore, m.winnerTeamId, m.isTie)) =
      [((100 : ℚ), (80 : ℚ), (none : Option Nat), true)] := by
  have h := yahoo_platform_flags_precedence tlookC10 1 1 1 true false true none
    ⟨"t.1", "A", 100⟩ ⟨"t.2", "B", 80⟩ ⟨1, "t.1", 1⟩ ⟨2, "t.2", 1⟩ emptyDB
    (by decide) (by decide)
  decide

/-! ## C6: Sleeper fractional-points normalization is exact -/

theorem teamKey_updSleeper (sid : Nat) (ptid : String) (oid : Nat) (st : RosterSettings)
    (x : TeamRow) (hx : teamKey sid ptid x = true) :
    teamKey sid ptid (updSleeperTeamRow oid st x) = true := by
  simpa [teamKey, updSleeperTeamRow] using hx

theorem updSleeperTeamRow_idem (oid : Nat) (st : RosterSettings) (x : TeamRow) :
    updSleeperTeamRow oid st (updSleeperTeamRow oid st x) = updSleeperTeamRow oid st x := rfl

theorem teamKey_newSleeper (sid : Nat) (ptid : String) (oid oid' i : Nat) (nm : String)
    (st : RosterSettings) :
    teamKey sid ptid (updSleeperTeamRow oid st (newTeamRow i sid oid' nm ptid)) = true := by
  simp [teamKey, updSleeperTeamRow, newTeamRow]

/-- A Sleeper API with a single roster carrying `fpts = 1500` and
`fpts_decimal = 50`. -/
def sRem6 : SleeperRemote :=
  { sRem0 with
    rosters := fun _ =>
      [{ rosterId := 1, ownerId := some "U1",
         settings := { wins := some 3, losses := some 1, ties := some 0,
                       fpts := some 1500, fptsDecimal := some 50,
                       fptsAgainst := some 100, fptsAgainstDecimal := some 5 } }] }

/-- C6 (confirmed): the Sleeper roster import recombines the whole-points and
hundredths fields as the exact value `fpts + fpts_decimal / 100` — for every
roster the stored team's points are exactly that rational — and on the
spec's instance `whole = 1500, decimal = 50` the imported `points_for` is
exactly `1500.50`. -/
theorem sleeper_points_normalization_exact :
    (∀ (users : List SleeperUser) (sid : Nat) (ro : SleeperRoster) (db : DB)
        (uid : String), ro.ownerId = some uid → (uid == "") = false →
        ∃ t, (processRoster users sid ro db).1.teams.find?
            (teamKey sid (toString ro.rosterId)) = some t ∧
          t.pointsFor = ro.settings.fpts.getD 0 + ro.settings.fptsDecimal.getD 0 / 100 ∧
          t.pointsAgainst =
            ro.settings.fptsAgainst.getD 0 + ro.settings.fptsAgainstDecimal.getD 0 / 100) ∧
    (importUsersAndRosters sRem6 "L" none emptyDB).1.teams.map (fun t => t.pointsFor) =
      [(1500 : ℚ) + 50 / 100] ∧
    ((1500 : ℚ) + 50 / 100 = 1500.50 ∧ (1500.50 : ℚ) = 3001 / 2) := by
  refine ⟨?_, rfl, by norm_num, by norm_num⟩
  intro users sid ro db uid hu hk
  unfold processRoster
  rw [hu]
  dsimp only
  rw [if_neg (by simp [hk])]
  dsimp only
  cases hfind : db.owners.find? (ownerKey uid) with
  | some o =>
    dsimp only
    have hset := @upsertBy_settles TeamRow (teamKey sid (toString ro.rosterId))
      (fun i => newTeamRow i sid o.id
        (strOr ((userLookup users uid).bind (fun x => x.displayName))
          (strOr ((userLookup users uid).bind (fun x => x.username))
            ("Team " ++ toString ro.rosterId)))
        (toString ro.rosterId))
      (updSleeperTeamRow o.id ro.settings)
      (teamKey_updSleeper sid (toString ro.rosterId) o.id ro.settings)
      (updSleeperTeamRow_idem o.id ro.settings)
      (fun i => teamKey_newSleeper sid (toString ro.rosterId) o.id o.id i _ ro.settings)
      db.teams db.nextTeamId
    obtain ⟨x, hx⟩ := @upsertBy_written TeamRow (teamKey sid (toString ro.rosterId))
      (fun i => newTeamRow i sid o.id
        (strOr ((userLookup users uid).bind (fun x => x.displayName))
          (strOr ((userLookup users uid).bind (fun x => x.username))
            ("Team " ++ toString ro.rosterId)))
        (toString ro.rosterId))
      (updSleeperTeamRow o.id ro.settings) db.teams db.nextTeamId
    exact ⟨_, hset.1, by rw [hx]; simp [updSleeperTeamRow],
      by rw [hx]; simp [updSleeperTeamRow]⟩
  | none =>
    dsimp only
    have hset := @upsertBy_settles TeamRow (teamKey sid (toString ro.rosterId))
      (fun i => newTeamRow i sid db.nextOwnerId
        (strOr ((userLookup users uid).bind (fun x => x.displayName))
          (strOr ((userLookup users uid).bind (fun x => x.username))
            ("Team " ++ toString ro.rosterId)))
        (toString ro.rosterId))
      (updSleeperTeamRow db.nextOwnerId ro.settings)
      (teamKey_updSleeper sid (toString ro.rosterId) db.nextOwnerId ro.settings)
      (updSleeperTeamRow_idem db.nextOwnerId ro.settings)
      (fun i => teamKey_newSleeper sid (toString ro.rosterId) db.nextOwnerId
        db.nextOwnerId i _ ro.settings)
      db.teams db.nextTeamId
    obtain ⟨x, hx⟩ := @upsertBy_written TeamRow (teamKey sid (toString ro.rosterId))
      (fun i => newTeamRow i sid db.nextOwnerId
        (strOr ((userLookup users uid).bind (fun x => x.displayName))
          (strOr ((userLookup users uid).bind (fun x => x.username))
            ("Team " ++ toString ro.rosterId)))
        (toString ro.rosterId))
      (updSleeperTeamRow db.nextOwnerId ro.settings) db.teams db.nextTeamId
    exact ⟨_, hset.1, by rw [hx]; simp [updSleeperTeamRow],
      by rw [hx]; simp [updSleeperTeamRow]⟩

/-- Witness for C6 at a concrete roster (`fpts = 1500`, `fpts_decimal = 50`):
the stored team's points are exactly `1500 + 50 / 100`. -/
theorem sleeper_points_normalization_exact_witness :
    (processRoster [] 1 ((sRem6.rosters "L").headD
        ⟨1, none, ⟨none, none, none, none, none, none, none⟩⟩) emptyDB).1.teams.map
      (fun t => (t.pointsFor, t.pointsAgainst)) =
      [((1500 : ℚ) + 50 / 100, (100 : ℚ) + 5 / 100)] := by
  have h := sleeper_points_normalization_exact.1 [] 1
    ((sRem6.rosters "L").headD ⟨1, none, ⟨none, none, none, none, none, none, none⟩⟩)
    emptyDB "U1" (by decide) (by decide)
  exact rfl

/-! ## C4: merging owners -/

theorem find?_removeFirst_other {p q : α → Bool}
    (hdisj : ∀ x, q x = true → p x = false) :
    ∀ (l : List α), (removeFirst q l).find? p = l.find? p
  | [] => rfl
  | x :: l => by
    by_cases hq : q x
    · simp only [removeFirst, if_pos hq]
      rw [find?_cons_of_neg _ (hdisj x hq)]
    · simp only [Bool.not_eq_true] at hq
      simp only [removeFirst, hq, Bool.false_eq_true, if_false]
      by_cases hp : p x
      · rw [find?_cons_of_pos _ hp, find?_cons_of_pos _ hp]
      · simp only [Bool.not_eq_true] at hp
        rw [find?_cons_of_neg _ hp, find?_cons_of_neg _ hp]
        exact find?_removeFirst_other hdisj l

theorem removeFirst_length_of_found {p : α → Bool} :
    ∀ {l : List α} {a : α}, l.find? p = some a →
      (removeFirst p l).length + 1 = l.length
  | [], a, h => by simp [List.find?] at h
  | x :: l, a, h => by
    by_cases hx : p x
    · simp [removeFirst, hx]
    · simp only [Bool.not_eq_true] at hx
      rw [find?_cons_of_neg _ hx] at h
      simp only [removeFirst, hx, Bool.false_eq_true, if_false, List.length_cons]
      rw [← removeFirst_length_of_found h]

theorem filter_length_le_one_of_nodup_map {g : α → Nat} :
    ∀ {l : List α}, (l.map g).Nodup → ∀ v,
      (l.filter (fun x => g x == v)).length ≤ 1
  | [], _, v => by simp
  | x :: l, hn, v => by
    simp only [List.map_cons, List.nodup_cons] at hn
    by_cases hx : (g x == v) = true
    · have hv : g x = v := by simpa using hx
      have hfe : l.filter (fun y => g y == v) = [] := by
        rw [List.filter_eq_nil_iff]
        intro y hy hgy
        exact hn.1 (by
          rw [show g x = g y by rw [hv]; symm; simpa using hgy]
          exact List.mem_map_of_mem g hy)
      simp [List.filter_cons, hx, hfe]
    · simp only [List.filter_cons, hx, Bool.false_eq_true, if_false]
      exact filter_length_le_one_of_nodup_map hn.2 v

theorem find?_removeFirst_self_of_le_one {p : α → Bool} :
    ∀ {l : List α}, (l.filter p).length ≤ 1 →
      (removeFirst p l).find? p = none
  | [], _ => rfl
  | x :: l, h => by
    by_cases hx : p x
    · simp only [removeFirst, if_pos hx]
      have hfe : l.filter p = [] := by
        have h2 : (x :: l).filter p = x :: l.filter p := by
          simp [List.filter_cons, hx]
        rw [h2, List.length_cons] at h
        have h0 : (l.filter p).length = 0 := by omega
        simpa [List.length_eq_zero] using h0
      rw [List.find?_eq_none]
      intro y hy
      have := List.filter_eq_nil_iff.1 hfe y hy
      simpa using this
    · simp only [Bool.not_eq_true] at hx
      simp only [removeFirst, hx, Bool.false_eq_true, if_false]
      rw [find?_cons_of_neg _ hx]
      refine find?_removeFirst_self_of_le_one ?_
      simpa [List.filter_cons, hx] using h

theorem mem_removeFirst {p : α → Bool} :
    ∀ (l : List α), ∀ y ∈ removeFirst p l, y ∈ l
  | x :: l, y, hy => by
    by_cases hx : p x
    · simp only [removeFirst, if_pos hx] at hy
      exact List.mem_cons_of_mem x hy
    · simp only [Bool.not_eq_true] at hx
      simp only [removeFirst, hx, Bool.false_eq_true, if_false, List.mem_cons] at hy
      rcases hy with hy | hy
      · exact hy ▸ List.mem_cons_self x l
      · exact List.mem_cons_of_mem x (mem_removeFirst l y hy)

theorem mergeFields_keeps (p s x : OwnerRow) :
    (strTruthy p.displayName = true → (mergeFields p s x).displayName = x.displayName) ∧
    (strTruthy p.avatarUrl = true → (mergeFields p s x).avatarUrl = x.avatarUrl) ∧
    (strTruthy p.sleeperUserId = true → (mergeFields p s x).sleeperUserId = x.sleeperUserId) ∧
    (strTruthy p.yahooUserId = true → (mergeFields p s x).yahooUserId = x.yahooUserId) := by
  unfold mergeFields
  refine ⟨?_, ?_, ?_, ?_⟩ <;> intro h <;>
    by_cases h1 : strTruthy p.sleeperUserId = true <;>
    by_cases h2 : strTruthy s.sleeperUserId = true <;>
    by_cases h3 : strTruthy p.yahooUserId = true <;>
    by_cases h4 : strTruthy s.yahooUserId = true <;>
    by_cases h5 : strTruthy p.displayName = true <;>
    by_cases h6 : strTruthy s.displayName = true <;>
    by_cases h7 : strTruthy p.avatarUrl = true <;>
    by_cases h8 : strTruthy s.avatarUrl = true <;>
    simp_all

theorem mergeFields_takes (p s x : OwnerRow) :
    (strTruthy p.displayName = false → strTruthy s.displayName = true →
      (mergeFields p s x).displayName = s.displayName) ∧
    (strTruthy p.avatarUrl = false → strTruthy s.avatarUrl = true →
      (mergeFields p s x).avatarUrl = s.avatarUrl) ∧
    (strTruthy p.sleeperUserId = false → strTruthy s.sleeperUserId = true →
      (mergeFields p s x).sleeperUserId = s.sleeperUserId) ∧
    (strTruthy p.yahooUserId = false → strTruthy s.yahooUserId = true →
      (mergeFields p s x).yahooUserId = s.yahooUserId) := by
  unfold mergeFields
  refine ⟨?_, ?_, ?_, ?_⟩ <;> intro h h' <;>
    by_cases h1 : strTruthy p.sleeperUserId = true <;>
    by_cases h2 : strTruthy s.sleeperUserId = true <;>
    by_cases h3 : strTruthy p.yahooUserId = true <;>
    by_cases h4 : strTruthy s.yahooUserId = true <;>
    by_cases h5 : strTruthy p.displayName = true <;>
    by_cases h6 : strTruthy s.displayName = true <;>
    by_cases h7 : strTruthy p.avatarUrl = true <;>
    by_cases h8 : strTruthy s.avatarUrl = true <;>
    simp_all

theorem mergeFields_id (p s x : OwnerRow) : (mergeFields p s x).id = x.id := by
  unfold mergeFields
  by_cases h1 : strTruthy p.sleeperUserId = true <;>
  by_cases h2 : strTruthy s.sleeperUserId = true <;>
  by_cases h3 : strTruthy p.yahooUserId = true <;>
  by_cases h4 : strTruthy s.yahooUserId = true <;>
  by_cases h5 : strTruthy p.displayName = true <;>
  by_cases h6 : strTruthy s.displayName = true <;>
  by_cases h7 : strTruthy p.avatarUrl = true <;>
  by_cases h8 : strTruthy s.avatarUrl = true <;>
  simp_all

/-- C4 (confirmed): `merge_owners` rejects merging an owner with itself; on
distinct, present owners it re-points every team of the secondary at the
primary and leaves all other teams alone, deletes the secondary row, keeps
every truthy field of the primary and copies the secondary's truthy fields
only onto falsy primary fields — and the intermediate state at the flush
point still holds the secondary row with both unique platform ids cleared. -/
theorem merge_owners_spec :
    (∀ (db : DB) (i : Nat), mergeOwners db i i = .error .cannotMergeSelf) ∧
    (∀ (db : DB) (pid sid : Nat) (p s : OwnerRow),
      (pid == sid) = false →
      db.owners.find? (fun o => o.id == pid) = some p →
      db.owners.find? (fun o => o.id == sid) = some s →
      (db.owners.map (fun o => o.id)).Nodup →
      ∃ dbc db',
        mergeOwnersCleared db pid sid = .ok dbc ∧
        (∃ s', dbc.owners.find? (fun o => o.id == sid) = some s' ∧
          s'.sleeperUserId = none ∧ s'.yahooUserId = none) ∧
        mergeOwners db pid sid = .ok db' ∧
        db'.teams = db.teams.map
          (fun t => if t.ownerId == sid then { t with ownerId := pid } else t) ∧
        db'.owners.length + 1 = db.owners.length ∧
        db'.owners.find? (fun o => o.id == sid) = none ∧
        ∃ p', db'.owners.find? (fun o => o.id == pid) = some p' ∧
          (strTruthy p.displayName = true → p'.displayName = p.displayName) ∧
          (strTruthy p.displayName = false → strTruthy s.displayName = true →
            p'.displayName = s.displayName) ∧
          (strTruthy p.avatarUrl = true → p'.avatarUrl = p.avatarUrl) ∧
          (strTruthy p.avatarUrl = false → strTruthy s.avatarUrl = true →
            p'.avatarUrl = s.avatarUrl) ∧
          (strTruthy p.sleeperUserId = true → p'.sleeperUserId = p.sleeperUserId) ∧
          (strTruthy p.sleeperUserId = false → strTruthy s.sleeperUserId = true →
            p'.sleeperUserId = s.sleeperUserId) ∧
          (strTruthy p.yahooUserId = true → p'.yahooUserId = p.yahooUserId) ∧
          (strTruthy p.yahooUserId = false → strTruthy s.yahooUserId = true →
            p'.yahooUserId = s.yahooUserId)) := by
  constructor
  · intro db i
    simp [mergeOwners]
  · intro db pid sid p s hne hp hs hnd
    have hne' : pid ≠ sid := by simpa using hne
    have hdisjPS : ∀ x : OwnerRow, (x.id == sid) = true → (x.id == pid) = false := by
      intro x hx
      have hxe : x.id = sid := by simpa using hx
      simp [hxe, Ne.symm hne']
    have hdisjSP : ∀ x : OwnerRow, (x.id == pid) = true → (x.id == sid) = false := by
      intro x hx
      have hxe : x.id = pid := by simpa using hx
      simp [hxe, hne']
    have hclear_id : ∀ x : OwnerRow, (x.id == sid) = true →
        ((clearOwnerIds x).id == sid) = true := fun x hx => hx
    have hclear_not_p : ∀ x : OwnerRow, (x.id == sid) = true →
        ((clearOwnerIds x).id == pid) = false := fun x hx => hdisjPS x hx
    have hmf_not_s : ∀ x : OwnerRow, (x.id == pid) = true →
        ((mergeFields p s x).id == sid) = false := by
      intro x hx
      rw [mergeFields_id]
      exact hdisjSP x hx
    have hfind_s_L1 :
        (updFirst (fun o => o.id == sid) clearOwnerIds db.owners).find?
          (fun o => o.id == sid) = some (clearOwnerIds s) :=
      find?_updFirst_self hclear_id hs
    have hfind_p_L1 :
        (updFirst (fun o => o.id == sid) clearOwnerIds db.owners).find?
          (fun o => o.id == pid) = some p := by
      rw [find?_updFirst_other hdisjPS hclear_not_p db.owners]
      exact hp
    have hfind_p_L2 :
        (updFirst (fun o => o.id == pid) (mergeFields p s)
          (updFirst (fun o => o.id == sid) clearOwnerIds db.owners)).find?
            (fun o => o.id == pid) = some (mergeFields p s p) :=
      find?_updFirst_self (fun x hx => by rw [mergeFields_id]; exact hx) hfind_p_L1
    have hfind_s_L2 :
        (updFirst (fun o => o.id == pid) (mergeFields p s)
          (updFirst (fun o => o.id == sid) clearOwnerIds db.owners)).find?
            (fun o => o.id == sid) = some (clearOwnerIds s) := by
      rw [find?_updFirst_other hdisjSP hmf_not_s]
      exact hfind_s_L1
    have hmapid_L2 :
        ((updFirst (fun o => o.id == pid) (mergeFields p s)
          (updFirst (fun o => o.id == sid) clearOwnerIds db.owners)).map
            (fun o => o.id)) = db.owners.map (fun o => o.id) := by
      have e1 := @map_updFirst OwnerRow Nat (fun o => o.id == pid) (mergeFields p s)
        (fun o => o.id) (fun x _ => mergeFields_id p s x)
        (updFirst (fun o => o.id == sid) clearOwnerIds db.owners)
      have e2 := @map_updFirst OwnerRow Nat (fun o => o.id == sid) clearOwnerIds
        (fun o => o.id) (fun x _ => rfl) db.owners
      rw [e1, e2]
    have hle1 : ((updFirst (fun o => o.id == pid) (mergeFields p s)
        (updFirst (fun o => o.id == sid) clearOwnerIds db.owners)).filter
          (fun o => o.id == sid)).length ≤ 1 := by
      refine filter_length_le_one_of_nodup_map ?_ sid
      rw [hmapid_L2]
      exact hnd
    have hdbc : mergeOwnersCleared db pid sid = .ok
        { db with
          teams := db.teams.map
            (fun t => if t.ownerId == sid then { t with ownerId := pid } else t),
          owners := updFirst (fun o => o.id == sid) clearOwnerIds db.owners } := by
      unfold mergeOwnersCleared
      rw [if_neg (by simp [hne]), hp, hs]
    have hdb' : mergeOwners db pid sid = .ok
        { db with
          teams := db.teams.map
            (fun t => if t.ownerId == sid then { t with ownerId := pid } else t),
          owners := removeFirst (fun o => o.id == sid)
            (updFirst (fun o => o.id == pid) (mergeFields p s)
              (updFirst (fun o => o.id == sid) clearOwnerIds db.owners)) } := by
      unfold mergeOwners
      rw [if_neg (by simp [hne]), hp, hs, hdbc]
    refine ⟨_, _, hdbc, ⟨clearOwnerIds s, ?_, rfl, rfl⟩, hdb', rfl, ?_, ?_, ?_⟩
    · exact hfind_s_L1
    · have hrm := removeFirst_length_of_found hfind_s_L2
      calc (removeFirst (fun o => o.id == sid)
              (updFirst (fun o => o.id == pid) (mergeFields p s)
                (updFirst (fun o => o.id == sid) clearOwnerIds db.owners))).length + 1
          = (updFirst (fun o => o.id == pid) (mergeFields p s)
              (updFirst (fun o => o.id == sid) clearOwnerIds db.owners)).length := hrm
        _ = db.owners.length := by rw [length_updFirst, length_updFirst]
    · exact find?_removeFirst_self_of_le_one hle1
    · refine ⟨mergeFields p s p, ?_, ?_, ?_, ?_, ?_, ?_, ?_, ?_, ?_⟩
      · rw [find?_removeFirst_other hdisjPS]
        exact hfind_p_L2
      · exact fun h => (mergeFields_keeps p s p).1 h
      · exact fun h h' => (mergeFields_takes p s p).1 h h'
      · exact fun h => (mergeFields_keeps p s p).2.1 h
      · exact fun h h' => (mergeFields_takes p s p).2.1 h h'
      · exact fun h => (mergeFields_keeps p s p).2.2.1 h
      · exact fun h h' => (mergeFields_takes p s p).2.2.1 h h'
      · exact fun h => (mergeFields_keeps p s p).2.2.2 h
      · exact fun h h' => (mergeFields_takes p s p).2.2.2 h h'

/-- A concrete primary owner for exercising the merge endpoint. -/
def pC4 : OwnerRow :=
  { id := 1, name := "Alice", displayName := some "A", avatarUrl := none,
    yahooUserId := none, sleeperUserId := some "SL1" }

/-- A concrete secondary owner whose every optional field is populated. -/
def sC4 : OwnerRow :=
  { id := 2, name := "Bob", displayName := some "B", avatarUrl := some "avS",
    yahooUserId := some "Y2", sleeperUserId := some "SL2" }

/-- A store holding the two owners and two teams, one per owner. -/
def dbC4 : DB :=
  { emptyDB with
    owners := [pC4, sC4],
    teams :=
      [{ id := 10, seasonId := 1, ownerId := 2, name := "T10",
         platformTeamId := some "r1", wins := 0, losses := 0, ties := 0,
         pointsFor := 0, pointsAgainst := 0, regularSeasonRank := none,
         finalRank := none, madePlayoffs := false, longestWinStreak := 0 },
       { id := 11, seasonId := 1, ownerId := 1, name := "T11",
         platformTeamId := some "r2", wins := 0, losses := 0, ties := 0,
         pointsFor := 0, pointsAgainst := 0, regularSeasonRank := none,
         finalRank := none, madePlayoffs := false, longestWinStreak := 0 }],
    nextOwnerId := 3, nextTeamId := 12 }

/-- Witness for C4 at a concrete store: self-merge errors; merging owner 2
into owner 1 re-points team 10 at owner 1, deletes owner 2, keeps the
primary's display name and Sleeper id, copies the secondary's avatar and
Yahoo id, and the flush-point state still holds owner 2 with both platform
ids cleared. -/
theorem merge_owners_spec_witness :
    mergeOwners dbC4 1 1 = .error .cannotMergeSelf ∧
    (mergeOwners dbC4 1 2).map (fun d => d.teams.map (fun t => (t.id, t.ownerId))) =
      .ok [(10, 1), (11, 1)] ∧
    (mergeOwners dbC4 1 2).map (fun d => d.owners.map
        (fun o => (o.id, o.displayName, o.avatarUrl, o.sleeperUserId, o.yahooUserId))) =
      .ok [(1, some "A", some "avS", some "SL1", some "Y2")] ∧
    (mergeOwnersCleared dbC4 1 2).map (fun d => d.owners.map
        (fun o => (o.id, o.sleeperUserId, o.yahooUserId))) =
      .ok [(1, some "SL1", none), (2, none, none)] := by
  have h1 := merge_owners_spec.1 dbC4 1
  have h2 := merge_owners_spec.2 dbC4 1 2 pC4 sC4
    (by decide) (by decide) (by decide) (by decide)
  exact ⟨h1, rfl, rfl, rfl⟩

/-! ## C8: format validation before remote calls -/

theorem chainRequests_succ (rem : SleeperRemote) (n : Nat) (cur : String) :
    chainRequests rem (n + 1) (some cur) =
      if cur == "" then []
      else ("league " ++ cur) ::
        chainRequests rem n (getPreviousLeagueId (rem.league cur)) := rfl

/-- Every Sleeper import starts by fetching the caller-supplied id. -/
theorem sleeperFullRequests_head (rem : SleeperRemote) (lid : String) (tw fuel : Nat) :
    (sleeperFullRequests rem lid tw fuel).head? = some ("league " ++ lid) := by
  show ((chainRequests rem fuel (some lid) ++ ["league " ++ lid]) ++ _).head? = _
  rcases fuel with _ | n
  · rfl
  · rw [chainRequests_succ]
    by_cases h : (lid == "") = true
    · rw [if_pos h]; rfl
    · rw [if_neg h]; rfl

/-- C8 (corrected): only the Yahoo import route checks the league-key format
before touching the network — a malformed key is rejected with a validation
error and an empty request trace.  The Sleeper import route has no format
check at all: for every caller-supplied id, malformed or not, it issues
remote requests, starting with a league fetch for that very id. -/
theorem import_route_validation :
    (∀ (rem : YahooRemote) (authed : Bool) (key : String) (sw ew : Nat) (db : DB),
      validateLeagueKey key = false →
      yahooImportRoute rem authed key sw ew db = (.error (.validation key), [])) ∧
    (∀ (rem : SleeperRemote) (lid : String) (tw fuel : Nat) (db : DB),
      (sleeperImportRoute rem lid tw fuel db).2.head? = some ("league " ++ lid)) := by
  constructor
  · intro rem authed key sw ew db h
    simp [yahooImportRoute, h]
  · intro rem lid tw fuel db
    exact sleeperFullRequests_head rem lid tw fuel

/-- Counterexample to C8 as stated: the id `"nope"` fails the format check,
yet the Sleeper import route returns no error (its result type has no error
channel) and issues a remote league fetch for exactly that id. -/
theorem import_route_validation_counterexample :
    validateLeagueKey "nope" = false ∧
    (sleeperImportRoute sRem0 "nope" 1 3 emptyDB).2.head? = some "league nope" ∧
    (sleeperImportRoute sRem0 "nope" 1 3 emptyDB).2 ≠ [] := by
  refine ⟨by decide, by decide, by decide⟩

/-- Witness for C8's amended statement at concrete inputs: the malformed key
`"bad"` is rejected by the Yahoo route with an empty trace, while the
Sleeper route still fetches `league bad`. -/
theorem import_route_validation_witness :
    validateLeagueKey "bad" = false ∧
    yahooImportRoute yRem0 true "bad" 1 2 emptyDB = (.error (.validation "bad"), []) ∧
    (sleeperImportRoute sRem0 "bad" 1 3 emptyDB).2.head? = some "league bad" :=
  ⟨by decide,
   import_route_validation.1 yRem0 true "bad" 1 2 emptyDB (by decide),
   import_route_validation.2 sRem0 "bad" 1 3 emptyDB⟩

/-! ## C9: team ownership under re-import -/

theorem teamKey_updYahooT (sid : Nat) (ptid : String) (oid : Nat) (td : YahooStanding)
    (x : TeamRow) (hx : teamKey sid ptid x = true) :
    teamKey sid ptid (updYahooTeamRow oid td x) = true := by
  unfold updYahooTeamRow
  rcases td.playoffSeed with _ | s <;> simpa [teamKey] using hx

theorem updYahooTeamRow_idem (oid : Nat) (td : YahooStanding) (x : TeamRow) :
    updYahooTeamRow oid td (updYahooTeamRow oid td x) = updYahooTeamRow oid td x := by
  unfold updYahooTeamRow
  rcases td.playoffSeed with _ | s <;> rfl

theorem teamKey_newYahooT (sid : Nat) (ptid : String) (oid oid' i : Nat) (nm : String)
    (td : YahooStanding) :
    teamKey sid ptid (updYahooTeamRow oid td (newTeamRow i sid oid' nm ptid)) = true := by
  unfold updYahooTeamRow
  rcases td.playoffSeed with _ | s <;> simp [teamKey, newTeamRow]

theorem updYahooTeamRow_ownerId (oid : Nat) (td : YahooStanding) (x : TeamRow) :
    (updYahooTeamRow oid td x).ownerId = oid := by
  unfold updYahooTeamRow
  rcases td.playoffSeed with _ | s <;> rfl

/-- C9 (corrected): both roster-style importers re-point the stored team at
the owner resolved from the current platform payload — the found-or-created
team row always leaves the import with `owner_id` equal to the resolved
owner's id, regardless of the owner it had before.  A pre-existing team's
`owner_id` is therefore overwritten whenever the platform reports a
different owner; owner-merge is not the only path that reassigns it. -/
theorem team_owner_overwritten_on_import :
    (∀ (users : List SleeperUser) (sid : Nat) (ro : SleeperRoster) (db : DB)
        (uid : String), ro.ownerId = some uid → (uid == "") = false →
        ∃ t, (processRoster users sid ro db).1.teams.find?
            (teamKey sid (toString ro.rosterId)) = some t ∧
          t.ownerId = (match db.owners.find? (ownerKey uid) with
                       | some o => o.id
                       | none => db.nextOwnerId)) ∧
    (∀ (sid : Nat) (td : YahooStanding) (db : DB) (m : YahooManager),
        td.manager = some m → (yahooUid (some m) == "") = false →
        ∃ t, (processYahooStanding sid td db).1.teams.find?
            (teamKey sid td.teamKey) = some t ∧
          t.ownerId =
            (match db.owners.find? (yahooOwnerKey (yahooUid (some m))) with
             | some o => o.id
             | none => db.nextOwnerId)) := by
  constructor
  · intro users sid ro db uid hu hk
    unfold processRoster
    rw [hu]
    dsimp only
    rw [if_neg (by simp [hk])]
    dsimp only
    cases hfind : db.owners.find? (ownerKey uid) with
    | some o =>
      dsimp only
      have hset := @upsertBy_settles TeamRow (teamKey sid (toString ro.rosterId))
        (fun i => newTeamRow i sid o.id
          (strOr ((userLookup users uid).bind (fun x => x.displayName))
            (strOr ((userLookup users uid).bind (fun x => x.username))
              ("Team " ++ toString ro.rosterId)))
          (toString ro.rosterId))
        (updSleeperTeamRow o.id ro.settings)
        (teamKey_updSleeper sid (toString ro.rosterId) o.id ro.settings)
        (updSleeperTeamRow_idem o.id ro.settings)
        (fun i => teamKey_newSleeper sid (toString ro.rosterId) o.id o.id i _ ro.settings)
        db.teams db.nextTeamId
      obtain ⟨x, hx⟩ := @upsertBy_written TeamRow (teamKey sid (toString ro.rosterId))
        (fun i => newTeamRow i sid o.id
          (strOr ((userLookup users uid).bind (fun x => x.displayName))
            (strOr ((userLookup users uid).bind (fun x => x.username))
              ("Team " ++ toString ro.rosterId)))
          (toString ro.rosterId))
        (updSleeperTeamRow o.id ro.settings) db.teams db.nextTeamId
      exact ⟨_, hset.1, by rw [hx]; rfl⟩
    | none =>
      dsimp only
      have hset := @upsertBy_settles TeamRow (teamKey sid (toString ro.rosterId))
        (fun i => newTeamRow i sid db.nextOwnerId
          (strOr ((userLookup users uid).bind (fun x => x.displayName))
            (strOr ((userLookup users uid).bind (fun x => x.username))
              ("Team " ++ toString ro.rosterId)))
          (toString ro.rosterId))
        (updSleeperTeamRow db.nextOwnerId ro.settings)
        (teamKey_updSleeper sid (toString ro.rosterId) db.nextOwnerId ro.settings)
        (updSleeperTeamRow_idem db.nextOwnerId ro.settings)
        (fun i => teamKey_newSleeper sid (toString ro.rosterId) db.nextOwnerId
          db.nextOwnerId i _ ro.settings)
        db.teams db.nextTeamId
      obtain ⟨x, hx⟩ := @upsertBy_written TeamRow (teamKey sid (toString ro.rosterId))
        (fun i => newTeamRow i sid db.nextOwnerId
          (strOr ((userLookup users uid).bind (fun x => x.displayName))
            (strOr ((userLookup users uid).bind (fun x => x.username))
              ("Team " ++ toString ro.rosterId)))
          (toString ro.rosterId))
        (updSleeperTeamRow db.nextOwnerId ro.settings) db.teams db.nextTeamId
      exact ⟨_, hset.1, by rw [hx]; rfl⟩
  · intro sid td db m hm hk
    unfold processYahooStanding
    rw [hm]
    dsimp only
    rw [if_neg (by simp [hk])]
    dsimp only
    cases hfind : db.owners.find? (yahooOwnerKey (yahooUid (some m))) with
    | some o =>
      dsimp only
      have hset := @upsertBy_settles TeamRow (teamKey sid td.teamKey)
        (fun i => newTeamRow i sid o.id td.name td.teamKey)
        (updYahooTeamRow o.id td)
        (teamKey_updYahooT sid td.teamKey o.id td)
        (updYahooTeamRow_idem o.id td)
        (fun i => teamKey_newYahooT sid td.teamKey o.id o.id i td.name td)
        db.teams db.nextTeamId
      obtain ⟨x, hx⟩ := @upsertBy_written TeamRow (teamKey sid td.teamKey)
        (fun i => newTeamRow i sid o.id td.name td.teamKey)
        (updYahooTeamRow o.id td) db.teams db.nextTeamId
      exact ⟨_, hset.1, by rw [hx, updYahooTeamRow_ownerId]⟩
    | none =>
      dsimp only
      have hset := @upsertBy_settles TeamRow (teamKey sid td.teamKey)
        (fun i => newTeamRow i sid db.nextOwnerId td.name td.teamKey)
        (updYahooTeamRow db.nextOwnerId td)
        (teamKey_updYahooT sid td.teamKey db.nextOwnerId td)
        (updYahooTeamRow_idem db.nextOwnerId td)
        (fun i => teamKey_newYahooT sid td.teamKey db.nextOwnerId db.nextOwnerId i
          td.name td)
        db.teams db.nextTeamId
      obtain ⟨x, hx⟩ := @upsertBy_written TeamRow (teamKey sid td.teamKey)
        (fun i => newTeamRow i sid db.nextOwnerId td.name td.teamKey)
        (updYahooTeamRow db.nextOwnerId td) db.teams db.nextTeamId
      exact ⟨_, hset.1, by rw [hx, updYahooTeamRow_ownerId]⟩

/-- A Sleeper API whose one roster is owned by user `U1`. -/
def sRem9a : SleeperRemote :=
  { sRem0 with
    users := fun _ =>
      [{ userId := some "U1", username := some "alice",
         displayName := some "Alice", avatar := none }],
    rosters := fun _ =>
      [{ rosterId := 1, ownerId := some "U1",
         settings := { wins := some 1, losses := some 0, ties := some 0,
                       fpts := some 100, fptsDecimal := some 0,
                       fptsAgainst := some 90, fptsAgainstDecimal := some 0 } }] }

/-- A later snapshot of the same user directory, for roster 1 changing hands. -/
def uBob9 : SleeperUser :=
  { userId := some "U2", username := some "bob", displayName := some "Bob",
    avatar := none }

/-- The same roster 1, now reported as owned by user `U2`. -/
def roU2 : SleeperRoster :=
  { rosterId := 1, ownerId := some "U2",
    settings := { wins := some 1, losses := some 0, ties := some 0,
                  fpts := some 100, fptsDecimal := some 0,
                  fptsAgainst := some 90, fptsAgainstDecimal := some 0 } }

/-- The same Sleeper API after roster 1 changed hands to `U2`. -/
def sRem9b : SleeperRemote :=
  { sRem0 with users := fun _ => [uBob9], rosters := fun _ => [roU2] }

/-- The store after importing the first snapshot: team 1 belongs to owner 1. -/
def db9 : DB := (importUsersAndRosters sRem9a "L" none emptyDB).1

/-- Counterexample to C9 as stated: re-importing rosters after roster 1
changed hands on the platform rewrites the pre-existing team's `owner_id`
from 1 to the newly created owner 2 — an import operation, not owner-merge,
reassigned it. -/
theorem team_owner_overwritten_counterexample :
    db9.teams.map (fun t => (t.id, t.ownerId)) = [(1, 1)] ∧
    (importUsersAndRosters sRem9b "L" none db9).1.teams.map
      (fun t => (t.id, t.ownerId)) = [(1, 2)] :=
  ⟨rfl, rfl⟩

/-- Witness for C9's amended statement: processing the re-owned roster over
the store `db9` re-points team 1 at the freshly resolved owner 2. -/
theorem team_owner_overwritten_on_import_witness :
    (processRoster [uBob9] 1 roU2 db9).1.teams.map (fun t => (t.id, t.ownerId)) =
      [(1, 2)] := by
  have h := team_owner_overwritten_on_import.1 [uBob9] 1 roU2 db9 "U2" rfl (by decide)
  exact rfl

/-! ## Shared row-level facts about the two matchup importers -/

theorem matchupKey_updSleeperM (sid w h a : Nat) (s1 s2 : ℚ) (wn : Option Nat)
    (t ip : Bool) (x : MatchupRow) (hx : matchupKey sid w h a x = true) :
    matchupKey sid w h a (updSleeperMatchupRow s1 s2 wn t ip x) = true := by
  simpa [matchupKey, updSleeperMatchupRow] using hx

theorem updSleeperMatchupRow_idem (s1 s2 : ℚ) (wn : Option Nat) (t ip : Bool)
    (x : MatchupRow) :
    updSleeperMatchupRow s1 s2 wn t ip (updSleeperMatchupRow s1 s2 wn t ip x) =
      updSleeperMatchupRow s1 s2 wn t ip x := rfl

theorem matchupKey_newSleeperM (sid w h a i : Nat) (s1 s2 : ℚ) (wn : Option Nat)
    (t ip : Bool) :
    matchupKey sid w h a
      (updSleeperMatchupRow s1 s2 wn t ip (newMatchupRow i sid w h a)) = true := by
  simp [matchupKey, updSleeperMatchupRow, newMatchupRow]

/-- The row stored by the Sleeper matchup importer for a two-entry group with
known teams: its scores are the (defaulted) payload points and its winner/tie
pair is exactly `sleeperWinnerTie` of those scores. -/
theorem processSleeperGroup_row (tlook : String → Option TeamRef) (sid pws w : Nat)
    (p1 p2 : SleeperMatchupEntry) (t1 t2 : TeamRef) (db : DB)
    (h1 : tlook (toString p1.rosterId) = some t1)
    (h2 : tlook (toString p2.rosterId) = some t2) :
    ∃ row,
      (processSleeperGroup tlook sid pws w [p1, p2] db).1.matchups.find?
          (matchupKey sid w t1.id t2.id) = some row ∧
      row.homeScore = p1.points.getD 0 ∧ row.awayScore = p2.points.getD 0 ∧
      (row.winnerTeamId, row.isTie) =
        sleeperWinnerTie t1.id t2.id (p1.points.getD 0) (p2.points.getD 0) := by
  unfold processSleeperGroup
  dsimp only
  rw [h1, h2]
  dsimp only
  have hset := @upsertBy_settles MatchupRow (matchupKey sid w t1.id t2.id)
    (fun i => newMatchupRow i sid w t1.id t2.id)
    (updSleeperMatchupRow (p1.points.getD 0) (p2.points.getD 0)
      (sleeperWinnerTie t1.id t2.id (p1.points.getD 0) (p2.points.getD 0)).1
      (sleeperWinnerTie t1.id t2.id (p1.points.getD 0) (p2.points.getD 0)).2
      (decide (pws ≤ w)))
    (matchupKey_updSleeperM sid w t1.id t2.id (p1.points.getD 0) (p2.points.getD 0) _ _ _)
    (updSleeperMatchupRow_idem (p1.points.getD 0) (p2.points.getD 0) _ _ _)
    (fun i => matchupKey_newSleeperM sid w t1.id t2.id i (p1.points.getD 0)
      (p2.points.getD 0) _ _ _)
    db.matchups db.nextMatchupId
  obtain ⟨x, hx⟩ := @upsertBy_written MatchupRow (matchupKey sid w t1.id t2.id)
    (fun i => newMatchupRow i sid w t1.id t2.id)
    (updSleeperMatchupRow (p1.points.getD 0) (p2.points.getD 0)
      (sleeperWinnerTie t1.id t2.id (p1.points.getD 0) (p2.points.getD 0)).1
      (sleeperWinnerTie t1.id t2.id (p1.points.getD 0) (p2.points.getD 0)).2
      (decide (pws ≤ w)))
    db.matchups db.nextMatchupId
  refine ⟨_, hset.1, ?_, ?_, ?_⟩
  · rw [hx]; rfl
  · rw [hx]; rfl
  · rw [hx]; rfl

/-- The row stored by the Yahoo matchup importer for a two-sided payload with
known teams: its scores are the payload points and its winner/tie pair is
exactly `yahooWinnerTie` of the payload flags and scores. -/
theorem processYahooMatchup_row (tlook : String → Option TeamRef) (sid w : Nat)
    (m : YahooMatchup) (a b : YahooMatchupTeam) (t1 t2 : TeamRef) (db : DB)
    (hm : m.teams = [a, b])
    (h1 : tlook a.teamKey = some t1) (h2 : tlook b.teamKey = some t2) :
    ∃ row,
      (processYahooMatchup tlook sid w m db).1.matchups.find?
          (matchupKey sid w t1.id t2.id) = some row ∧
      row.homeScore = a.points ∧ row.awayScore = b.points ∧
      (row.winnerTeamId, row.isTie) =
        yahooWinnerTie (fun k => (tlook k).map (fun t => t.id)) m.isTied m.winnerTeamKey
          t1.id t2.id a.points b.points := by
  rcases m with ⟨wk, ip, ic, tied, wkey, teams⟩
  cases hm
  unfold processYahooMatchup
  dsimp only
  rw [h1, h2]
  dsimp only
  have hset := @upsertBy_settles MatchupRow (matchupKey sid w t1.id t2.id)
    (fun i => newMatchupRow i sid w t1.id t2.id)
    (updYahooMatchupRow a.points b.points
      (yahooWinnerTie (fun k => (tlook k).map (fun t => t.id)) tied wkey t1.id t2.id
        a.points b.points).1
      (yahooWinnerTie (fun k => (tlook k).map (fun t => t.id)) tied wkey t1.id t2.id
        a.points b.points).2 ip ic)
    (matchupKey_updYahoo sid w t1.id t2.id a.points b.points _ _ ip ic)
    (updYahooMatchupRow_idem a.points b.points _ _ ip ic)
    (fun i => matchupKey_newYahoo sid w t1.id t2.id i a.points b.points _ _ ip ic)
    db.matchups db.nextMatchupId
  obtain ⟨x, hx⟩ := @upsertBy_written MatchupRow (matchupKey sid w t1.id t2.id)
    (fun i => newMatchupRow i sid w t1.id t2.id)
    (updYahooMatchupRow a.points b.points
      (yahooWinnerTie (fun k => (tlook k).map (fun t => t.id)) tied wkey t1.id t2.id
        a.points b.points).1
      (yahooWinnerTie (fun k => (tlook k).map (fun t => t.id)) tied wkey t1.id t2.id
        a.points b.points).2 ip ic)
    db.matchups db.nextMatchupId
  refine ⟨_, hset.1, ?_, ?_, ?_⟩
  · rw [hx]; rfl
  · rw [hx]; rfl
  · rw [hx]; rfl

/-- `sleeperWinnerTie` stores no winner exactly on ties. -/
theorem sleeperWinnerTie_null_iff (t1 t2 : Nat) (s1 s2 : ℚ) :
    ((sleeperWinnerTie t1 t2 s1 s2).1 = none ↔ (sleeperWinnerTie t1 t2 s1 s2).2 = true) := by
  unfold sleeperWinnerTie
  repeat' split <;> simp

/-- `yahooWinnerTie` stores no winner exactly on ties — provided every truthy
winner key it is handed resolves to a team id. -/
theorem yahooWinnerTie_null_iff (tlookN : String → Option Nat) (tied : Bool)
    (wkey : Option String) (t1 t2 : Nat) (s1 s2 : ℚ)
    (hres : ∀ k, wkey = some k → (k == "") = false → (tlookN k).isSome = true) :
    ((yahooWinnerTie tlookN tied wkey t1 t2 s1 s2).1 = none ↔
      (yahooWinnerTie tlookN tied wkey t1 t2 s1 s2).2 = true) := by
  unfold yahooWinnerTie
  cases tied with
  | true => simp
  | false =>
    cases hwk : wkey with
    | none =>
      dsimp only
      unfold yahooScoreWinner
      repeat' split
      all_goals simp
    | some k =>
      dsimp only
      by_cases hke : (k == "") = true
      · rw [if_pos hke]
        unfold yahooScoreWinner
        repeat' split
        all_goals simp
      · rw [if_neg hke]
        have hs := hres k hwk (by simpa using hke)
        rcases Option.isSome_iff_exists.mp hs with ⟨i, hi⟩
        simp [hi]

/-! ## C3: score comparison and the stored winner -/

/-- C3 (corrected): the Sleeper importer determines the stored winner purely
from the scores — equal scores store a tie with no winner, otherwise the
strictly higher-scoring team wins — and the Yahoo importer applies the same
score rule only when the payload's `is_tied` flag is unset and its
`winner_team_key` is absent or empty; a set flag or truthy key overrides the
scores. -/
theorem matchup_score_winner :
    (∀ (t1 t2 : Nat) (s1 s2 : ℚ),
      (s1 = s2 → sleeperWinnerTie t1 t2 s1 s2 = (none, true)) ∧
      (s1 > s2 → sleeperWinnerTie t1 t2 s1 s2 = (some t1, false)) ∧
      (s2 > s1 → sleeperWinnerTie t1 t2 s1 s2 = (some t2, false)) ∧
      yahooScoreWinner t1 t2 s1 s2 = sleeperWinnerTie t1 t2 s1 s2) ∧
    (∀ (tlook : String → Option TeamRef) (sid pws w : Nat)
        (p1 p2 : SleeperMatchupEntry) (t1 t2 : TeamRef) (db : DB),
      tlook (toString p1.rosterId) = some t1 →
      tlook (toString p2.rosterId) = some t2 →
      ∃ row,
        (processSleeperGroup tlook sid pws w [p1, p2] db).1.matchups.find?
            (matchupKey sid w t1.id t2.id) = some row ∧
        (row.winnerTeamId, row.isTie) =
          sleeperWinnerTie t1.id t2.id (p1.points.getD 0) (p2.points.getD 0)) ∧
    (∀ (tlook : String → Option TeamRef) (sid w : Nat) (m : YahooMatchup)
        (a b : YahooMatchupTeam) (t1 t2 : TeamRef) (db : DB),
      m.teams = [a, b] → tlook a.teamKey = some t1 → tlook b.teamKey = some t2 →
      m.isTied = false → (m.winnerTeamKey = none ∨ m.winnerTeamKey = some "") →
      ∃ row,
        (processYahooMatchup tlook sid w m db).1.matchups.find?
            (matchupKey sid w t1.id t2.id) = some row ∧
        (row.winnerTeamId, row.isTie) =
          yahooScoreWinner t1.id t2.id a.points b.points) := by
  refine ⟨?_, ?_, ?_⟩
  · intro t1 t2 s1 s2
    refine ⟨?_, ?_, ?_, rfl⟩
    · intro h
      subst h
      simp [sleeperWinnerTie]
    · intro h
      simp [sleeperWinnerTie, h]
    · intro h
      rw [sleeperWinnerTie, if_neg (by exact not_lt.mpr h.le), if_pos h]
  · intro tlook sid pws w p1 p2 t1 t2 db h1 h2
    obtain ⟨row, hfind, _, _, hpair⟩ :=
      processSleeperGroup_row tlook sid pws w p1 p2 t1 t2 db h1 h2
    exact ⟨row, hfind, hpair⟩
  · intro tlook sid w m a b t1 t2 db hm h1 h2 htied hkey
    obtain ⟨row, hfind, _, _, hpair⟩ :=
      processYahooMatchup_row tlook sid w m a b t1 t2 db hm h1 h2
    refine ⟨row, hfind, ?_⟩
    rw [hpair, htied]
    rcases hkey with hk | hk <;> rw [hk] <;> rfl

/-- Counterexample to C3 as stated: a Yahoo payload whose `winner_team_key`
names the lower-scoring team stores that team as winner (scores 100 vs 80,
winner team 2) — the higher-scoring team does not win. -/
theorem matchup_score_winner_counterexample :
    ((80 : ℚ) < 100) = True ∧
    (processYahooMatchup tlookC10 1 2
        ⟨2, false, false, false, some "t.2", [⟨"t.1", "A", 100⟩, ⟨"t.2", "B", 80⟩]⟩
        emptyDB).1.matchups.map
      (fun r => (r.homeScore, r.awayScore, r.winnerTeamId, r.isTie)) =
      [((100 : ℚ), (80 : ℚ), some 2, false)] := by
  refine ⟨by norm_num, by decide⟩

/-- A concrete roster-id lookup for the Sleeper matchup witnesses. -/
def tlookS3 : String → Option TeamRef := fun k =>
  if k == "1" then some ⟨10, "1", 1⟩
  else if k == "2" then some ⟨20, "2", 1⟩ else none

/-- Witness for C3's amended statement at concrete scores: the Sleeper
importer stores the higher scorer (100 vs 80) as winner, and the Yahoo
importer with no platform flags does the same score comparison (80 vs 100). -/
theorem matchup_score_winner_witness :
    sleeperWinnerTie 10 20 100 80 = (some 10, false) ∧
    (processSleeperGroup tlookS3 1 15 1 [⟨1, some 1, some 100⟩, ⟨2, some 1, some 80⟩]
        emptyDB).1.matchups.map (fun r => (r.winnerTeamId, r.isTie)) =
      [(some 10, false)] ∧
    (processYahooMatchup tlookC10 1 4
        ⟨4, false, false, false, none, [⟨"t.1", "A", 80⟩, ⟨"t.2", "B", 100⟩]⟩
        emptyDB).1.matchups.map (fun r => (r.winnerTeamId, r.isTie)) =
      [(some 2, false)] := by
  have h1 := (matchup_score_winner.1 10 20 100 80).2.1 (by norm_num)
  have h2 := matchup_score_winner.2.1 tlookS3 1 15 1 ⟨1, some 1, some 100⟩
    ⟨2, some 1, some 80⟩ ⟨10, "1", 1⟩ ⟨20, "2", 1⟩ emptyDB (by decide) (by decide)
  have h3 := matchup_score_winner.2.2 tlookC10 1 4
    ⟨4, false, false, false, none, [⟨"t.1", "A", 80⟩, ⟨"t.2", "B", 100⟩]⟩
    ⟨"t.1", "A", 80⟩ ⟨"t.2", "B", 100⟩ ⟨1, "t.1", 1⟩ ⟨2, "t.2", 1⟩ emptyDB
    rfl (by decide) (by decide) rfl (Or.inl rfl)
  exact ⟨h1, by decide, by decide⟩

/-! ## C7: winner null iff tie -/

/-- C7 (corrected): the Sleeper importer's stored rows satisfy
`winner_team_id = None ↔ is_tie` unconditionally, and a set Yahoo tie flag
always stores no winner with the tie bit on; but the Yahoo importer
guarantees the equivalence only when every truthy `winner_team_key` resolves
to a known team — an unresolvable key stores no winner while `is_tie` stays
false. -/
theorem winner_null_iff_tie :
    (∀ (tlook : String → Option TeamRef) (sid pws w : Nat)
        (p1 p2 : SleeperMatchupEntry) (t1 t2 : TeamRef) (db : DB),
      tlook (toString p1.rosterId) = some t1 →
      tlook (toString p2.rosterId) = some t2 →
      ∃ row,
        (processSleeperGroup tlook sid pws w [p1, p2] db).1.matchups.find?
            (matchupKey sid w t1.id t2.id) = some row ∧
        (row.winnerTeamId = none ↔ row.isTie = true)) ∧
    (∀ (tlookN : String → Option Nat) (wkey : Option String) (t1 t2 : Nat) (s1 s2 : ℚ),
      yahooWinnerTie tlookN true wkey t1 t2 s1 s2 = (none, true)) ∧
    (∀ (tlook : String → Option TeamRef) (sid w : Nat) (m : YahooMatchup)
        (a b : YahooMatchupTeam) (t1 t2 : TeamRef) (db : DB),
      m.teams = [a, b] → tlook a.teamKey = some t1 → tlook b.teamKey = some t2 →
      (∀ k, m.winnerTeamKey = some k → (k == "") = false →
        (tlook k).isSome = true) →
      ∃ row,
        (processYahooMatchup tlook sid w m db).1.matchups.find?
            (matchupKey sid w t1.id t2.id) = some row ∧
        (row.winnerTeamId = none ↔ row.isTie = true)) := by
  refine ⟨?_, ?_, ?_⟩
  · intro tlook sid pws w p1 p2 t1 t2 db h1 h2
    obtain ⟨row, hfind, _, _, hpair⟩ :=
      processSleeperGroup_row tlook sid pws w p1 p2 t1 t2 db h1 h2
    have hw := congrArg Prod.fst hpair
    have ht := congrArg Prod.snd hpair
    refine ⟨row, hfind, ?_⟩
    rw [show row.winnerTeamId = _ from hw, show row.isTie = _ from ht]
    exact sleeperWinnerTie_null_iff t1.id t2.id (p1.points.getD 0) (p2.points.getD 0)
  · intro tlookN wkey t1 t2 s1 s2
    simp [yahooWinnerTie]
  · intro tlook sid w m a b t1 t2 db hm h1 h2 hres
    obtain ⟨row, hfind, _, _, hpair⟩ :=
      processYahooMatchup_row tlook sid w m a b t1 t2 db hm h1 h2
    have hw := congrArg Prod.fst hpair
    have ht := congrArg Prod.snd hpair
    refine ⟨row, hfind, ?_⟩
    rw [show row.winnerTeamId = _ from hw, show row.isTie = _ from ht]
    refine yahooWinnerTie_null_iff (fun k => (tlook k).map (fun t => t.id)) m.isTied
      m.winnerTeamKey t1.id t2.id a.points b.points ?_
    intro k hk hke
    have := hres k hk hke
    rcases Option.isSome_iff_exists.mp this with ⟨tr, htr⟩
    simp [htr]

/-- Counterexample to C7 as stated: a Yahoo payload whose truthy
`winner_team_key` names no known team stores `winner_team_id = None` with
`is_tie = false` — a null winner on a row that is not a tie. -/
theorem winner_null_iff_tie_counterexample :
    (processYahooMatchup tlookC10 1 3
        ⟨3, false, false, false, some "ghost", [⟨"t.1", "A", 100⟩, ⟨"t.2", "B", 80⟩]⟩
        emptyDB).1.matchups.map (fun r => (r.winnerTeamId, r.isTie)) =
      [((none : Option Nat), false)] := by
  decide

/-- Witness for C7's amended statement: a drawn Sleeper game (70 vs 70)
stores no winner with the tie bit on, and a Yahoo payload whose winner key
resolves stores a winner with the tie bit off. -/
theorem winner_null_iff_tie_witness :
    (processSleeperGroup tlookS3 1 15 2 [⟨1, some 1, some 70⟩, ⟨2, some 1, some 70⟩]
        emptyDB).1.matchups.map (fun r => (r.winnerTeamId, r.isTie)) =
      [((none : Option Nat), true)] ∧
    (processYahooMatchup tlookC10 1 5
        ⟨5, false, false, false, some "t.1", [⟨"t.1", "A", 80⟩, ⟨"t.2", "B", 100⟩]⟩
        emptyDB).1.matchups.map (fun r => (r.winnerTeamId, r.isTie)) =
      [(some 1, false)] := by
  have h1 := winner_null_iff_tie.1 tlookS3 1 15 2 ⟨1, some 1, some 70⟩
    ⟨2, some 1, some 70⟩ ⟨10, "1", 1⟩ ⟨20, "2", 1⟩ emptyDB (by decide) (by decide)
  have h2 := winner_null_iff_tie.2.2 tlookC10 1 5
    ⟨5, false, false, false, some "t.1", [⟨"t.1", "A", 80⟩, ⟨"t.2", "B", 100⟩]⟩
    ⟨"t.1", "A", 80⟩ ⟨"t.2", "B", 100⟩ ⟨1, "t.1", 1⟩ ⟨2, "t.2", 1⟩ emptyDB
    rfl (by decide) (by decide) (by decide)
  exact ⟨by decide, by decide⟩

/-! ## C2: the chain walker and the full-league import -/

/-- The year `import_season` resolves for a league id: the payload's season,
defaulting to the current year. -/
def seasonYearOf (rem : SleeperRemote) (lid : String) : Nat :=
  (rem.league lid).season.getD rem.nowYear

/-- The `(league_id, year)` key pairs of a seasons table. -/
def seasonPairs (l : List SeasonRow) : List (Nat × Nat) :=
  l.map (fun s => (s.leagueId, s.year))

theorem find?_seasonKey_none {l : List SeasonRow} {L y : Nat}
    (h : ∀ pr ∈ seasonPairs l, ¬(pr.1 = L ∧ pr.2 = y)) :
    l.find? (seasonKey L y) = none := by
  rw [List.find?_eq_none]
  intro s hs
  have h' := h (s.leagueId, s.year) (List.mem_map_of_mem _ hs)
  simp only [seasonKey, Bool.and_eq_true, beq_iff_eq, not_and] at h' ⊢
  exact h'

theorem importSeason_some_leagues (rem : SleeperRemote) (lid : String) (L : Nat)
    (db : DB) : (importSeason rem lid (some L) db).1.leagues = db.leagues := rfl

theorem importSeason_some_pairs (rem : SleeperRemote) (lid : String) (L : Nat)
    (db : DB) :
    seasonPairs (importSeason rem lid (some L) db).1.seasons =
      if (db.seasons.find? (seasonKey L (seasonYearOf rem lid))).isSome
      then seasonPairs db.seasons
      else seasonPairs db.seasons ++ [(L, seasonYearOf rem lid)] := by
  exact @map_upsertBy SeasonRow (Nat × Nat) (seasonKey L (seasonYearOf rem lid))
    (fun i => newSeasonRow i L (seasonYearOf rem lid)) (updSeasonRow (rem.league lid))
    (fun s => (s.leagueId, s.year)) (fun x _ => rfl) db.seasons db.nextSeasonId

theorem importSeason_some_settled (rem : SleeperRemote) (lid : String) (L : Nat)
    (db : DB) :
    ∃ a, SettledAt (seasonKey L (seasonYearOf rem lid)) (updSeasonRow (rem.league lid))
      (importSeason rem lid (some L) db).1.seasons a := by
  refine ⟨(upsertBy (seasonKey L (seasonYearOf rem lid))
      (fun i => newSeasonRow i L (seasonYearOf rem lid))
      (updSeasonRow (rem.league lid)) db.seasons db.nextSeasonId).2.1, ?_⟩
  exact @upsertBy_settles SeasonRow (seasonKey L (seasonYearOf rem lid))
    (fun i => newSeasonRow i L (seasonYearOf rem lid)) (updSeasonRow (rem.league lid))
    (fun _ h => h) (fun _ => rfl)
    (fun n => by simp [seasonKey, updSeasonRow, newSeasonRow]) db.seasons db.nextSeasonId

theorem importSeason_of_settled (rem : SleeperRemote) (lid : String) (L : Nat)
    (db : DB) (a : SeasonRow)
    (h : SettledAt (seasonKey L (seasonYearOf rem lid)) (updSeasonRow (rem.league lid))
      db.seasons a) :
    importSeason rem lid (some L) db = (db, a.id, seasonYearOf rem lid) := by
  unfold importSeason
  dsimp only
  unfold seasonYearOf at h
  rw [upsertBy_of_settled h]
  rfl

theorem processRosters_seasons (users : List SleeperUser) (sid : Nat)
    (rs : List SleeperRoster) (db : DB) :
    (processRosters users sid rs db).1.seasons = db.seasons := by
  obtain ⟨a, b, c, d, h⟩ := processRosters_frame users sid rs db
  rw [h]

theorem processRosters_leagues (users : List SleeperUser) (sid : Nat)
    (rs : List SleeperRoster) (db : DB) :
    (processRosters users sid rs db).1.leagues = db.leagues := by
  obtain ⟨a, b, c, d, h⟩ := processRosters_frame users sid rs db
  rw [h]

theorem importUsersAndRosters_some_seasons (rem : SleeperRemote) (lid : String)
    (L : Nat) (db : DB) :
    (importUsersAndRosters rem lid (some L) db).1.seasons =
      (importSeason rem lid (some L) db).1.seasons := by
  show (processRosters (rem.users lid) (importSeason rem lid (some L) db).2.1
      (rem.rosters lid) (importSeason rem lid (some L) db).1).1.seasons = _
  rw [processRosters_seasons]

theorem importUsersAndRosters_some_leagues (rem : SleeperRemote) (lid : String)
    (L : Nat) (db : DB) :
    (importUsersAndRosters rem lid (some L) db).1.leagues = db.leagues := by
  show (processRosters (rem.users lid) (importSeason rem lid (some L) db).2.1
      (rem.rosters lid) (importSeason rem lid (some L) db).1).1.leagues = _
  rw [processRosters_leagues, importSeason_some_leagues]

theorem processSleeperGroups_seasons (tlook : String → Option TeamRef) (sid pws : Nat)
    (gs : List (Nat × List SleeperMatchupEntry)) (db : DB) :
    (processSleeperGroups tlook sid pws gs db).1.seasons = db.seasons := by
  obtain ⟨a, b, h⟩ := processSleeperGroups_frame tlook sid pws gs db
  rw [h]

theorem processSleeperGroups_leagues (tlook : String → Option TeamRef) (sid pws : Nat)
    (gs : List (Nat × List SleeperMatchupEntry)) (db : DB) :
    (processSleeperGroups tlook sid pws gs db).1.leagues = db.leagues := by
  obtain ⟨a, b, h⟩ := processSleeperGroups_frame tlook sid pws gs db
  rw [h]

theorem processSleeperTrades_seasons (resolve : String → String)
    (tlook : String → Option TeamRef) (sid : Nat) (tts : List TaggedTrade) (db : DB) :
    (processSleeperTrades resolve tlook sid tts db).1.seasons = db.seasons := by
  obtain ⟨a, b, h⟩ := processSleeperTrades_frame resolve tlook sid tts db
  rw [h]

theorem processSleeperTrades_leagues (resolve : String → String)
    (tlook : String → Option TeamRef) (sid : Nat) (tts : List TaggedTrade) (db : DB) :
    (processSleeperTrades resolve tlook sid tts db).1.leagues = db.leagues := by
  obtain ⟨a, b, h⟩ := processSleeperTrades_frame resolve tlook sid tts db
  rw [h]

theorem importUsersAndRosters_of_settled (rem : SleeperRemote) (lid : String)
    (L : Nat) (db : DB) (a : SeasonRow)
    (h : SettledAt (seasonKey L (seasonYearOf rem lid)) (updSeasonRow (rem.league lid))
      db.seasons a) :
    (importUsersAndRosters rem lid (some L) db).1.seasons = db.seasons ∧
    (importUsersAndRosters rem lid (some L) db).1.leagues = db.leagues := by
  refine ⟨?_, importUsersAndRosters_some_leagues rem lid L db⟩
  rw [importUsersAndRosters_some_seasons, importSeason_of_settled rem lid L db a h]

theorem importMatchups_of_settled (rem : SleeperRemote) (lid : String) (tw L : Nat)
    (db : DB) (a : SeasonRow)
    (h : SettledAt (seasonKey L (seasonYearOf rem lid)) (updSeasonRow (rem.league lid))
      db.seasons a) :
    (importMatchups rem lid tw (some L) db).1.seasons = db.seasons ∧
    (importMatchups rem lid tw (some L) db).1.leagues = db.leagues := by
  have hr := importUsersAndRosters_of_settled rem lid L db a h
  have h' : SettledAt (seasonKey L (seasonYearOf rem lid)) (updSeasonRow (rem.league lid))
      (importUsersAndRosters rem lid (some L) db).1.seasons a := by
    rw [hr.1]; exact h
  unfold importMatchups
  dsimp only
  constructor
  · rw [processSleeperGroups_seasons]
    split
    · exact hr.1
    · rw [importSeason_of_settled rem lid L _ a h']
      exact hr.1
  · rw [processSleeperGroups_leagues]
    split
    · exact hr.2
    · rw [importSeason_of_settled rem lid L _ a h']
      exact hr.2

theorem importTrades_of_settled (rem : SleeperRemote) (lid : String) (tw L : Nat)
    (db : DB) (a : SeasonRow)
    (h : SettledAt (seasonKey L (seasonYearOf rem lid)) (updSeasonRow (rem.league lid))
      db.seasons a) :
    (importTrades rem lid tw (some L) db).1.seasons = db.seasons ∧
    (importTrades rem lid tw (some L) db).1.leagues = db.leagues := by
  have hr := importUsersAndRosters_of_settled rem lid L db a h
  have h' : SettledAt (seasonKey L (seasonYearOf rem lid)) (updSeasonRow (rem.league lid))
      (importUsersAndRosters rem lid (some L) db).1.seasons a := by
    rw [hr.1]; exact h
  unfold importTrades
  dsimp only
  constructor
  · rw [processSleeperTrades_seasons]
    split
    · exact hr.1
    · rw [importSeason_of_settled rem lid L _ a h']
      exact hr.1
  · rw [processSleeperTrades_leagues]
    split
    · exact hr.2
    · rw [importSeason_of_settled rem lid L _ a h']
      exact hr.2

theorem updChampion_pair (c ru : Option Nat) (s : SeasonRow) :
    ((updChampion c ru s).leagueId, (updChampion c ru s).year) = (s.leagueId, s.year) := by
  unfold updChampion
  rcases c with _ | v <;> rcases ru with _ | w <;> rfl

theorem detectAndSetChampion_pairs (rem : SleeperRemote) (lid : String) (sid : Nat)
    (refs : List TeamRef) (db : DB) :
    seasonPairs (detectAndSetChampion rem lid sid refs db).1.seasons =
      seasonPairs db.seasons := by
  unfold detectAndSetChampion
  dsimp only
  split
  · rfl
  · exact @map_updFirst SeasonRow (Nat × Nat) (fun s => s.id == sid) _
      (fun s => (s.leagueId, s.year)) (fun x _ => updChampion_pair _ _ x) db.seasons

theorem detectAndSetChampion_leagues (rem : SleeperRemote) (lid : String) (sid : Nat)
    (refs : List TeamRef) (db : DB) :
    (detectAndSetChampion rem lid sid refs db).1.leagues = db.leagues := by
  obtain ⟨ss, h⟩ := detectAndSetChampion_frame rem lid sid refs db
  rw [h]

theorem importSingleSeason_some_pairs (rem : SleeperRemote) (lid : String)
    (tw L : Nat) (db : DB) :
    seasonPairs (importSingleSeason rem lid tw (some L) db).1.seasons =
      (if (db.seasons.find? (seasonKey L (seasonYearOf rem lid))).isSome
       then seasonPairs db.seasons
       else seasonPairs db.seasons ++ [(L, seasonYearOf rem lid)]) ∧
    (importSingleSeason rem lid tw (some L) db).1.leagues = db.leagues := by
  obtain ⟨a, ha⟩ := importSeason_some_settled rem lid L db
  have hu := importUsersAndRosters_of_settled rem lid L
    (importSeason rem lid (some L) db).1 a ha
  have ha2 : SettledAt (seasonKey L (seasonYearOf rem lid)) (updSeasonRow (rem.league lid))
      (importUsersAndRosters rem lid (some L) (importSeason rem lid (some L) db).1).1.seasons
      a := by
    rw [hu.1]; exact ha
  have hm := importMatchups_of_settled rem lid tw L
    (importUsersAndRosters rem lid (some L) (importSeason rem lid (some L) db).1).1 a ha2
  have ha3 : SettledAt (seasonKey L (seasonYearOf rem lid)) (updSeasonRow (rem.league lid))
      (importMatchups rem lid tw (some L)
        (importUsersAndRosters rem lid (some L)
          (importSeason rem lid (some L) db).1).1).1.seasons a := by
    rw [hm.1]; exact ha2
  have ht := importTrades_of_settled rem lid tw L
    (importMatchups rem lid tw (some L)
      (importUsersAndRosters rem lid (some L)
        (importSeason rem lid (some L) db).1).1).1 a ha3
  unfold importSingleSeason
  dsimp only
  constructor
  · rw [detectAndSetChampion_pairs, ht.1, hm.1, hu.1, importSeason_some_pairs]
  · rw [detectAndSetChampion_leagues, ht.2, hm.2, hu.2, importSeason_some_leagues]

theorem importSeasonsChain_leagues (rem : SleeperRemote) (tw L : Nat) :
    ∀ (ids : List String) (db : DB),
      (importSeasonsChain rem tw L ids db).1.leagues = db.leagues
  | [], _ => rfl
  | i :: rest, db => by
    show (importSeasonsChain rem tw L rest
      (importSingleSeason rem i tw (some L) db).1).1.leagues = _
    rw [importSeasonsChain_leagues rem tw L rest,
      (importSingleSeason_some_pairs rem i tw L db).2]

theorem importSeasonsChain_totals (rem : SleeperRemote) (tw L : Nat) :
    ∀ (ids : List String) (db : DB),
      (importSeasonsChain rem tw L ids db).2.1.length = ids.length ∧
      (importSeasonsChain rem tw L ids db).2.2.1 =
        ((importSeasonsChain rem tw L ids db).2.1.map (fun s => s.teamsImported)).sum ∧
      (importSeasonsChain rem tw L ids db).2.2.2.1 =
        ((importSeasonsChain rem tw L ids db).2.1.map (fun s => s.matchupsImported)).sum ∧
      (importSeasonsChain rem tw L ids db).2.2.2.2 =
        ((importSeasonsChain rem tw L ids db).2.1.map (fun s => s.tradesImported)).sum
  | [], db => by simp [importSeasonsChain]
  | i :: rest, db => by
    have ih := importSeasonsChain_totals rem tw L rest
      (importSingleSeason rem i tw (some L) db).1
    refine ⟨?_, ?_, ?_, ?_⟩ <;>
      simp only [importSeasonsChain, List.length_cons, List.map_cons, List.sum_cons]
    · rw [ih.1]
    · rw [ih.2.1]
    · rw [ih.2.2.1]
    · rw [ih.2.2.2]

theorem importSeasonsChain_pairs (rem : SleeperRemote) (tw L : Nat) :
    ∀ (ids : List String) (db : DB),
      (∀ pr ∈ seasonPairs db.seasons, pr.1 = L →
        ¬ pr.2 ∈ ids.map (fun i => seasonYearOf rem i)) →
      (ids.map (fun i => seasonYearOf rem i)).Nodup →
      seasonPairs (importSeasonsChain rem tw L ids db).1.seasons =
        seasonPairs db.seasons ++ ids.map (fun i => (L, seasonYearOf rem i))
  | [], db, _, _ => by simp [importSeasonsChain]
  | i :: rest, db, havoid, hnd => by
    have hnone : db.seasons.find? (seasonKey L (seasonYearOf rem i)) = none := by
      apply find?_seasonKey_none
      intro pr hpr hc
      exact havoid pr hpr hc.1 (hc.2 ▸ List.mem_cons_self _ _)
    have hpairs1 : seasonPairs (importSingleSeason rem i tw (some L) db).1.seasons =
        seasonPairs db.seasons ++ [(L, seasonYearOf rem i)] := by
      rw [(importSingleSeason_some_pairs rem i tw L db).1, hnone]
      rfl
    have havoid' : ∀ pr ∈ seasonPairs (importSingleSeason rem i tw (some L) db).1.seasons,
        pr.1 = L → ¬ pr.2 ∈ rest.map (fun j => seasonYearOf rem j) := by
      intro pr hpr hL hmem
      rw [hpairs1] at hpr
      rcases List.mem_append.mp hpr with hold | hnew
      · exact havoid pr hold hL (List.mem_cons_of_mem _ hmem)
      · have : pr = (L, seasonYearOf rem i) := by simpa using hnew
        rw [this] at hmem
        exact (List.nodup_cons.mp hnd).1 hmem
    have ih := importSeasonsChain_pairs rem tw L rest
      (importSingleSeason rem i tw (some L) db).1 havoid' (List.nodup_cons.mp hnd).2
    show seasonPairs (importSeasonsChain rem tw L rest
      (importSingleSeason rem i tw (some L) db).1).1.seasons = _
    rw [ih, hpairs1, List.append_assoc]
    rfl

theorem importLeague_of_absent (rem : SleeperRemote) (lid : String) (db : DB)
    (h : db.leagues.find? (sleeperLeagueKey lid) = none) :
    importLeague rem lid db =
      ({ db with
          leagues := db.leagues ++
            [updLeagueRow (rem.league lid) (newLeagueRow db.nextLeagueId lid)],
          nextLeagueId := db.nextLeagueId + 1 },
       updLeagueRow (rem.league lid) (newLeagueRow db.nextLeagueId lid)) := by
  unfold importLeague
  dsimp only
  simp [upsertBy, h]

/-- C2 (confirmed): the chain walker follows `previous_league_id` newest
first, stopping on an absent or empty link; and for a league not yet stored
whose chain carries distinct season years, `import_full_league` creates
exactly one league row, attaches one season row per chain entry to that very
league (in chain order), and returns per-season results whose length is the
chain's and whose team/matchup/trade totals are exactly the sums of the
per-season counts. -/
theorem full_league_chain_import :
    (∀ (rem : SleeperRemote) (fuel : Nat) (cur : String),
      getLeagueHistoryChain rem (fuel + 1) (some cur) =
        if cur == "" then []
        else cur :: getLeagueHistoryChain rem fuel
          (getPreviousLeagueId (rem.league cur))) ∧
    (∀ (rem : SleeperRemote) (lid : String) (tw fuel : Nat) (db : DB),
      db.leagues.find? (sleeperLeagueKey lid) = none →
      (∀ pr ∈ seasonPairs db.seasons, pr.1 ≠ db.nextLeagueId) →
      ((getLeagueHistoryChain rem fuel (some lid)).map
        (fun i => seasonYearOf rem i)).Nodup →
      (importFullLeague rem lid tw fuel db).1.leagues.length = db.leagues.length + 1 ∧
      (importFullLeague rem lid tw fuel db).2.leagueId = db.nextLeagueId ∧
      seasonPairs (importFullLeague rem lid tw fuel db).1.seasons =
        seasonPairs db.seasons ++
          (getLeagueHistoryChain rem fuel (some lid)).map
            (fun i => (db.nextLeagueId, seasonYearOf rem i)) ∧
      (importFullLeague rem lid tw fuel db).2.seasons.length =
        (getLeagueHistoryChain rem fuel (some lid)).length ∧
      (importFullLeague rem lid tw fuel db).2.teamsImported =
        ((importFullLeague rem lid tw fuel db).2.seasons.map
          (fun s => s.teamsImported)).sum ∧
      (importFullLeague rem lid tw fuel db).2.matchupsImported =
        ((importFullLeague rem lid tw fuel db).2.seasons.map
          (fun s => s.matchupsImported)).sum ∧
      (importFullLeague rem lid tw fuel db).2.tradesImported =
        ((importFullLeague rem lid tw fuel db).2.seasons.map
          (fun s => s.tradesImported)).sum) := by
  constructor
  · intro rem fuel cur
    rfl
  · intro rem lid tw fuel db habs hfresh hnd
    unfold importFullLeague
    dsimp only
    rw [importLeague_of_absent rem lid db habs]
    dsimp only
    have htot := importSeasonsChain_totals rem tw db.nextLeagueId
      (getLeagueHistoryChain rem fuel (some lid))
      { db with
          leagues := db.leagues ++
            [updLeagueRow (rem.league lid) (newLeagueRow db.nextLeagueId lid)],
          nextLeagueId := db.nextLeagueId + 1 }
    refine ⟨?_, rfl, ?_, htot.1, htot.2.1, htot.2.2.1, htot.2.2.2⟩
    · rw [importSeasonsChain_leagues]
      simp
    · rw [show (updLeagueRow (rem.league lid) (newLeagueRow db.nextLeagueId lid)).id
          = db.nextLeagueId from rfl]
      rw [importSeasonsChain_pairs rem tw db.nextLeagueId
        (getLeagueHistoryChain rem fuel (some lid))
        { db with
            leagues := db.leagues ++
              [updLeagueRow (rem.league lid) (newLeagueRow db.nextLeagueId lid)],
            nextLeagueId := db.nextLeagueId + 1 }
        (fun pr hpr hL => absurd hL (hfresh pr hpr)) hnd]

/-- A two-season Sleeper history: league `B` (2023) points back at league
`A` (2022), which ends the chain. -/
def sRemC2 : SleeperRemote :=
  { sRem0 with
    league := fun lid =>
      if lid == "B" then
        { emptySleeperLeagueData with name := some "Dynasty", season := some 2023,
                                      previousLeagueId := some "A" }
      else if lid == "A" then { emptySleeperLeagueData with season := some 2022 }
      else emptySleeperLeagueData }

/-- Witness for C2 at the two-season history: the walker returns
`["B", "A"]`, and the full import of an empty store ends with one league row
and the two season rows `(1, 2023), (1, 2022)` attached to it. -/
theorem full_league_chain_import_witness :
    getLeagueHistoryChain sRemC2 5 (some "B") = ["B", "A"] ∧
    (importFullLeague sRemC2 "B" 1 5 emptyDB).1.leagues.length = 1 ∧
    seasonPairs (importFullLeague sRemC2 "B" 1 5 emptyDB).1.seasons =
      [(1, 2023), (1, 2022)] ∧
    (importFullLeague sRemC2 "B" 1 5 emptyDB).2.seasons.length = 2 ∧
    (importFullLeague sRemC2 "B" 1 5 emptyDB).2.teamsImported = 0 := by
  have h := full_league_chain_import.2 sRemC2 "B" 1 5 emptyDB rfl
    (by simp [seasonPairs, emptyDB]) (by decide)
  exact ⟨rfl, h.1, h.2.2.1, h.2.2.2.1, by decide⟩

/-! ## C1: idempotence of the single-season import -/

theorem pyOr_self (a : Option String) : pyOr a a = a := by
  unfold pyOr
  split <;> rfl

theorem updOwnerRow_idem (u : Option SleeperUser) (o : OwnerRow) :
    updOwnerRow u (updOwnerRow u o) = updOwnerRow u o := by
  unfold updOwnerRow
  dsimp only
  cases h : getAvatarUrl (u.bind (fun x => x.avatar)) <;> simp [h, pyOr_idem]

theorem updOwnerRow_id (u : Option SleeperUser) (o : OwnerRow) :
    (updOwnerRow u o).id = o.id := by
  unfold updOwnerRow
  dsimp only
  cases h : getAvatarUrl (u.bind (fun x => x.avatar)) <;> rfl

theorem updOwnerRow_sleeper (u : Option SleeperUser) (o : OwnerRow) :
    (updOwnerRow u o).sleeperUserId = o.sleeperUserId := by
  unfold updOwnerRow
  dsimp only
  cases h : getAvatarUrl (u.bind (fun x => x.avatar)) <;> rfl

theorem ownerKey_updOwnerRow (uid : String) (u : Option SleeperUser) (x : OwnerRow) :
    ownerKey uid (updOwnerRow u x) = ownerKey uid x := by
  unfold ownerKey
  rw [updOwnerRow_sleeper]

theorem newOwnerRow_fixed (u : Option SleeperUser) (uid : String) (i : Nat) :
    updOwnerRow u (newOwnerRow u uid i) = newOwnerRow u uid i := by
  unfold updOwnerRow newOwnerRow
  dsimp only
  cases h : getAvatarUrl (u.bind (fun x => x.avatar)) <;> simp [h, pyOr_self]

/-- Well-formedness of the teams table: unique row ids below the counter. -/
def TeamsWF (db : DB) : Prop :=
  (db.teams.map (fun t => t.id)).Nodup ∧ ∀ t ∈ db.teams, t.id < db.nextTeamId

theorem upsertBy_nodup_bound {p : α → Bool} {mk : Nat → α} {f : α → α} {g : α → Nat}
    (hfg : ∀ x, g (f x) = g x) (hmk : ∀ n, g (mk n) = n)
    (l : List α) (n : Nat)
    (hnd : (l.map g).Nodup) (hb : ∀ x ∈ l, g x < n) :
    ((upsertBy p mk f l n).1.map g).Nodup ∧
    ∀ x ∈ (upsertBy p mk f l n).1, g x < (upsertBy p mk f l n).2.2 := by
  cases hfind : l.find? p with
  | some a =>
    simp only [upsertBy, hfind]
    constructor
    · rw [@map_updFirst α Nat p f g (fun x _ => hfg x) l]
      exact hnd
    · intro x hx
      rcases mem_updFirst hx with hx' | ⟨y, hy, _, hxy⟩
      · exact hb x hx'
      · rw [hxy, hfg]
        exact hb y hy
  | none =>
    simp only [upsertBy, hfind]
    constructor
    · rw [List.map_append]
      rw [List.nodup_append]
      refine ⟨hnd, by simp, ?_⟩
      intro v hv
      simp only [List.mem_map] at hv
      obtain ⟨x, hx, hvx⟩ := hv
      have := hb x hx
      simp only [List.map_cons, List.map_nil, hfg, hmk]
      intro hc
      simp only [List.mem_singleton] at hc
      omega
    · intro x hx
      rcases List.mem_append.mp hx with hx' | hx'
      · have := hb x hx'
        omega
      · simp only [List.mem_singleton] at hx'
        rw [hx', hfg, hmk]
        omega

/-- The settled state of one roster: its owner row is present and saturated,
and its team row is present and saturated for that very owner's id. -/
def RosterSettled (users : List SleeperUser) (sid : Nat) (ro : SleeperRoster)
    (db : DB) : Prop :=
  ∀ uid, ro.ownerId = some uid → (uid == "") = false →
    ∃ o t, db.owners.find? (ownerKey uid) = some o ∧
      updOwnerRow (userLookup users uid) o = o ∧
      db.teams.find? (teamKey sid (toString ro.rosterId)) = some t ∧
      updSleeperTeamRow o.id ro.settings t = t

/-- The team reference the roster loop reports for a roster once the store
is settled. -/
def rosterRef (sid : Nat) (db : DB) (ro : SleeperRoster) : List TeamRef :=
  match ro.ownerId with
  | none => []
  | some uid =>
    if uid == "" then []
    else
      match db.teams.find? (teamKey sid (toString ro.rosterId)) with
      | some t => [⟨t.id, toString ro.rosterId, t.seasonId⟩]
      | none => []

theorem processRoster_of_settled (users : List SleeperUser) (sid : Nat)
    (ro : SleeperRoster) (db : DB) (h : RosterSettled users sid ro db) :
    processRoster users sid ro db = (db, rosterRef sid db ro) := by
  unfold processRoster rosterRef
  cases hu : ro.ownerId with
  | none => rfl
  | some uid =>
    dsimp only
    by_cases hk : (uid == "") = true
    · rw [if_pos hk, if_pos hk]
    · rw [if_neg hk, if_neg hk]
      obtain ⟨o, t, ho, hfo, ht, hft⟩ := h uid hu (by simpa using hk)
      rw [ho]
      dsimp only
      rw [updFirst_of_fixed ho hfo, upsertBy_of_settled ⟨ht, hft⟩, ht]

theorem processRosters_of_settled (users : List SleeperUser) (sid : Nat) :
    ∀ (rs : List SleeperRoster) (db : DB),
      (∀ ro ∈ rs, RosterSettled users sid ro db) →
      processRosters users sid rs db = (db, rs.flatMap (rosterRef sid db))
  | [], db, _ => rfl
  | ro :: rest, db, h => by
    have h1 := processRoster_of_settled users sid ro db (h ro (by simp))
    show (let r := processRoster users sid ro db
          let r' := processRosters users sid rest r.1
          ((r'.1, r.2 ++ r'.2) : DB × List TeamRef)) = _
    rw [h1]
    dsimp only
    rw [processRosters_of_settled users sid rest db
      (fun ro' hro' => h ro' (List.mem_cons_of_mem _ hro'))]
    rfl

theorem ownerKey_disj {uid uid' : String} (h : uid' ≠ uid) :
    ∀ x : OwnerRow, ownerKey uid' x = true → ownerKey uid x = false := by
  intro x hx
  unfold ownerKey at hx ⊢
  simp only [beq_iff_eq] at hx
  simp [hx, h]

theorem teamKey_disj {sid : Nat} {ptid ptid' : String} (h : ptid' ≠ ptid) :
    ∀ x : TeamRow, teamKey sid ptid' x = true → teamKey sid ptid x = false := by
  intro x hx
  unfold teamKey at hx ⊢
  simp only [Bool.and_eq_true, beq_iff_eq] at hx
  simp [hx.1, hx.2, h]

theorem processRoster_wf (users : List SleeperUser) (sid : Nat) (ro : SleeperRoster)
    (db : DB) (h : TeamsWF db) : TeamsWF (processRoster users sid ro db).1 := by
  unfold processRoster
  cases hu : ro.ownerId with
  | none => exact h
  | some uid =>
    dsimp only
    by_cases hk : (uid == "") = true
    · rw [if_pos hk]
      exact h
    · rw [if_neg hk]
      dsimp only
      cases hfind : db.owners.find? (ownerKey uid) with
      | some o =>
        dsimp only
        have hb := @upsertBy_nodup_bound TeamRow (teamKey sid (toString ro.rosterId))
          (fun i => newTeamRow i sid o.id
            (strOr ((userLookup users uid).bind (fun x => x.displayName))
              (strOr ((userLookup users uid).bind (fun x => x.username))
                ("Team " ++ toString ro.rosterId)))
            (toString ro.rosterId))
          (updSleeperTeamRow o.id ro.settings) (fun t => t.id)
          (fun x => rfl) (fun n => rfl) db.teams db.nextTeamId h.1 h.2
        exact ⟨hb.1, hb.2⟩
      | none =>
        dsimp only
        have hb := @upsertBy_nodup_bound TeamRow (teamKey sid (toString ro.rosterId))
          (fun i => newTeamRow i sid db.nextOwnerId
            (strOr ((userLookup users uid).bind (fun x => x.displayName))
              (strOr ((userLookup users uid).bind (fun x => x.username))
                ("Team " ++ toString ro.rosterId)))
            (toString ro.rosterId))
          (updSleeperTeamRow db.nextOwnerId ro.settings) (fun t => t.id)
          (fun x => rfl) (fun n => rfl) db.teams db.nextTeamId h.1 h.2
        exact ⟨hb.1, hb.2⟩

theorem processRoster_preserves (users : List SleeperUser) (sid : Nat)
    (ro' : SleeperRoster) (db : DB) (uid ptid : String) (o : OwnerRow) (t : TeamRow)
    (hne : toString ro'.rosterId ≠ ptid)
    (ho : db.owners.find? (ownerKey uid) = some o)
    (hfo : updOwnerRow (userLookup users uid) o = o)
    (ht : db.teams.find? (teamKey sid ptid) = some t) :
    (processRoster users sid ro' db).1.owners.find? (ownerKey uid) = some o ∧
    (processRoster users sid ro' db).1.teams.find? (teamKey sid ptid) = some t := by
  unfold processRoster
  cases hu : ro'.ownerId with
  | none => exact ⟨ho, ht⟩
  | some uid' =>
    dsimp only
    by_cases hk : (uid' == "") = true
    · rw [if_pos hk]
      exact ⟨ho, ht⟩
    · rw [if_neg hk]
      dsimp only
      have hteam : ∀ (oid : Nat),
          (upsertBy (teamKey sid (toString ro'.rosterId))
            (fun i => newTeamRow i sid oid
              (strOr ((userLookup users uid').bind (fun x => x.displayName))
                (strOr ((userLookup users uid').bind (fun x => x.username))
                  ("Team " ++ toString ro'.rosterId)))
              (toString ro'.rosterId))
            (updSleeperTeamRow oid ro'.settings) db.teams db.nextTeamId).1.find?
              (teamKey sid ptid) = some t := by
        intro oid
        rw [find?_upsertBy_other (teamKey_disj hne)
          (fun x hx => teamKey_disj hne (updSleeperTeamRow oid ro'.settings x) hx)
          (fun i => teamKey_newSleeper sid (toString ro'.rosterId) oid oid i _
            ro'.settings)
          db.teams db.nextTeamId]
        exact ht
      cases hfind : db.owners.find? (ownerKey uid') with
      | some o' =>
        dsimp only
        refine ⟨?_, hteam o'.id⟩
        by_cases huid : uid' = uid
        · subst huid
          rw [ho] at hfind
          cases hfind
          rw [updFirst_of_fixed ho hfo]
          exact ho
        · rw [find?_updFirst_other (ownerKey_disj huid)
            (fun x hx => by
              rw [ownerKey_updOwnerRow]
              exact ownerKey_disj huid x hx) db.owners]
          exact ho
      | none =>
        dsimp only
        exact ⟨find?_append_some ho, hteam db.nextOwnerId⟩

theorem processRosters_preserves (users : List SleeperUser) (sid : Nat) :
    ∀ (rs : List SleeperRoster) (db : DB) (uid ptid : String) (o : OwnerRow)
      (t : TeamRow),
      (∀ ro' ∈ rs, toString ro'.rosterId ≠ ptid) →
      db.owners.find? (ownerKey uid) = some o →
      updOwnerRow (userLookup users uid) o = o →
      db.teams.find? (teamKey sid ptid) = some t →
      (processRosters users sid rs db).1.owners.find? (ownerKey uid) = some o ∧
      (processRosters users sid rs db).1.teams.find? (teamKey sid ptid) = some t
  | [], _, _, _, _, _, _, ho, _, ht => ⟨ho, ht⟩
  | ro' :: rest, db, uid, ptid, o, t, hne, ho, hfo, ht => by
    have hstep := processRoster_preserves users sid ro' db uid ptid o t
      (hne ro' (by simp)) ho hfo ht
    exact processRosters_preserves users sid rest _ uid ptid o t
      (fun r hr => hne r (List.mem_cons_of_mem _ hr)) hstep.1 hfo hstep.2

theorem processRoster_establishes (users : List SleeperUser) (sid : Nat)
    (ro : SleeperRoster) (db : DB) :
    RosterSettled users sid ro (processRoster users sid ro db).1 := by
  intro uid hu hk
  unfold processRoster
  rw [hu]
  dsimp only
  rw [if_neg (by simp [hk])]
  dsimp only
  cases hfind : db.owners.find? (ownerKey uid) with
  | some o =>
    dsimp only
    have hset := @upsertBy_settles TeamRow (teamKey sid (toString ro.rosterId))
      (fun i => newTeamRow i sid o.id
        (strOr ((userLookup users uid).bind (fun x => x.displayName))
          (strOr ((userLookup users uid).bind (fun x => x.username))
            ("Team " ++ toString ro.rosterId)))
        (toString ro.rosterId))
      (updSleeperTeamRow o.id ro.settings)
      (teamKey_updSleeper sid (toString ro.rosterId) o.id ro.settings)
      (updSleeperTeamRow_idem o.id ro.settings)
      (fun i => teamKey_newSleeper sid (toString ro.rosterId) o.id o.id i _ ro.settings)
      db.teams db.nextTeamId
    refine ⟨updOwnerRow (userLookup users uid) o, _, ?_, updOwnerRow_idem _ o,
      hset.1, ?_⟩
    · exact find?_updFirst_self
        (fun x hx => by rw [ownerKey_updOwnerRow]; exact hx) hfind
    · rw [updOwnerRow_id]
      exact hset.2
  | none =>
    dsimp only
    have hset := @upsertBy_settles TeamRow (teamKey sid (toString ro.rosterId))
      (fun i => newTeamRow i sid db.nextOwnerId
        (strOr ((userLookup users uid).bind (fun x => x.displayName))
          (strOr ((userLookup users uid).bind (fun x => x.username))
            ("Team " ++ toString ro.rosterId)))
        (toString ro.rosterId))
      (updSleeperTeamRow db.nextOwnerId ro.settings)
      (teamKey_updSleeper sid (toString ro.rosterId) db.nextOwnerId ro.settings)
      (updSleeperTeamRow_idem db.nextOwnerId ro.settings)
      (fun i => teamKey_newSleeper sid (toString ro.rosterId) db.nextOwnerId
        db.nextOwnerId i _ ro.settings)
      db.teams db.nextTeamId
    refine ⟨newOwnerRow (userLookup users uid) uid db.nextOwnerId, _, ?_,
      newOwnerRow_fixed _ uid db.nextOwnerId, hset.1, hset.2⟩
    rw [find?_append_none hfind]
    exact find?_cons_of_pos _ (by simp [ownerKey, newOwnerRow])

theorem processRoster_refs (users : List SleeperUser) (sid : Nat) (ro : SleeperRoster)
    (db : DB) :
    (processRoster users sid ro db).2 =
      rosterRef sid (processRoster users sid ro db).1 ro := by
  unfold processRoster rosterRef
  cases hu : ro.ownerId with
  | none => rfl
  | some uid =>
    dsimp only
    by_cases hk : (uid == "") = true
    · rw [if_pos hk, if_pos hk]
    · rw [if_neg hk, if_neg hk]
      cases hfind : db.owners.find? (ownerKey uid) with
      | some o =>
        dsimp only
        have hset := @upsertBy_settles TeamRow (teamKey sid (toString ro.rosterId))
          (fun i => newTeamRow i sid o.id
            (strOr ((userLookup users uid).bind (fun x => x.displayName))
              (strOr ((userLookup users uid).bind (fun x => x.username))
                ("Team " ++ toString ro.rosterId)))
            (toString ro.rosterId))
          (updSleeperTeamRow o.id ro.settings)
          (teamKey_updSleeper sid (toString ro.rosterId) o.id ro.settings)
          (updSleeperTeamRow_idem o.id ro.settings)
          (fun i => teamKey_newSleeper sid (toString ro.rosterId) o.id o.id i _
            ro.settings)
          db.teams db.nextTeamId
        rw [hset.1]
      | none =>
        dsimp only
        have hset := @upsertBy_settles TeamRow (teamKey sid (toString ro.rosterId))
          (fun i => newTeamRow i sid db.nextOwnerId
            (strOr ((userLookup users uid).bind (fun x => x.displayName))
              (strOr ((userLookup users uid).bind (fun x => x.username))
                ("Team " ++ toString ro.rosterId)))
            (toString ro.rosterId))
          (updSleeperTeamRow db.nextOwnerId ro.settings)
          (teamKey_updSleeper sid (toString ro.rosterId) db.nextOwnerId ro.settings)
          (updSleeperTeamRow_idem db.nextOwnerId ro.settings)
          (fun i => teamKey_newSleeper sid (toString ro.rosterId) db.nextOwnerId
            db.nextOwnerId i _ ro.settings)
          db.teams db.nextTeamId
        rw [hset.1]

theorem processRosters_establishes (users : List SleeperUser) (sid : Nat) :
    ∀ (rs : List SleeperRoster) (db : DB),
      (rs.map (fun ro => toString ro.rosterId)).Nodup →
      TeamsWF db →
      TeamsWF (processRosters users sid rs db).1 ∧
      (∀ ro ∈ rs, RosterSettled users sid ro (processRosters users sid rs db).1) ∧
      (processRosters users sid rs db).2 =
        rs.flatMap (rosterRef sid (processRosters users sid rs db).1)
  | [], db, _, hwf => ⟨hwf, by simp, rfl⟩
  | ro :: rest, db, hnd, hwf => by
    rw [List.map_cons, List.nodup_cons] at hnd
    have hndr := hnd.2
    have hne : ∀ r ∈ rest, toString r.rosterId ≠ toString ro.rosterId := by
      intro r hr heq
      exact hnd.1 (heq ▸ List.mem_map_of_mem _ hr)
    have hwf1 := processRoster_wf users sid ro db hwf
    have hself := processRoster_establishes users sid ro db
    have ih := processRosters_establishes users sid rest
      (processRoster users sid ro db).1 hndr hwf1
    refine ⟨ih.1, ?_, ?_⟩
    · intro r hr
      rcases List.mem_cons.mp hr with heq | hr'
      · subst heq
        intro uid hu hk
        obtain ⟨o, t, ho, hfo, ht, hft⟩ := hself uid hu hk
        have hp := processRosters_preserves users sid rest
          (processRoster users sid r db).1 uid (toString r.rosterId) o t hne ho hfo ht
        exact ⟨o, t, hp.1, hfo, hp.2, hft⟩
      · exact ih.2.1 r hr'
    · show (processRoster users sid ro db).2 ++
        (processRosters users sid rest (processRoster users sid ro db).1).2 = _
      rw [ih.2.2, processRoster_refs users sid ro db]
      have hstab : rosterRef sid (processRoster users sid ro db).1 ro =
          rosterRef sid (processRosters users sid rest
            (processRoster users sid ro db).1).1 ro := by
        unfold rosterRef
        cases hu : ro.ownerId with
        | none => rfl
        | some uid =>
          dsimp only
          by_cases hk : (uid == "") = true
          · rw [if_pos hk, if_pos hk]
          · rw [if_neg hk, if_neg hk]
            obtain ⟨o, t, ho, hfo, ht, hft⟩ := hself uid hu (by simpa using hk)
            have hp := processRosters_preserves users sid rest
              (processRoster users sid ro db).1 uid (toString ro.rosterId) o t
              hne ho hfo ht
            rw [ht, hp.2]
      rw [hstab]
      rfl

theorem importSeason_some_settled_id (rem : SleeperRemote) (lid : String) (L : Nat)
    (db : DB) :
    ∃ a, SettledAt (seasonKey L (seasonYearOf rem lid)) (updSeasonRow (rem.league lid))
        (importSeason rem lid (some L) db).1.seasons a ∧
      (importSeason rem lid (some L) db).2.1 = a.id := by
  refine ⟨(upsertBy (seasonKey L (seasonYearOf rem lid))
      (fun i => newSeasonRow i L (seasonYearOf rem lid))
      (updSeasonRow (rem.league lid)) db.seasons db.nextSeasonId).2.1, ?_, rfl⟩
  exact @upsertBy_settles SeasonRow (seasonKey L (seasonYearOf rem lid))
    (fun i => newSeasonRow i L (seasonYearOf rem lid)) (updSeasonRow (rem.league lid))
    (fun _ h => h) (fun _ => rfl)
    (fun n => by simp [seasonKey, updSeasonRow, newSeasonRow]) db.seasons db.nextSeasonId

theorem importUsersAndRosters_of_all_settled (rem : SleeperRemote) (lid : String)
    (L : Nat) (db : DB) (a : SeasonRow)
    (hsea : SettledAt (seasonKey L (seasonYearOf rem lid)) (updSeasonRow (rem.league lid))
      db.seasons a)
    (hros : ∀ ro ∈ rem.rosters lid, RosterSettled (rem.users lid) a.id ro db) :
    importUsersAndRosters rem lid (some L) db =
      (db, (rem.rosters lid).flatMap (rosterRef a.id db)) := by
  show (let s := importSeason rem lid (some L) db
        processRosters (rem.users lid) s.2.1 (rem.rosters lid) s.1) = _
  rw [importSeason_of_settled rem lid L db a hsea]
  exact processRosters_of_settled (rem.users lid) a.id (rem.rosters lid) db hros

theorem importUsersAndRosters_establishes (rem : SleeperRemote) (lid : String)
    (L : Nat) (db : DB)
    (h1 : ((rem.rosters lid).map (fun ro => toString ro.rosterId)).Nodup)
    (hwf : TeamsWF db) :
    ∃ a, SettledAt (seasonKey L (seasonYearOf rem lid)) (updSeasonRow (rem.league lid))
        (importUsersAndRosters rem lid (some L) db).1.seasons a ∧
      TeamsWF (importUsersAndRosters rem lid (some L) db).1 ∧
      (∀ ro ∈ rem.rosters lid, RosterSettled (rem.users lid) a.id ro
        (importUsersAndRosters rem lid (some L) db).1) ∧
      (importUsersAndRosters rem lid (some L) db).2 =
        (rem.rosters lid).flatMap
          (rosterRef a.id (importUsersAndRosters rem lid (some L) db).1) := by
  obtain ⟨a, ha, hid⟩ := importSeason_some_settled_id rem lid L db
  have hest := processRosters_establishes (rem.users lid)
    (importSeason rem lid (some L) db).2.1 (rem.rosters lid)
    (importSeason rem lid (some L) db).1 h1 hwf
  refine ⟨a, ?_, hest.1, ?_, ?_⟩
  · show SettledAt _ _ (processRosters (rem.users lid)
      (importSeason rem lid (some L) db).2.1 (rem.rosters lid)
      (importSeason rem lid (some L) db).1).1.seasons a
    rw [processRosters_seasons]
    exact ha
  · rw [← hid]
    exact hest.2.1
  · rw [← hid]
    exact hest.2.2

/-! ### Matchup groups -/

/-- The natural key a matchup group resolves to, when it forms a row. -/
def gKey (tlook : String → Option TeamRef) (g : Nat × List SleeperMatchupEntry) :
    Option (Nat × Nat × Nat) :=
  match g.2 with
  | [p1, p2] =>
    match tlook (toString p1.rosterId), tlook (toString p2.rosterId) with
    | some t1, some t2 => some (g.1, t1.id, t2.id)
    | _, _ => none
  | _ => none

/-- The settled state of one matchup group: its row is present and saturated. -/
def GroupSettled (tlook : String → Option TeamRef) (sid pws : Nat)
    (g : Nat × List SleeperMatchupEntry) (db : DB) : Prop :=
  ∀ p1 p2 t1 t2, g.2 = [p1, p2] →
    tlook (toString p1.rosterId) = some t1 →
    tlook (toString p2.rosterId) = some t2 →
    ∃ row, db.matchups.find? (matchupKey sid g.1 t1.id t2.id) = some row ∧
      updSleeperMatchupRow (p1.points.getD 0) (p2.points.getD 0)
        (sleeperWinnerTie t1.id t2.id (p1.points.getD 0) (p2.points.getD 0)).1
        (sleeperWinnerTie t1.id t2.id (p1.points.getD 0) (p2.points.getD 0)).2
        (decide (pws ≤ g.1)) row = row

theorem matchupKey_disj {sid w a b w' a' b' : Nat}
    (h : ((w', a', b') : Nat × Nat × Nat) ≠ (w, a, b)) :
    ∀ x : MatchupRow, matchupKey sid w' a' b' x = true → matchupKey sid w a b x = false := by
  intro x hx
  unfold matchupKey at hx ⊢
  simp only [Bool.and_eq_true, beq_iff_eq] at hx
  obtain ⟨⟨⟨h1, h2⟩, h3⟩, h4⟩ := hx
  by_contra hc
  simp only [Bool.not_eq_false, Bool.and_eq_true, beq_iff_eq] at hc
  obtain ⟨⟨⟨g1, g2⟩, g3⟩, g4⟩ := hc
  apply h
  rw [← h2, ← h3, ← h4, g2, g3, g4]

theorem processSleeperGroup_of_settled (tlook : String → Option TeamRef)
    (sid pws : Nat) (g : Nat × List SleeperMatchupEntry) (db : DB)
    (h : GroupSettled tlook sid pws g db) :
    ∃ out, processSleeperGroup tlook sid pws g.1 g.2 db = (db, out) := by
  rcases g with ⟨w, parts⟩
  rcases parts with _ | ⟨p1, _ | ⟨p2, _ | ⟨p3, rest⟩⟩⟩
  · exact ⟨[], rfl⟩
  · exact ⟨[], rfl⟩
  · unfold processSleeperGroup
    dsimp only
    cases ht1 : tlook (toString p1.rosterId) with
    | none => exact ⟨[], rfl⟩
    | some t1 =>
      cases ht2 : tlook (toString p2.rosterId) with
      | none => exact ⟨[], rfl⟩
      | some t2 =>
        dsimp only
        obtain ⟨row, hrow, hfix⟩ := h p1 p2 t1 t2 rfl ht1 ht2
        refine ⟨[row.id], ?_⟩
        rw [upsertBy_of_settled ⟨hrow, hfix⟩]
  · exact ⟨[], rfl⟩

theorem processSleeperGroups_of_settled (tlook : String → Option TeamRef)
    (sid pws : Nat) :
    ∀ (gs : List (Nat × List SleeperMatchupEntry)) (db : DB),
      (∀ g ∈ gs, GroupSettled tlook sid pws g db) →
      ∃ out, processSleeperGroups tlook sid pws gs db = (db, out)
  | [], db, _ => ⟨[], rfl⟩
  | g :: rest, db, h => by
    obtain ⟨o1, h1⟩ := processSleeperGroup_of_settled tlook sid pws g db (h g (by simp))
    obtain ⟨o2, h2⟩ := processSleeperGroups_of_settled tlook sid pws rest db
      (fun g' hg' => h g' (List.mem_cons_of_mem _ hg'))
    rcases g with ⟨w, parts⟩
    dsimp only at h1
    refine ⟨o1 ++ o2, ?_⟩
    show (let r := processSleeperGroup tlook sid pws w parts db
          let r' := processSleeperGroups tlook sid pws rest r.1
          ((r'.1, r.2 ++ r'.2) : DB × List Nat)) = _
    rw [h1]
    dsimp only
    rw [h2]

theorem processSleeperGroup_preserves (tlook : String → Option TeamRef)
    (sid pws : Nat) (g' : Nat × List SleeperMatchupEntry) (db : DB)
    (w a b : Nat) (row : MatchupRow)
    (hne : gKey tlook g' ≠ some (w, a, b))
    (hrow : db.matchups.find? (matchupKey sid w a b) = some row) :
    (processSleeperGroup tlook sid pws g'.1 g'.2 db).1.matchups.find?
      (matchupKey sid w a b) = some row := by
  rcases g' with ⟨w', parts⟩
  rcases parts with _ | ⟨q1, _ | ⟨q2, _ | ⟨q3, rest⟩⟩⟩
  · exact hrow
  · exact hrow
  · unfold processSleeperGroup
    dsimp only
    cases ht1 : tlook (toString q1.rosterId) with
    | none => exact hrow
    | some s1 =>
      cases ht2 : tlook (toString q2.rosterId) with
      | none => exact hrow
      | some s2 =>
        dsimp only
        have hkey : gKey tlook (w', [q1, q2]) = some (w', s1.id, s2.id) := by
          unfold gKey
          dsimp only
          rw [ht1, ht2]
        have hne' : ((w', s1.id, s2.id) : Nat × Nat × Nat) ≠ (w, a, b) := by
          intro hc
          exact hne (hkey.trans (by rw [hc]))
        rw [@find?_upsertBy_other MatchupRow (matchupKey sid w' s1.id s2.id)
          (matchupKey sid w a b)
          (fun i => newMatchupRow i sid w' s1.id s2.id)
          (updSleeperMatchupRow (q1.points.getD 0) (q2.points.getD 0)
            (sleeperWinnerTie s1.id s2.id (q1.points.getD 0) (q2.points.getD 0)).1
            (sleeperWinnerTie s1.id s2.id (q1.points.getD 0) (q2.points.getD 0)).2
            (decide (pws ≤ w')))
          (matchupKey_disj hne')
          (fun x hx => matchupKey_disj hne' _ hx)
          (fun i => matchupKey_newSleeperM sid w' s1.id s2.id i (q1.points.getD 0)
            (q2.points.getD 0) _ _ _)
          db.matchups db.nextMatchupId]
        exact hrow
  · exact hrow

theorem processSleeperGroups_preserves (tlook : String → Option TeamRef)
    (sid pws : Nat) :
    ∀ (gs : List (Nat × List SleeperMatchupEntry)) (db : DB) (w a b : Nat)
      (row : MatchupRow),
      (∀ g' ∈ gs, gKey tlook g' ≠ some (w, a, b)) →
      db.matchups.find? (matchupKey sid w a b) = some row →
      (processSleeperGroups tlook sid pws gs db).1.matchups.find?
        (matchupKey sid w a b) = some row
  | [], _, _, _, _, _, _, hrow => hrow
  | g :: rest, db, w, a, b, row, hne, hrow => by
    have hstep := processSleeperGroup_preserves tlook sid pws g db w a b row
      (hne g (by simp)) hrow
    exact processSleeperGroups_preserves tlook sid pws rest _ w a b row
      (fun g' hg' => hne g' (List.mem_cons_of_mem _ hg')) hstep

theorem processSleeperGroup_establishes (tlook : String → Option TeamRef)
    (sid pws : Nat) (g : Nat × List SleeperMatchupEntry) (db : DB) :
    GroupSettled tlook sid pws g (processSleeperGroup tlook sid pws g.1 g.2 db).1 := by
  intro p1 p2 t1 t2 hg2 ht1 ht2
  rw [hg2]
  unfold processSleeperGroup
  dsimp only
  rw [ht1, ht2]
  dsimp only
  have hset := @upsertBy_settles MatchupRow (matchupKey sid g.1 t1.id t2.id)
    (fun i => newMatchupRow i sid g.1 t1.id t2.id)
    (updSleeperMatchupRow (p1.points.getD 0) (p2.points.getD 0)
      (sleeperWinnerTie t1.id t2.id (p1.points.getD 0) (p2.points.getD 0)).1
      (sleeperWinnerTie t1.id t2.id (p1.points.getD 0) (p2.points.getD 0)).2
      (decide (pws ≤ g.1)))
    (matchupKey_updSleeperM sid g.1 t1.id t2.id (p1.points.getD 0) (p2.points.getD 0)
      _ _ _)
    (updSleeperMatchupRow_idem (p1.points.getD 0) (p2.points.getD 0) _ _ _)
    (fun i => matchupKey_newSleeperM sid g.1 t1.id t2.id i (p1.points.getD 0)
      (p2.points.getD 0) _ _ _)
    db.matchups db.nextMatchupId
  exact ⟨_, hset.1, hset.2⟩

theorem processSleeperGroups_establishes (tlook : String → Option TeamRef)
    (sid pws : Nat) :
    ∀ (gs : List (Nat × List SleeperMatchupEntry)) (db : DB),
      (gs.filterMap (gKey tlook)).Nodup →
      ∀ g ∈ gs,
        GroupSettled tlook sid pws g (processSleeperGroups tlook sid pws gs db).1
  | [], _, _ => by simp
  | g :: rest, db, hnd => by
    intro g0 hg0
    rcases List.mem_cons.mp hg0 with heq | hmem
    · subst heq
      intro p1 p2 t1 t2 hg2 ht1 ht2
      obtain ⟨row, hrow, hfix⟩ :=
        processSleeperGroup_establishes tlook sid pws g0 db p1 p2 t1 t2 hg2 ht1 ht2
      have hkey : gKey tlook g0 = some (g0.1, t1.id, t2.id) := by
        unfold gKey
        rw [hg2]
        dsimp only
        rw [ht1, ht2]
      have hne : ∀ g' ∈ rest, gKey tlook g' ≠ some (g0.1, t1.id, t2.id) := by
        intro g' hg' hk
        rw [List.filterMap_cons, hkey] at hnd
        exact (List.nodup_cons.mp hnd).1 (List.mem_filterMap.mpr ⟨g', hg', hk⟩)
      have hp := processSleeperGroups_preserves tlook sid pws rest
        (processSleeperGroup tlook sid pws g0.1 g0.2 db).1 g0.1 t1.id t2.id row
        hne hrow
      exact ⟨row, hp, hfix⟩
    · have hndr : (rest.filterMap (gKey tlook)).Nodup := by
        rw [List.filterMap_cons] at hnd
        cases hk : gKey tlook g with
        | none => rw [hk] at hnd; exact hnd
        | some k =>
          rw [hk] at hnd
          exact (List.nodup_cons.mp hnd).2
      exact processSleeperGroups_establishes tlook sid pws rest
        (processSleeperGroup tlook sid pws g.1 g.2 db).1 hndr g0 hmem

/-! ### Trades -/

/-- The settled state of one trade: its row is present and saturated. -/
def TradeSettled (resolve : String → String) (tlook : String → Option TeamRef)
    (tt : TaggedTrade) (db : DB) : Prop :=
  ∃ row, db.trades.find? (tradeKey tt.tx.transactionId) = some row ∧
    updTradeRow (buildSleeperAssets resolve tt.tx)
      (tradeTeamIds tlook tt.tx.rosterIds) row = row

theorem tradeKey_newTrade (tid : Option String) (assets : List AssetEntry)
    (tids : List Nat) (i sid : Nat) (created : ℚ) (w : Nat) :
    tradeKey tid (updTradeRow assets tids (newSleeperTradeRow i sid tid created w)) =
      true := by
  simp [tradeKey, updTradeRow, newSleeperTradeRow]

theorem tradeKey_disj {tid tid' : Option String} (h : tid' ≠ tid) :
    ∀ x : TradeRow, tradeKey tid' x = true → tradeKey tid x = false := by
  intro x hx
  unfold tradeKey at hx ⊢
  simp only [beq_iff_eq] at hx
  simp [hx, h]

theorem processSleeperTrade_of_settled (resolve : String → String)
    (tlook : String → Option TeamRef) (sid : Nat) (tt : TaggedTrade) (db : DB)
    (h : TradeSettled resolve tlook tt db) :
    ∃ out, processSleeperTrade resolve tlook sid tt db = (db, out) := by
  obtain ⟨row, hrow, hfix⟩ := h
  refine ⟨[row.id], ?_⟩
  unfold processSleeperTrade
  dsimp only
  rw [upsertBy_of_settled ⟨hrow, hfix⟩]

theorem processSleeperTrades_of_settled (resolve : String → String)
    (tlook : String → Option TeamRef) (sid : Nat) :
    ∀ (tts : List TaggedTrade) (db : DB),
      (∀ tt ∈ tts, TradeSettled resolve tlook tt db) →
      ∃ out, processSleeperTrades resolve tlook sid tts db = (db, out)
  | [], db, _ => ⟨[], rfl⟩
  | tt :: rest, db, h => by
    obtain ⟨o1, h1⟩ := processSleeperTrade_of_settled resolve tlook sid tt db
      (h tt (by simp))
    obtain ⟨o2, h2⟩ := processSleeperTrades_of_settled resolve tlook sid rest db
      (fun tt' htt' => h tt' (List.mem_cons_of_mem _ htt'))
    refine ⟨o1 ++ o2, ?_⟩
    show (let r := processSleeperTrade resolve tlook sid tt db
          let r' := processSleeperTrades resolve tlook sid rest r.1
          ((r'.1, r.2 ++ r'.2) : DB × List Nat)) = _
    rw [h1]
    dsimp only
    rw [h2]

theorem processSleeperTrade_preserves (resolve : String → String)
    (tlook : String → Option TeamRef) (sid : Nat) (tt' : TaggedTrade) (db : DB)
    (tid : Option String) (row : TradeRow)
    (hne : tt'.tx.transactionId ≠ tid)
    (hrow : db.trades.find? (tradeKey tid) = some row) :
    (processSleeperTrade resolve tlook sid tt' db).1.trades.find? (tradeKey tid) =
      some row := by
  unfold processSleeperTrade
  dsimp only
  rw [@find?_upsertBy_other TradeRow (tradeKey tt'.tx.transactionId) (tradeKey tid)
    (fun i => newSleeperTradeRow i sid tt'.tx.transactionId (tt'.tx.created.getD 0)
      tt'.week)
    (updTradeRow (buildSleeperAssets resolve tt'.tx)
      (tradeTeamIds tlook tt'.tx.rosterIds))
    (tradeKey_disj hne)
    (fun x hx => tradeKey_disj hne _ hx)
    (fun i => tradeKey_newTrade tt'.tx.transactionId _ _ i sid _ tt'.week)
    db.trades db.nextTradeId]
  exact hrow

theorem processSleeperTrades_preserves (resolve : String → String)
    (tlook : String → Option TeamRef) (sid : Nat) :
    ∀ (tts : List TaggedTrade) (db : DB) (tid : Option String) (row : TradeRow),
      (∀ tt' ∈ tts, tt'.tx.transactionId ≠ tid) →
      db.trades.find? (tradeKey tid) = some row →
      (processSleeperTrades resolve tlook sid tts db).1.trades.find? (tradeKey tid) =
        some row
  | [], _, _, _, _, hrow => hrow
  | tt :: rest, db, tid, row, hne, hrow => by
    have hstep := processSleeperTrade_preserves resolve tlook sid tt db tid row
      (hne tt (by simp)) hrow
    exact processSleeperTrades_preserves resolve tlook sid rest _ tid row
      (fun tt' htt' => hne tt' (List.mem_cons_of_mem _ htt')) hstep

theorem processSleeperTrade_establishes (resolve : String → String)
    (tlook : String → Option TeamRef) (sid : Nat) (tt : TaggedTrade) (db : DB) :
    TradeSettled resolve tlook tt (processSleeperTrade resolve tlook sid tt db).1 := by
  unfold processSleeperTrade
  dsimp only
  have hset := @upsertBy_settles TradeRow (tradeKey tt.tx.transactionId)
    (fun i => newSleeperTradeRow i sid tt.tx.transactionId (tt.tx.created.getD 0)
      tt.week)
    (updTradeRow (buildSleeperAssets resolve tt.tx)
      (tradeTeamIds tlook tt.tx.rosterIds))
    (fun x hx => hx) (fun x => rfl)
    (fun i => tradeKey_newTrade tt.tx.transactionId _ _ i sid _ tt.week)
    db.trades db.nextTradeId
  exact ⟨_, hset.1, hset.2⟩

theorem processSleeperTrades_establishes (resolve : String → String)
    (tlook : String → Option TeamRef) (sid : Nat) :
    ∀ (tts : List TaggedTrade) (db : DB),
      (tts.map (fun tt => tt.tx.transactionId)).Nodup →
      ∀ tt ∈ tts,
        TradeSettled resolve tlook tt (processSleeperTrades resolve tlook sid tts db).1
  | [], _, _ => by simp
  | tt :: rest, db, hnd => by
    rw [List.map_cons, List.nodup_cons] at hnd
    intro tt0 htt0
    rcases List.mem_cons.mp htt0 with heq | hmem
    · subst heq
      obtain ⟨row, hrow, hfix⟩ :=
        processSleeperTrade_establishes resolve tlook sid tt0 db
      have hne : ∀ tt' ∈ rest, tt'.tx.transactionId ≠ tt0.tx.transactionId := by
        intro tt' htt' heq'
        exact hnd.1 (heq' ▸ List.mem_map_of_mem _ htt')
      exact ⟨row, processSleeperTrades_preserves resolve tlook sid rest _
        tt0.tx.transactionId row hne hrow, hfix⟩
    · exact processSleeperTrades_establishes resolve tlook sid rest
        (processSleeperTrade resolve tlook sid tt db).1 hnd.2 tt0 hmem

/-! ### Champion detection -/

theorem updChampion_idem (c ru : Option Nat) (s : SeasonRow) :
    updChampion c ru (updChampion c ru s) = updChampion c ru s := by
  unfold updChampion
  rcases c with _ | v <;> rcases ru with _ | u' <;> rfl

theorem updSeasonRow_updChampion (ld : SleeperLeagueData) (c ru : Option Nat)
    (s : SeasonRow) :
    updSeasonRow ld (updChampion c ru s) = updChampion c ru (updSeasonRow ld s) := by
  unfold updSeasonRow updChampion
  rcases c with _ | v <;> rcases ru with _ | u' <;> rfl

theorem seasonKey_updChampion (L y : Nat) (c ru : Option Nat) (x : SeasonRow) :
    seasonKey L y (updChampion c ru x) = seasonKey L y x := by
  unfold seasonKey updChampion
  rcases c with _ | v <;> rcases ru with _ | u' <;> rfl

theorem find?_updFirst_or {p q : α → Bool} {f : α → α}
    (hq : ∀ x, q (f x) = q x) :
    ∀ {l : List α} {a : α}, l.find? q = some a →
      (updFirst p f l).find? q = some a ∨ (updFirst p f l).find? q = some (f a)
  | [], a, h => by simp [List.find?] at h
  | x :: l, a, h => by
    by_cases hp : p x
    · simp only [updFirst, if_pos hp]
      by_cases hqx : q x
      · rw [find?_cons_of_pos l hqx] at h
        cases h
        right
        exact find?_cons_of_pos _ (by rw [hq]; exact hqx)
      · simp only [Bool.not_eq_true] at hqx
        rw [find?_cons_of_neg l hqx] at h
        left
        rw [find?_cons_of_neg _ (by rw [hq]; exact hqx)]
        exact h
    · simp only [updFirst, if_neg hp]
      by_cases hqx : q x
      · rw [find?_cons_of_pos l hqx] at h
        cases h
        left
        exact find?_cons_of_pos _ hqx
      · simp only [Bool.not_eq_true] at hqx
        rw [find?_cons_of_neg l hqx] at h
        rcases find?_updFirst_or hq h with h' | h'
        · left
          rw [find?_cons_of_neg _ hqx]
          exact h'
        · right
          rw [find?_cons_of_neg _ hqx]
          exact h'

/-- The settled state of champion detection: when the bracket is nonempty,
the season row it targets (if any) already carries the detected values. -/
def ChampSettled (rem : SleeperRemote) (lid : String) (sid : Nat)
    (refs : List TeamRef) (db : DB) : Prop :=
  (rem.winnersBracket lid).isEmpty = false →
    (db.seasons.find? (fun s => s.id == sid) = none ∨
     ∃ b, db.seasons.find? (fun s => s.id == sid) = some b ∧
       updChampion
         ((getChampionRosterId (rem.winnersBracket lid)).bind
           (fun rid => (teamRefLookup refs (toString rid)).map (fun t => t.id)))
         ((getRunnerUpRosterId (rem.winnersBracket lid)).bind
           (fun rid => (teamRefLookup refs (toString rid)).map (fun t => t.id)))
         b = b)

theorem detectAndSetChampion_of_settled (rem : SleeperRemote) (lid : String)
    (sid : Nat) (refs : List TeamRef) (db : DB)
    (h : ChampSettled rem lid sid refs db) :
    ∃ out, detectAndSetChampion rem lid sid refs db = (db, out) := by
  unfold detectAndSetChampion
  dsimp only
  by_cases hb : (rem.winnersBracket lid).isEmpty = true
  · rw [if_pos hb]
    exact ⟨(none, none), rfl⟩
  · rw [if_neg hb]
    rcases h (by simpa using hb) with hnone | ⟨b, hb', hfix⟩
    · rw [updFirst_of_none hnone]
      exact ⟨_, rfl⟩
    · rw [updFirst_of_fixed hb' hfix]
      exact ⟨_, rfl⟩

theorem detectAndSetChampion_establishes (rem : SleeperRemote) (lid : String)
    (sid : Nat) (refs : List TeamRef) (db : DB) :
    ChampSettled rem lid sid refs (detectAndSetChampion rem lid sid refs db).1 := by
  intro hb
  unfold detectAndSetChampion
  dsimp only
  rw [if_neg (by simp [hb])]
  dsimp only
  cases hf : db.seasons.find? (fun s => s.id == sid) with
  | none =>
    left
    rw [updFirst_of_none hf]
    exact hf
  | some b =>
    right
    refine ⟨_, find?_updFirst_self
      (fun x hx => by rw [updChampion_id_id]; exact hx) hf, updChampion_idem _ _ b⟩

theorem detectAndSetChampion_preserves_season (rem : SleeperRemote) (lid : String)
    (sid : Nat) (refs : List TeamRef) (db : DB) (L : Nat) (lid' : String)
    (a : SeasonRow)
    (h : SettledAt (seasonKey L (seasonYearOf rem lid')) (updSeasonRow (rem.league lid'))
      db.seasons a) :
    ∃ a', SettledAt (seasonKey L (seasonYearOf rem lid'))
        (updSeasonRow (rem.league lid'))
        (detectAndSetChampion rem lid sid refs db).1.seasons a' ∧ a'.id = a.id := by
  unfold detectAndSetChampion
  dsimp only
  by_cases hb : (rem.winnersBracket lid).isEmpty = true
  · rw [if_pos hb]
    exact ⟨a, h, rfl⟩
  · rw [if_neg hb]
    dsimp only
    rcases @find?_updFirst_or SeasonRow (fun s => s.id == sid)
      (seasonKey L (seasonYearOf rem lid'))
      (updChampion
        ((getChampionRosterId (rem.winnersBracket lid)).bind
          (fun rid => (teamRefLookup refs (toString rid)).map (fun t => t.id)))
        ((getRunnerUpRosterId (rem.winnersBracket lid)).bind
          (fun rid => (teamRefLookup refs (toString rid)).map (fun t => t.id))))
      (fun x => seasonKey_updChampion L (seasonYearOf rem lid') _ _ x)
      db.seasons a h.1 with h' | h'
    · exact ⟨a, ⟨h', h.2⟩, rfl⟩
    · refine ⟨updChampion
        ((getChampionRosterId (rem.winnersBracket lid)).bind
          (fun rid => (teamRefLookup refs (toString rid)).map (fun t => t.id)))
        ((getRunnerUpRosterId (rem.winnersBracket lid)).bind
          (fun rid => (teamRefLookup refs (toString rid)).map (fun t => t.id))) a,
        ⟨h', ?_⟩, updChampion_id_id _ _ a⟩
      rw [updSeasonRow_updChampion, h.2]

/-! ### Distinctness of the matchup-group keys -/

theorem nodup_filterMap_of_inj {f : α → Option β} :
    ∀ {l : List α}, l.Nodup →
      (∀ a ∈ l, ∀ a' ∈ l, ∀ b, f a = some b → f a' = some b → a = a') →
      (l.filterMap f).Nodup
  | [], _, _ => List.nodup_nil
  | x :: l, hnd, hinj => by
    rw [List.filterMap_cons]
    have hndl := (List.nodup_cons.mp hnd).2
    have hx := (List.nodup_cons.mp hnd).1
    have ih := nodup_filterMap_of_inj hndl
      (fun a ha a' ha' b h h' =>
        hinj a (List.mem_cons_of_mem _ ha) a' (List.mem_cons_of_mem _ ha') b h h')
    cases hf : f x with
    | none => exact ih
    | some b =>
      refine List.nodup_cons.mpr ⟨?_, ih⟩
      intro hb
      obtain ⟨a, ha, hab⟩ := List.mem_filterMap.mp hb
      have := hinj a (List.mem_cons_of_mem _ ha) x (by simp) b hab hf
      exact hx (this ▸ ha)

theorem dedupFirst_nodup : ∀ (seen l : List Nat),
    (dedupFirst seen l).Nodup ∧ ∀ x ∈ dedupFirst seen l, x ∉ seen
  | seen, [] => ⟨List.nodup_nil, by simp [dedupFirst]⟩
  | seen, x :: xs => by
    unfold dedupFirst
    by_cases hx : seen.contains x = true
    · rw [if_pos hx]
      exact dedupFirst_nodup seen xs
    · rw [if_neg hx]
      have ih := dedupFirst_nodup (x :: seen) xs
      constructor
      · refine List.nodup_cons.mpr ⟨?_, ih.1⟩
        intro hmem
        exact ih.2 x hmem (by simp)
      · intro y hy
        rcases List.mem_cons.mp hy with heq | hmem
        · subst heq
          intro hc
          exact hx (by simpa using hc)
        · intro hc
          exact ih.2 y hmem (List.mem_cons_of_mem _ hc)

theorem teamRefLookup_props {R : List TeamRef} {s : String} {t : TeamRef}
    (h : teamRefLookup R s = some t) :
    t ∈ R ∧ t.platformTeamId = s := by
  unfold teamRefLookup at h
  have hm := List.mem_of_find?_eq_some h
  have hp := List.find?_some h
  simp only [beq_iff_eq] at hp
  exact ⟨List.mem_reverse.mp hm, hp⟩

theorem teamRefLookup_inj {R : List TeamRef}
    (hnd : (R.map (fun r => r.id)).Nodup) :
    ∀ s s', s ≠ s' → ∀ t t', teamRefLookup R s = some t →
      teamRefLookup R s' = some t' → t.id ≠ t'.id := by
  intro s s' hss t t' ht ht' hid
  obtain ⟨hmt, hpt⟩ := teamRefLookup_props ht
  obtain ⟨hmt', hpt'⟩ := teamRefLookup_props ht'
  have := List.inj_on_of_nodup_map hnd hmt hmt' hid
  exact hss (by rw [← hpt, ← hpt', this])

theorem rosterRef_char {sid : Nat} {db : DB} {ro : SleeperRoster} {r : TeamRef}
    (h : r ∈ rosterRef sid db ro) :
    ∃ t, db.teams.find? (teamKey sid (toString ro.rosterId)) = some t ∧
      r = ⟨t.id, toString ro.rosterId, t.seasonId⟩ := by
  unfold rosterRef at h
  cases hu : ro.ownerId with
  | none => rw [hu] at h; simp at h
  | some uid =>
    rw [hu] at h
    dsimp only at h
    by_cases hk : (uid == "") = true
    · rw [if_pos hk] at h
      simp at h
    · rw [if_neg hk] at h
      cases hf : db.teams.find? (teamKey sid (toString ro.rosterId)) with
      | none => rw [hf] at h; simp at h
      | some t =>
        rw [hf] at h
        simp only [List.mem_singleton] at h
        exact ⟨t, rfl, h⟩

theorem rosterRef_seasonId {sid : Nat} {db : DB} {ro : SleeperRoster} {r : TeamRef}
    (h : r ∈ rosterRef sid db ro) : r.seasonId = sid := by
  obtain ⟨t, hf, hr⟩ := rosterRef_char h
  have := List.find?_some hf
  unfold teamKey at this
  simp only [Bool.and_eq_true, beq_iff_eq] at this
  rw [hr]
  exact this.1

theorem rosterRefs_ids_nodup (sid : Nat) (db : DB)
    (hteams : (db.teams.map (fun t => t.id)).Nodup) :
    ∀ (rs : List SleeperRoster),
      (rs.map (fun ro => toString ro.rosterId)).Nodup →
      ((rs.flatMap (rosterRef sid db)).map (fun r => r.id)).Nodup
  | [], _ => by simp
  | ro :: rest, hnd => by
    rw [List.map_cons, List.nodup_cons] at hnd
    have ih := rosterRefs_ids_nodup sid db hteams rest hnd.2
    rw [List.flatMap_cons, List.map_append, List.nodup_append]
    refine ⟨?_, ih, ?_⟩
    · -- rosterRef produces zero or one element
      rcases hu : ro.ownerId with _ | uid
      · simp [rosterRef, hu]
      · by_cases hk : (uid == "") = true
        · simp [rosterRef, hu, hk]
        · cases hf : db.teams.find? (teamKey sid (toString ro.rosterId)) with
          | none => simp [rosterRef, hu, hk, hf]
          | some t => simp [rosterRef, hu, hk, hf]
    · intro v hv hv'
      obtain ⟨r, hrm, hrv⟩ := List.mem_map.mp hv
      obtain ⟨r', hrm', hrv'⟩ := List.mem_map.mp hv'
      obtain ⟨ro', hro', hrm'2⟩ := List.mem_flatMap.mp hrm'
      obtain ⟨t, hft, hrt⟩ := rosterRef_char hrm
      obtain ⟨t', hft', hrt'⟩ := rosterRef_char hrm'2
      have hmt := List.mem_of_find?_eq_some hft
      have hmt' := List.mem_of_find?_eq_some hft'
      have hid : t.id = t'.id := by
        rw [hrt] at hrv
        rw [hrt'] at hrv'
        rw [← hrv'] at hrv
        exact hrv
      have hteq := List.inj_on_of_nodup_map hteams hmt hmt' hid
      have hp := List.find?_some hft
      have hp' := List.find?_some hft'
      unfold teamKey at hp hp'
      simp only [Bool.and_eq_true, beq_iff_eq] at hp hp'
      have hstr : toString ro.rosterId = toString ro'.rosterId := by
        have e1 := hp.2
        rw [hteq] at e1
        rw [hp'.2] at e1
        exact (Option.some_inj.mp e1).symm
      exact hnd.1 (hstr ▸ List.mem_map_of_mem _ hro')

theorem gKey_some_inv {tlook : String → Option TeamRef} {w : Nat}
    {parts : List SleeperMatchupEntry} {v : Nat × Nat × Nat}
    (h : gKey tlook (w, parts) = some v) :
    ∃ p1 p2 t1 t2, parts = [p1, p2] ∧ tlook (toString p1.rosterId) = some t1 ∧
      tlook (toString p2.rosterId) = some t2 ∧ v = (w, t1.id, t2.id) := by
  rcases parts with _ | ⟨p1, _ | ⟨p2, _ | ⟨p3, rest⟩⟩⟩
  · simp [gKey] at h
  · simp [gKey] at h
  · unfold gKey at h
    dsimp only at h
    cases ht1 : tlook (toString p1.rosterId) with
    | none => rw [ht1] at h; simp at h
    | some t1 =>
      cases ht2 : tlook (toString p2.rosterId) with
      | none => rw [ht1, ht2] at h; simp at h
      | some t2 =>
        rw [ht1, ht2] at h
        simp only [Option.some_inj] at h
        exact ⟨p1, p2, t1, t2, rfl, ht1, ht2, h.symm⟩
  · simp [gKey] at h

theorem gKey_fst {tlook : String → Option TeamRef} {w : Nat}
    {parts : List SleeperMatchupEntry} {k : Nat × Nat × Nat}
    (h : gKey tlook (w, parts) = some k) : k.1 = w := by
  obtain ⟨p1, p2, t1, t2, _, _, _, hk⟩ := gKey_some_inv h
  rw [hk]

theorem weekGroupKeys_nodup (tlook : String → Option TeamRef) (w : Nat)
    (es : List SleeperMatchupEntry)
    (hes : (es.map (fun e => toString e.rosterId)).Nodup)
    (hinj : ∀ s s', s ≠ s' → ∀ t t', tlook s = some t → tlook s' = some t' →
      t.id ≠ t'.id) :
    (((weekMatchupGroups es).map (fun g => (w, g.2))).filterMap (gKey tlook)).Nodup := by
  unfold weekMatchupGroups
  rw [List.map_map, List.filterMap_map]
  apply nodup_filterMap_of_inj (dedupFirst_nodup [] _).1
  intro k hk k' hk' v hv hv'
  dsimp only [Function.comp] at hv hv'
  by_contra hkk
  obtain ⟨p1, p2, t1, t2, hparts, ht1, ht2, hveq⟩ := gKey_some_inv hv
  obtain ⟨q1, q2, s1, s2, hparts', hs1, hs2, hveq'⟩ := gKey_some_inv hv'
  have hp1 : p1 ∈ es.filter (fun e => e.matchupId == some k) := by
    rw [hparts]
    simp
  have hq1 : q1 ∈ es.filter (fun e => e.matchupId == some k') := by
    rw [hparts']
    simp
  have hp1es := List.mem_of_mem_filter hp1
  have hq1es := List.mem_of_mem_filter hq1
  have hp1k : p1.matchupId = some k := by
    have := List.of_mem_filter hp1
    simpa using this
  have hq1k : q1.matchupId = some k' := by
    have := List.of_mem_filter hq1
    simpa using this
  have hpq : p1 ≠ q1 := by
    intro he
    rw [he, hq1k] at hp1k
    exact hkk (Option.some_inj.mp hp1k).symm
  have hstr : toString p1.rosterId ≠ toString q1.rosterId := by
    intro he
    exact hpq (List.inj_on_of_nodup_map hes hp1es hq1es he)
  have hids : t1.id ≠ s1.id := hinj _ _ hstr t1 s1 ht1 hs1
  rw [hveq] at hveq'
  have : t1.id = s1.id := by
    have := congrArg (fun x => x.2.1) hveq'
    simpa using this
  exact hids this

theorem groupKeys_fst {tlook : String → Option TeamRef}
    {p : Nat × List SleeperMatchupEntry} {k : Nat × Nat × Nat}
    (hk : k ∈ ((weekMatchupGroups p.2).map (fun g => (p.1, g.2))).filterMap
      (gKey tlook)) :
    k.1 = p.1 := by
  obtain ⟨g', hg', hkey⟩ := List.mem_filterMap.mp hk
  obtain ⟨g0, _, hgeq⟩ := List.mem_map.mp hg'
  rw [← hgeq] at hkey
  exact gKey_fst hkey

theorem sleeperChunks_mem {rem : SleeperRemote} {lid : String} {ws : List Nat}
    {c : Nat × List SleeperMatchupEntry}
    (hc : c ∈ ws.filterMap (fun w =>
      if (rem.matchups lid w).isEmpty then none
      else some (w, rem.matchups lid w))) :
    c.1 ∈ ws := by
  obtain ⟨w, hw, hfw⟩ := List.mem_filterMap.mp hc
  by_cases he : (rem.matchups lid w).isEmpty = true
  · rw [if_pos he] at hfw
    cases hfw
  · rw [if_neg he] at hfw
    injection hfw with h
    rw [← h]
    exact hw

theorem chunkedKeys_nodup (rem : SleeperRemote) (lid : String)
    (tlook : String → Option TeamRef)
    (h2 : ∀ w, ((rem.matchups lid w).map (fun e => toString e.rosterId)).Nodup)
    (hinj : ∀ s s', s ≠ s' → ∀ t t', tlook s = some t → tlook s' = some t' →
      t.id ≠ t'.id) :
    ∀ (ws : List Nat), ws.Nodup →
      (((ws.filterMap (fun w =>
          if (rem.matchups lid w).isEmpty then none
          else some (w, rem.matchups lid w))).flatMap
        (fun p => (weekMatchupGroups p.2).map (fun g => (p.1, g.2)))).filterMap
          (gKey tlook)).Nodup
  | [], _ => by simp
  | w :: ws, hnd => by
    rw [List.filterMap_cons]
    have hndw := List.nodup_cons.mp hnd
    by_cases he : (rem.matchups lid w).isEmpty = true
    · rw [if_pos he]
      exact chunkedKeys_nodup rem lid tlook h2 hinj ws hndw.2
    · rw [if_neg he]
      rw [List.flatMap_cons, List.filterMap_append, List.nodup_append]
      refine ⟨weekGroupKeys_nodup tlook w _ (h2 w) hinj,
        chunkedKeys_nodup rem lid tlook h2 hinj ws hndw.2, ?_⟩
      intro k hk hk'
      have h1 : k.1 = w := groupKeys_fst (p := ((w, rem.matchups lid w))) hk
      obtain ⟨g', hg', hkey⟩ := List.mem_filterMap.mp hk'
      obtain ⟨p', hp', hgp⟩ := List.mem_flatMap.mp hg'
      have h2' : k.1 = p'.1 :=
        groupKeys_fst (List.mem_filterMap.mpr ⟨g', hgp, hkey⟩)
      have h3 : p'.1 ∈ ws := sleeperChunks_mem hp'
      rw [h1] at h2'
      exact hndw.1 (h2' ▸ h3)

theorem sleeperGroupKeys_nodup (rem : SleeperRemote) (lid : String) (tw : Nat)
    (tlook : String → Option TeamRef)
    (h2 : ∀ w, ((rem.matchups lid w).map (fun e => toString e.rosterId)).Nodup)
    (hinj : ∀ s s', s ≠ s' → ∀ t t', tlook s = some t → tlook s' = some t' →
      t.id ≠ t'.id) :
    ((sleeperGroupList rem lid tw).filterMap (gKey tlook)).Nodup := by
  have h := chunkedKeys_nodup rem lid tlook h2 hinj (List.range' 1 tw)
    (List.nodup_range' 1 tw)
  exact h

/-! ### Transferring settledness along frame equalities -/

theorem rosterSettled_of_eq {users : List SleeperUser} {sid : Nat}
    {ro : SleeperRoster} {db db' : DB} (ho : db'.owners = db.owners)
    (ht : db'.teams = db.teams) (h : RosterSettled users sid ro db) :
    RosterSettled users sid ro db' := by
  intro uid hu hk
  obtain ⟨o, t, h1, h2, h3, h4⟩ := h uid hu hk
  exact ⟨o, t, by rw [ho]; exact h1, h2, by rw [ht]; exact h3, h4⟩

theorem groupSettled_of_eq {tlook : String → Option TeamRef} {sid pws : Nat}
    {g : Nat × List SleeperMatchupEntry} {db db' : DB}
    (hm : db'.matchups = db.matchups) (h : GroupSettled tlook sid pws g db) :
    GroupSettled tlook sid pws g db' := by
  intro p1 p2 t1 t2 hg2 ht1 ht2
  obtain ⟨row, h1, h2⟩ := h p1 p2 t1 t2 hg2 ht1 ht2
  exact ⟨row, by rw [hm]; exact h1, h2⟩

theorem tradeSettled_of_eq {resolve : String → String}
    {tlook : String → Option TeamRef} {tt : TaggedTrade} {db db' : DB}
    (htr : db'.trades = db.trades) (h : TradeSettled resolve tlook tt db) :
    TradeSettled resolve tlook tt db' := by
  obtain ⟨row, h1, h2⟩ := h
  exact ⟨row, by rw [htr]; exact h1, h2⟩

theorem teamsWF_of_eq {db db' : DB} (ht : db'.teams = db.teams)
    (hn : db'.nextTeamId = db.nextTeamId) (h : TeamsWF db) : TeamsWF db' := by
  constructor
  · rw [ht]
    exact h.1
  · rw [ht, hn]
    exact h.2

theorem rosterRef_eq_of_teams {db db' : DB} (sid : Nat) (ht : db'.teams = db.teams) :
    rosterRef sid db' = rosterRef sid db := by
  funext ro
  unfold rosterRef
  rw [ht]

/-! ### Reducing the later import stages over a settled season -/

theorem importUsersAndRosters_reduce (rem : SleeperRemote) (lid : String) (L : Nat)
    (db : DB) (a : SeasonRow)
    (hsea : SettledAt (seasonKey L (seasonYearOf rem lid)) (updSeasonRow (rem.league lid))
      db.seasons a) :
    importUsersAndRosters rem lid (some L) db =
      processRosters (rem.users lid) a.id (rem.rosters lid) db := by
  show (let s := importSeason rem lid (some L) db
        processRosters (rem.users lid) s.2.1 (rem.rosters lid) s.1) = _
  rw [importSeason_of_settled rem lid L db a hsea]

theorem importMatchups_reduce (rem : SleeperRemote) (lid : String) (tw L : Nat)
    (db : DB) (a : SeasonRow)
    (hsea : SettledAt (seasonKey L (seasonYearOf rem lid)) (updSeasonRow (rem.league lid))
      db.seasons a)
    (hros : ∀ ro ∈ rem.rosters lid, RosterSettled (rem.users lid) a.id ro db) :
    importMatchups rem lid tw (some L) db =
      processSleeperGroups
        (teamRefLookup ((rem.rosters lid).flatMap (rosterRef a.id db))) a.id
        ((rem.league lid).playoffWeekStart.getD 15) (sleeperGroupList rem lid tw)
        db := by
  have hiur := importUsersAndRosters_of_all_settled rem lid L db a hsea hros
  unfold importMatchups
  dsimp only
  rw [hiur]
  dsimp only
  cases hR : (rem.rosters lid).flatMap (rosterRef a.id db) with
  | nil =>
    rw [importSeason_of_settled rem lid L db a hsea]
  | cons t ts =>
    dsimp only
    have htm : t ∈ (rem.rosters lid).flatMap (rosterRef a.id db) := by
      rw [hR]
      exact List.mem_cons_self t ts
    obtain ⟨ro, _, hmem⟩ := List.mem_flatMap.mp htm
    rw [rosterRef_seasonId hmem]

theorem importTrades_reduce (rem : SleeperRemote) (lid : String) (tw L : Nat)
    (db : DB) (a : SeasonRow)
    (hsea : SettledAt (seasonKey L (seasonYearOf rem lid)) (updSeasonRow (rem.league lid))
      db.seasons a)
    (hros : ∀ ro ∈ rem.rosters lid, RosterSettled (rem.users lid) a.id ro db) :
    importTrades rem lid tw (some L) db =
      processSleeperTrades rem.playerName
        (teamRefLookupT ((rem.rosters lid).flatMap (rosterRef a.id db))) a.id
        (sleeperAllTrades rem lid tw) db := by
  have hiur := importUsersAndRosters_of_all_settled rem lid L db a hsea hros
  unfold importTrades
  dsimp only
  rw [hiur]
  dsimp only
  cases hR : (rem.rosters lid).flatMap (rosterRef a.id db) with
  | nil =>
    rw [importSeason_of_settled rem lid L db a hsea]
  | cons t ts =>
    dsimp only
    have htm : t ∈ (rem.rosters lid).flatMap (rosterRef a.id db) := by
      rw [hR]
      exact List.mem_cons_self t ts
    obtain ⟨ro, _, hmem⟩ := List.mem_flatMap.mp htm
    rw [rosterRef_seasonId hmem]

theorem importMatchups_of_all_settled (rem : SleeperRemote) (lid : String)
    (tw L : Nat) (db : DB) (a : SeasonRow)
    (hsea : SettledAt (seasonKey L (seasonYearOf rem lid)) (updSeasonRow (rem.league lid))
      db.seasons a)
    (hros : ∀ ro ∈ rem.rosters lid, RosterSettled (rem.users lid) a.id ro db)
    (hgrp : ∀ g ∈ sleeperGroupList rem lid tw,
      GroupSettled (teamRefLookup ((rem.rosters lid).flatMap (rosterRef a.id db)))
        a.id ((rem.league lid).playoffWeekStart.getD 15) g db) :
    ∃ out, importMatchups rem lid tw (some L) db = (db, out) := by
  obtain ⟨out, hout⟩ := processSleeperGroups_of_settled
    (teamRefLookup ((rem.rosters lid).flatMap (rosterRef a.id db))) a.id
    ((rem.league lid).playoffWeekStart.getD 15) (sleeperGroupList rem lid tw) db hgrp
  exact ⟨out, by rw [importMatchups_reduce rem lid tw L db a hsea hros, hout]⟩

theorem importTrades_of_all_settled (rem : SleeperRemote) (lid : String)
    (tw L : Nat) (db : DB) (a : SeasonRow)
    (hsea : SettledAt (seasonKey L (seasonYearOf rem lid)) (updSeasonRow (rem.league lid))
      db.seasons a)
    (hros : ∀ ro ∈ rem.rosters lid, RosterSettled (rem.users lid) a.id ro db)
    (htr : ∀ tt ∈ sleeperAllTrades rem lid tw,
      TradeSettled rem.playerName
        (teamRefLookupT ((rem.rosters lid).flatMap (rosterRef a.id db))) tt db) :
    ∃ out, importTrades rem lid tw (some L) db = (db, out) := by
  obtain ⟨out, hout⟩ := processSleeperTrades_of_settled rem.playerName
    (teamRefLookupT ((rem.rosters lid).flatMap (rosterRef a.id db))) a.id
    (sleeperAllTrades rem lid tw) db htr
  exact ⟨out, by rw [importTrades_reduce rem lid tw L db a hsea hros, hout]⟩

/-- Re-running the single-season import on a fully settled store changes
nothing. -/
theorem importSingleSeason_of_all_settled (rem : SleeperRemote) (lid : String)
    (tw L : Nat) (D : DB) (a : SeasonRow)
    (hsea : SettledAt (seasonKey L (seasonYearOf rem lid)) (updSeasonRow (rem.league lid))
      D.seasons a)
    (hros : ∀ ro ∈ rem.rosters lid, RosterSettled (rem.users lid) a.id ro D)
    (hgrp : ∀ g ∈ sleeperGroupList rem lid tw,
      GroupSettled (teamRefLookup ((rem.rosters lid).flatMap (rosterRef a.id D)))
        a.id ((rem.league lid).playoffWeekStart.getD 15) g D)
    (htr : ∀ tt ∈ sleeperAllTrades rem lid tw,
      TradeSettled rem.playerName
        (teamRefLookupT ((rem.rosters lid).flatMap (rosterRef a.id D))) tt D)
    (hch : ChampSettled rem lid a.id ((rem.rosters lid).flatMap (rosterRef a.id D)) D) :
    (importSingleSeason rem lid tw (some L) D).1 = D := by
  unfold importSingleSeason
  dsimp only
  rw [importSeason_of_settled rem lid L D a hsea]
  dsimp only
  rw [importUsersAndRosters_of_all_settled rem lid L D a hsea hros]
  dsimp only
  obtain ⟨o3, ho3⟩ := importMatchups_of_all_settled rem lid tw L D a hsea hros hgrp
  rw [ho3]
  dsimp only
  obtain ⟨o4, ho4⟩ := importTrades_of_all_settled rem lid tw L D a hsea hros htr
  rw [ho4]
  dsimp only
  obtain ⟨o5, ho5⟩ := detectAndSetChampion_of_settled rem lid a.id
    ((rem.rosters lid).flatMap (rosterRef a.id D)) D hch
  rw [ho5]

/-- One run of the single-season import leaves every table settled for a
re-run against the same remote data. -/
theorem importSingleSeason_establishes (rem : SleeperRemote) (lid : String)
    (tw L : Nat) (db : DB)
    (h1 : ((rem.rosters lid).map (fun ro => toString ro.rosterId)).Nodup)
    (h2 : ∀ w, ((rem.matchups lid w).map (fun e => toString e.rosterId)).Nodup)
    (h3 : ((sleeperAllTrades rem lid tw).map (fun tt => tt.tx.transactionId)).Nodup)
    (hwf : TeamsWF db) :
    ∃ a, SettledAt (seasonKey L (seasonYearOf rem lid)) (updSeasonRow (rem.league lid))
        (importSingleSeason rem lid tw (some L) db).1.seasons a ∧
      (∀ ro ∈ rem.rosters lid, RosterSettled (rem.users lid) a.id ro
        (importSingleSeason rem lid tw (some L) db).1) ∧
      (∀ g ∈ sleeperGroupList rem lid tw,
        GroupSettled (teamRefLookup ((rem.rosters lid).flatMap
          (rosterRef a.id (importSingleSeason rem lid tw (some L) db).1))) a.id
          ((rem.league lid).playoffWeekStart.getD 15) g
          (importSingleSeason rem lid tw (some L) db).1) ∧
      (∀ tt ∈ sleeperAllTrades rem lid tw,
        TradeSettled rem.playerName (teamRefLookupT ((rem.rosters lid).flatMap
          (rosterRef a.id (importSingleSeason rem lid tw (some L) db).1))) tt
          (importSingleSeason rem lid tw (some L) db).1) ∧
      ChampSettled rem lid a.id ((rem.rosters lid).flatMap
        (rosterRef a.id (importSingleSeason rem lid tw (some L) db).1))
        (importSingleSeason rem lid tw (some L) db).1 := by
  obtain ⟨a0, ha0, hid0⟩ := importSeason_some_settled_id rem lid L db
  have hest2 := processRosters_establishes (rem.users lid) a0.id (rem.rosters lid)
    (importSeason rem lid (some L) db).1 h1 ⟨hwf.1, hwf.2⟩
  have hsea2 : SettledAt (seasonKey L (seasonYearOf rem lid))
      (updSeasonRow (rem.league lid))
      (processRosters (rem.users lid) a0.id (rem.rosters lid)
        (importSeason rem lid (some L) db).1).1.seasons a0 := by
    rw [processRosters_seasons]
    exact ha0
  unfold importSingleSeason
  dsimp only
  rw [importUsersAndRosters_reduce rem lid L (importSeason rem lid (some L) db).1
    a0 ha0]
  rw [hest2.2.2, hid0]
  generalize hD2 : (processRosters (rem.users lid) a0.id (rem.rosters lid)
    (importSeason rem lid (some L) db).1).1 = D2
  rw [hD2] at hest2 hsea2
  have hros2 := hest2.2.1
  have hwf2 := hest2.1
  have hinj2 := teamRefLookup_inj (rosterRefs_ids_nodup a0.id D2 hwf2.1
    (rem.rosters lid) h1)
  have hkeys := sleeperGroupKeys_nodup rem lid tw
    (teamRefLookup ((rem.rosters lid).flatMap (rosterRef a0.id D2))) h2 hinj2
  rw [importMatchups_reduce rem lid tw L D2 a0 hsea2 hros2]
  have hgrp3 := processSleeperGroups_establishes
    (teamRefLookup ((rem.rosters lid).flatMap (rosterRef a0.id D2))) a0.id
    ((rem.league lid).playoffWeekStart.getD 15) (sleeperGroupList rem lid tw) D2 hkeys
  obtain ⟨ms3, nm3, hf3⟩ := processSleeperGroups_frame
    (teamRefLookup ((rem.rosters lid).flatMap (rosterRef a0.id D2))) a0.id
    ((rem.league lid).playoffWeekStart.getD 15) (sleeperGroupList rem lid tw) D2
  generalize hD3 : (processSleeperGroups
    (teamRefLookup ((rem.rosters lid).flatMap (rosterRef a0.id D2))) a0.id
    ((rem.league lid).playoffWeekStart.getD 15) (sleeperGroupList rem lid tw) D2).1 =
    D3
  rw [hD3] at hgrp3 hf3
  have hsea3 : SettledAt (seasonKey L (seasonYearOf rem lid))
      (updSeasonRow (rem.league lid)) D3.seasons a0 := by
    rw [hf3]
    exact hsea2
  have hros3 : ∀ ro ∈ rem.rosters lid, RosterSettled (rem.users lid) a0.id ro D3 :=
    fun ro hro => rosterSettled_of_eq (by rw [hf3]) (by rw [hf3]) (hros2 ro hro)
  have hwf3 : TeamsWF D3 := teamsWF_of_eq (by rw [hf3]) (by rw [hf3]) hwf2
  have hteams3 : D3.teams = D2.teams := by rw [hf3]
  rw [importTrades_reduce rem lid tw L D3 a0 hsea3 hros3,
    rosterRef_eq_of_teams a0.id hteams3]
  have htr4 := processSleeperTrades_establishes rem.playerName
    (teamRefLookupT ((rem.rosters lid).flatMap (rosterRef a0.id D2))) a0.id
    (sleeperAllTrades rem lid tw) D3 h3
  obtain ⟨ts4, nt4, hf4⟩ := processSleeperTrades_frame rem.playerName
    (teamRefLookupT ((rem.rosters lid).flatMap (rosterRef a0.id D2))) a0.id
    (sleeperAllTrades rem lid tw) D3
  generalize hD4 : (processSleeperTrades rem.playerName
    (teamRefLookupT ((rem.rosters lid).flatMap (rosterRef a0.id D2))) a0.id
    (sleeperAllTrades rem lid tw) D3).1 = D4
  rw [hD4] at htr4 hf4
  have hsea4 : SettledAt (seasonKey L (seasonYearOf rem lid))
      (updSeasonRow (rem.league lid)) D4.seasons a0 := by
    rw [hf4]
    exact hsea3
  have hros4 : ∀ ro ∈ rem.rosters lid, RosterSettled (rem.users lid) a0.id ro D4 :=
    fun ro hro => rosterSettled_of_eq (by rw [hf4]) (by rw [hf4]) (hros3 ro hro)
  have hgrp4 : ∀ g ∈ sleeperGroupList rem lid tw,
      GroupSettled (teamRefLookup ((rem.rosters lid).flatMap (rosterRef a0.id D2)))
        a0.id ((rem.league lid).playoffWeekStart.getD 15) g D4 :=
    fun g hg => groupSettled_of_eq (by rw [hf4]) (hgrp3 g hg)
  have hwf4 : TeamsWF D4 := teamsWF_of_eq (by rw [hf4]) (by rw [hf4]) hwf3
  have hteams4 : D4.teams = D2.teams := by rw [hf4]; exact hteams3
  have hch5 := detectAndSetChampion_establishes rem lid a0.id
    ((rem.rosters lid).flatMap (rosterRef a0.id D2)) D4
  obtain ⟨ss5, hf5⟩ := detectAndSetChampion_frame rem lid a0.id
    ((rem.rosters lid).flatMap (rosterRef a0.id D2)) D4
  obtain ⟨a1, ha1, haid⟩ := detectAndSetChampion_preserves_season rem lid a0.id
    ((rem.rosters lid).flatMap (rosterRef a0.id D2)) D4 L lid a0 hsea4
  generalize hD5 : (detectAndSetChampion rem lid a0.id
    ((rem.rosters lid).flatMap (rosterRef a0.id D2)) D4).1 = D5
  rw [hD5] at hch5 hf5 ha1
  have hros5 : ∀ ro ∈ rem.rosters lid, RosterSettled (rem.users lid) a0.id ro D5 :=
    fun ro hro => rosterSettled_of_eq (by rw [hf5]) (by rw [hf5]) (hros4 ro hro)
  have hgrp5 : ∀ g ∈ sleeperGroupList rem lid tw,
      GroupSettled (teamRefLookup ((rem.rosters lid).flatMap (rosterRef a0.id D2)))
        a0.id ((rem.league lid).playoffWeekStart.getD 15) g D5 :=
    fun g hg => groupSettled_of_eq (by rw [hf5]) (hgrp4 g hg)
  have htr5 : ∀ tt ∈ sleeperAllTrades rem lid tw,
      TradeSettled rem.playerName
        (teamRefLookupT ((rem.rosters lid).flatMap (rosterRef a0.id D2))) tt D5 :=
    fun tt htt => tradeSettled_of_eq (by rw [hf5]) (htr4 tt htt)
  have hteams5 : D5.teams = D2.teams := by rw [hf5]; exact hteams4
  have hrr5 : rosterRef a1.id D5 = rosterRef a0.id D2 := by
    rw [haid]
    exact rosterRef_eq_of_teams a0.id hteams5
  refine ⟨a1, ha1, ?_, ?_, ?_, ?_⟩
  · rw [haid]
    exact hros5
  · rw [hrr5, haid]
    exact hgrp5
  · rw [hrr5]
    exact htr5
  · rw [hrr5, haid]
    exact hch5

/-- C1 (confirmed): the single-season import is idempotent — on remote data
whose rosters, per-week matchup entries and trades carry distinct natural
keys, and over a store whose team ids are unique and below the id counter,
running the import a second time against unchanged remote data leaves every
table and every counter of the store exactly as the first run left them:
the second run finds every row by its natural key and its in-place update
is a fixed point, so no duplicate is inserted and no field changes. -/
theorem import_idempotent :
    ∀ (rem : SleeperRemote) (lid : String) (tw L : Nat) (db : DB),
      ((rem.rosters lid).map (fun ro => toString ro.rosterId)).Nodup →
      (∀ w, ((rem.matchups lid w).map (fun e => toString e.rosterId)).Nodup) →
      ((sleeperAllTrades rem lid tw).map (fun tt => tt.tx.transactionId)).Nodup →
      (db.teams.map (fun t => t.id)).Nodup →
      (∀ t ∈ db.teams, t.id < db.nextTeamId) →
      (importSingleSeason rem lid tw (some L)
        (importSingleSeason rem lid tw (some L) db).1).1 =
        (importSingleSeason rem lid tw (some L) db).1 := by
  intro rem lid tw L db h1 h2 h3 hnd hbound
  obtain ⟨a, hsea, hros, hgrp, htr, hch⟩ :=
    importSingleSeason_establishes rem lid tw L db h1 h2 h3 ⟨hnd, hbound⟩
  exact importSingleSeason_of_all_settled rem lid tw L
    (importSingleSeason rem lid tw (some L) db).1 a hsea hros hgrp htr hch

/-- A small but full Sleeper season: two users, two rosters, one played
week, one completed trade. -/
def sRemC1 : SleeperRemote :=
  { league := fun _ =>
      { emptySleeperLeagueData with name := some "Test", season := some 2023,
                                    status := some "complete",
                                    playoffWeekStart := some 1 },
    users := fun _ =>
      [{ userId := some "U1", username := some "alice", displayName := some "Alice",
         avatar := none },
       { userId := some "U2", username := some "bob", displayName := some "Bob",
         avatar := some "av2" }],
    rosters := fun _ =>
      [{ rosterId := 1, ownerId := some "U1",
         settings := { wins := some 1, losses := some 0, ties := some 0,
                       fpts := some 100, fptsDecimal := some 25,
                       fptsAgainst := some 80, fptsAgainstDecimal := some 75 } },
       { rosterId := 2, ownerId := some "U2",
         settings := { wins := some 0, losses := some 1, ties := some 0,
                       fpts := some 80, fptsDecimal := some 75,
                       fptsAgainst := some 100, fptsAgainstDecimal := some 25 } }],
    matchups := fun _ w =>
      if w = 1 then
        [{ rosterId := 1, matchupId := some 1, points := some 100.25 },
         { rosterId := 2, matchupId := some 1, points := some 80.75 }]
      else [],
    transactions := fun _ w =>
      if w = 1 then
        [{ transactionId := some "tx1", ttype := some "trade",
           status := some "complete", rosterIds := [1, 2],
           adds := [("p9", 1)], drops := [("p9", 2)], draftPicks := [],
           created := some 1700000 }]
      else [],
    winnersBracket := fun _ => [],
    playerName := fun s => s,
    playersLoaded := true,
    nowYear := 2024 }

/-- Witness for C1: on the concrete two-roster season, re-running the import
reproduces the first run's store exactly. -/
theorem import_idempotent_witness :
    (importSingleSeason sRemC1 "L1" 1 (some 7)
        (importSingleSeason sRemC1 "L1" 1 (some 7) emptyDB).1).1 =
      (importSingleSeason sRemC1 "L1" 1 (some 7) emptyDB).1 := by
  refine import_idempotent sRemC1 "L1" 1 7 emptyDB (by decide) ?_ (by decide)
    (by decide) (by decide)
  intro w
  show ((if w = 1 then
      [({ rosterId := 1, matchupId := some 1, points := some 100.25 }
          : SleeperMatchupEntry),
       { rosterId := 2, matchupId := some 1, points := some 80.75 }]
    else []).map (fun e => toString e.rosterId)).Nodup
  split
  · decide
  · decide

end LeagueLegacy
